import Mathlib

/-! # Dictionary over RADOS map-objects (`src/DictRados.cpp`)

Shallow embedding of the dovecot-ceph-plugin and the properties proved about
it: the dictionary driver first, then the creation of the storage
(`src/storage-rbox/rbox-storage.cpp`) and the saving of mails
(`src/storage-rados/rados-save.c`).  The definitions of all three come first,
the lemmas and theorems after them.

Conventions of the embedding.

* A C string (`const char *`) is the list of its characters before the
  terminating NUL, so a well-formed C string holds no NUL character.
* A `bufferlist` / `std::string` payload is a list of characters that may
  hold NUL characters.
* A `std::map<std::string, bufferlist>` is an association list.
* The object store (librados) is outside the repository.  It is modelled by
  the state of the one map-object a dictionary addresses and by the log of
  the requests sent to it.
-/

namespace DictRados

/-- A C string: the characters before the terminating NUL. -/
abbrev CStr := List Char

/-- Payload bytes of a `bufferlist` or `std::string`. -/
abbrev Bytes := List Char

/-- The macro `DICT_USERNAME_SEPARATOR`. -/
def DICT_USERNAME_SEPARATOR : Char := '/'

/-- The function `rados_escape_username`: the loop over the characters of the
user name, appending to the result string. -/
def rados_escape_username : CStr → CStr
  | [] => []
  | c :: p =>
    if c = DICT_USERNAME_SEPARATOR then
      '\\' :: '-' :: rados_escape_username p
    else if c = '\\' then
      '\\' :: '\\' :: rados_escape_username p
    else
      c :: rados_escape_username p

/-- Decoder of the escaping, following the words of the specification:
backslash,minus stands for the separator and backslash,backslash for a
backslash; every other character stands for itself. -/
def rados_unescape_username : CStr → CStr
  | [] => []
  | [c] => [c]
  | c :: d :: p =>
    if c = '\\' then
      if d = '-' then '/' :: rados_unescape_username p
      else if d = '\\' then '\\' :: rados_unescape_username p
      else c :: rados_unescape_username (d :: p)
    else c :: rados_unescape_username (d :: p)

/-- The per-character replacement performed by `rados_escape_username`. -/
def escape_char (c : Char) : CStr :=
  if c = '/' then ['\\', '-'] else if c = '\\' then ['\\', '\\'] else [c]

/-- The user name that `rados_dict_init` stores with `setUsername` and then
passes to `set_namespace`: the name itself when `strchr` finds no separator,
the escaped name otherwise. -/
def rados_dict_init_namespace (username : CStr) : CStr :=
  if DICT_USERNAME_SEPARATOR ∉ username then username
  else rados_escape_username username

/-! ## The object store (librados), as the dictionary sees it -/

/-- A `std::map<std::string, bufferlist>`, and the key/value content of a
map-object, as an association list. -/
abbrev Omap := List (CStr × Bytes)

/-- The call `map.find(key)`: the value of the first pair with that key. -/
def omap_find (key : CStr) : Omap → Option Bytes
  | [] => none
  | (k, v) :: m => if k = key then some v else omap_find key m

/-- Insertion of a pair at its place in ascending key order. -/
def omap_ordered_insert (k : CStr) (v : Bytes) : Omap → Omap
  | [] => [(k, v)]
  | (k', v') :: m =>
    if k < k' then (k, v) :: (k', v') :: m
    else (k', v') :: omap_ordered_insert k v m

/-- The call `std::map::insert`: a pair whose key is already present is not
inserted, a new pair goes to its place in key order. -/
def std_map_insert (k : CStr) (v : Bytes) (m : Omap) : Omap :=
  if (omap_find k m).isSome then m else omap_ordered_insert k v m

/-- The `std::map` holding the given pairs. -/
def std_map_of (pairs : Omap) : Omap :=
  pairs.foldl (fun acc kv => std_map_insert kv.1 kv.2 acc) []

/-- Server side of `omap_set` for one pair: the value of an existing key is
replaced, a new key is added. -/
def omap_put (k : CStr) (v : Bytes) : Omap → Omap
  | [] => [(k, v)]
  | (k', v') :: m => if k' = k then (k, v) :: m else (k', v') :: omap_put k v m

/-- Server side of `omap_rm_keys`: the pairs with one of the keys are dropped. -/
def omap_remove (keys : List CStr) (m : Omap) : Omap :=
  m.filter (fun kv => decide (kv.1 ∉ keys))

/-- The value of `ENOENT` in `errno.h`. -/
def ENOENT : Int := 2

/-- A request sent to the store through the `IoCtx` of the dictionary. -/
inductive StoreRequest
  | read_omap_get_vals_by_keys (keys : List CStr)
  | omap_set (map : Omap)
  | omap_rm_keys (keys : List CStr)
  deriving DecidableEq

/-- The store as one dictionary sees it: the map-object named by its oid in
its namespace (`none` while the object does not exist) and the requests sent
so far, oldest first. -/
structure Store where
  object : Option Omap
  requests : List StoreRequest
  deriving DecidableEq

/-- What a read operation hands back: the status `err` returned by
`IoCtx::operate`, the status `r_val` of the `omap_get_vals_by_keys` step and
the map filled by it. -/
structure ReadReply where
  err : Int
  r_val : Int
  map : Omap
  deriving DecidableEq

/-- A read operation with one `omap_get_vals_by_keys` step, served without a
transport failure: a missing object answers `-ENOENT` and leaves `r_val` and
the map as the caller initialised them, an existing object answers the stored
pairs whose key is asked for. -/
def IoCtx_operate_read (s : Store) (keys : List CStr) (r_val0 : Int) (map0 : Omap) :
    ReadReply × Store :=
  let s' := { s with requests := s.requests ++ [StoreRequest.read_omap_get_vals_by_keys keys] }
  match s.object with
  | none => (⟨-ENOENT, r_val0, map0⟩, s')
  | some m => (⟨0, 0, std_map_of (m.filter (fun kv => decide (kv.1 ∈ keys)))⟩, s')

/-- The call `IoCtx::omap_set`, served without a transport failure: the
object is created when missing and every pair of the map is put. -/
def IoCtx_omap_set (s : Store) (map : Omap) : Int × Store :=
  let m := (s.object.getD [])
  (0, { object := some (map.foldl (fun acc kv => omap_put kv.1 kv.2 acc) m),
        requests := s.requests ++ [StoreRequest.omap_set map] })

/-- The call `IoCtx::omap_rm_keys`, served without a transport failure: a
missing object answers `-ENOENT`, an existing one loses the keys. -/
def IoCtx_omap_rm_keys (s : Store) (keys : List CStr) : Int × Store :=
  let s' := { s with requests := s.requests ++ [StoreRequest.omap_rm_keys keys] }
  match s.object with
  | none => (-ENOENT, s')
  | some m => (0, { s' with object := some (omap_remove keys m) })

/-! ## Lookup -/

/-- The enumeration `dict_commit_ret` of the host dictionary API, whose
constants `rados_dict_lookup` and `rados_transaction_commit` return. -/
inductive dict_commit_ret
  | DICT_COMMIT_RET_OK
  | DICT_COMMIT_RET_NOTFOUND
  | DICT_COMMIT_RET_FAILED
  deriving DecidableEq

open dict_commit_ret

/-- The NUL character. -/
def NUL : Char := Char.ofNat 0

/-- The host function `p_strndup(pool, str, max_chars)` on a non-NULL `str`:
a copy of the characters of `str` up to its first NUL, at most `max_chars`
of them. -/
def p_strndup (str : Bytes) (max_chars : Nat) : CStr :=
  (str.take max_chars).takeWhile (fun c => decide (c ≠ NUL))

/-- Result of `rados_dict_lookup`: the returned code and `*value_r`
(`none` for NULL). -/
structure LookupResult where
  ret : dict_commit_ret
  value_r : Option CStr
  deriving DecidableEq

/-- The body of `rados_dict_lookup` after the read operation came back with
`reply`. -/
def rados_dict_lookup_reply (reply : ReadReply) (key : CStr) : LookupResult :=
  let ret0 := DICT_COMMIT_RET_NOTFOUND
  let value0 : Option CStr := none
  let r1 : LookupResult :=
    if reply.err = 0 then
      if reply.r_val = 0 then
        match omap_find key reply.map with
        | some val => ⟨DICT_COMMIT_RET_OK, some (p_strndup val val.length)⟩
        | none => ⟨ret0, value0⟩
      else ⟨DICT_COMMIT_RET_FAILED, value0⟩
    else ⟨ret0, value0⟩
  if reply.err ≠ 0 then
    if reply.err = -ENOENT then { r1 with ret := DICT_COMMIT_RET_NOTFOUND }
    else { r1 with ret := DICT_COMMIT_RET_FAILED }
  else r1

/-- The function `rados_dict_lookup`: one read operation asking for the one
key, with `r_val` initialised to -1 and an empty map, then the
classification of the reply. -/
def rados_dict_lookup (s : Store) (key : CStr) : LookupResult × Store :=
  let (reply, s') := IoCtx_operate_read s [key] (-1) []
  (rados_dict_lookup_reply reply key, s')

/-! ## Transactions -/

/-- An operation recorded in a `rados_write_op_t`. -/
inductive WriteOp
  | omap_set (key : CStr) (value : CStr) (len : Nat)
  | omap_rm_keys (key : CStr)
  | exec (cls : String) (method : String) (in_buf : Bytes) (in_len : Nat)
  deriving DecidableEq

/-- The struct `rados_dict_transaction_context`, with the field `changed` of
the embedded `dict_transaction_context`; `op` is `none` for a NULL handle,
else the operations recorded so far. -/
structure rados_dict_transaction_context where
  changed : Bool
  op : Option (List WriteOp)
  atomic_inc_not_found : Bool
  deriving DecidableEq

/-- The function `rados_transaction_init`: a zero-filled context with a
fresh, empty write operation. -/
def rados_transaction_init : rados_dict_transaction_context :=
  { changed := false, op := some [], atomic_inc_not_found := false }

/-- The function `rados_set`. -/
def rados_set (ctx : rados_dict_transaction_context) (s : Store) (key value : CStr) :
    rados_dict_transaction_context × Store :=
  match ctx.op with
  | some ops =>
    let len := value.length + 1
    let ctx' := { ctx with op := some (ops ++ [WriteOp.omap_set key value len]), changed := true }
    let map : Omap := std_map_insert key value []
    let (_, s') := IoCtx_omap_set s map
    (ctx', s')
  | none => (ctx, s)

/-- The function `rados_unset`. -/
def rados_unset (ctx : rados_dict_transaction_context) (s : Store) (key : CStr) :
    rados_dict_transaction_context × Store :=
  match ctx.op with
  | some ops =>
    let ctx' := { ctx with op := some (ops ++ [WriteOp.omap_rm_keys key]), changed := true }
    let (_, s') := IoCtx_omap_rm_keys s [key]
    (ctx', s')
  | none => (ctx, s)

/-- The conversion `%lld` of `printf`: a minus sign for a negative number,
then the decimal digits. -/
def lld_to_dec : Int → CStr
  | Int.ofNat n => Nat.toDigits 10 n
  | Int.negSucc n => '-' :: Nat.toDigits 10 (n + 1)

/-- The function `rados_atomic_inc`: the payload `key;diff` is recorded in
the write operation, with its length plus one. -/
def rados_atomic_inc (ctx : rados_dict_transaction_context) (s : Store) (key : CStr)
    (diff : Int) : rados_dict_transaction_context × Store :=
  match ctx.op with
  | some ops =>
    let str := key ++ ';' :: lld_to_dec diff
    let ctx' := { ctx with
      op := some (ops ++ [WriteOp.exec "rmb" "atomic_inc" str (str.length + 1)]),
      changed := true }
    (ctx', s)
  | none => (ctx, s)

/-- One invocation of a commit callback: the function called, the outcome
and the context pointer handed to it. -/
structure CallbackCall where
  callback : Nat
  ret : dict_commit_ret
  context : Nat
  deriving DecidableEq

/-- Result of `rados_transaction_commit`: the returned code and the callback
invocations made, in order. -/
structure CommitResult where
  ret : dict_commit_ret
  calls : List CallbackCall
  deriving DecidableEq

/-- The function `rados_transaction_commit`.  The status `err` of the write
is the constant 0: the call that would send the recorded operation is
commented out in the source, so no request reaches the store.  A NULL
`callback` is `none`. -/
def rados_transaction_commit (ctx : rados_dict_transaction_context) (s : Store)
    (async : Bool) (callback : Option Nat) (context : Nat) : CommitResult × Store :=
  let _ := async
  let ret0 := DICT_COMMIT_RET_OK
  let ret :=
    match ctx.op with
    | some _ =>
      if ctx.changed then
        let err : Int := 0
        if err < 0 then DICT_COMMIT_RET_FAILED
        else if ctx.atomic_inc_not_found then DICT_COMMIT_RET_NOTFOUND
        else DICT_COMMIT_RET_OK
      else ret0
    | none => ret0
  let calls :=
    match callback with
    | some cb => [CallbackCall.mk cb ret context]
    | none => []
  (⟨ret, calls⟩, s)

/-- The function `rados_transaction_rollback`: the write operation is
released and the context freed. -/
def rados_transaction_rollback (ctx : rados_dict_transaction_context) (s : Store) : Store :=
  let _ := ctx
  s

/-- A mutation call made on a pending transaction. -/
inductive Mutation
  | set (key value : CStr)
  | unset (key : CStr)
  | atomic_inc (key : CStr) (diff : Int)
  deriving DecidableEq

/-- One mutation call on a transaction. -/
def Mutation.apply (ctx : rados_dict_transaction_context) (s : Store) :
    Mutation → rados_dict_transaction_context × Store
  | Mutation.set key value => rados_set ctx s key value
  | Mutation.unset key => rados_unset ctx s key
  | Mutation.atomic_inc key diff => rados_atomic_inc ctx s key diff

/-- A sequence of mutation calls on a transaction, first call first. -/
def run_mutations (ctx : rados_dict_transaction_context) (s : Store) :
    List Mutation → rados_dict_transaction_context × Store
  | [] => (ctx, s)
  | c :: cs =>
    let (ctx', s') := c.apply ctx s
    run_mutations ctx' s' cs

/-- A whole transaction: `rados_transaction_init`, the mutation calls, then
`rados_transaction_commit` without a callback. -/
def run_transaction (s : Store) (calls : List Mutation) : CommitResult × Store :=
  let (ctx, s') := run_mutations rados_transaction_init s calls
  rados_transaction_commit ctx s' false none 0

/-! ## Iteration -/

/-- The flag `DICT_ITERATE_FLAG_RECURSE` of the host dictionary API. -/
def DICT_ITERATE_FLAG_RECURSE : Nat := 0x01

/-- The flag `DICT_ITERATE_FLAG_SORT_BY_KEY` of the host dictionary API. -/
def DICT_ITERATE_FLAG_SORT_BY_KEY : Nat := 0x02

/-- The flag `DICT_ITERATE_FLAG_SORT_BY_VALUE` of the host dictionary API. -/
def DICT_ITERATE_FLAG_SORT_BY_VALUE : Nat := 0x04

/-- The flag `DICT_ITERATE_FLAG_NO_VALUE` of the host dictionary API. -/
def DICT_ITERATE_FLAG_NO_VALUE : Nat := 0x08

/-- The flag `DICT_ITERATE_FLAG_EXACT_KEY` of the host dictionary API. -/
def DICT_ITERATE_FLAG_EXACT_KEY : Nat := 0x10

/-- What a `char *` handed to the caller refers to when the function
returns: nothing (NULL), a string whose storage is still alive, or the
storage of an object whose lifetime has ended. -/
inductive CPtr
  | null
  | live (s : CStr)
  | dangling
  deriving DecidableEq

/-- The call `c_str()` of a `std::string`, read as a C string: the
characters before the first NUL. -/
def c_str (s : Bytes) : CStr :=
  s.takeWhile (fun c => decide (c ≠ NUL))

/-- Insertion into a `std::set<std::string>`: a key already present is not
inserted, a new one goes to its place in ascending order. -/
def std_set_insert (k : CStr) : List CStr → List CStr
  | [] => [k]
  | k' :: ks =>
    if k = k' then k' :: ks
    else if k < k' then k :: k' :: ks
    else k' :: std_set_insert k ks

set_option linter.dupNamespace false

/-- The members of the class `DictRados` that the iteration uses: the reader
map and its iterator, kept as the position in the map (the map's length for
`end()`). -/
structure DictRados where
  readerMap : Omap
  readerMapIter : Nat
  deriving DecidableEq

/-- The method `DictRados::clearReaderMap`. -/
def DictRados.clearReaderMap (dr : DictRados) : DictRados :=
  { dr with readerMap := [] }

/-- The method `DictRados::incrementReaderMapIterator`. -/
def DictRados.incrementReaderMapIterator (dr : DictRados) : DictRados :=
  { dr with readerMapIter := dr.readerMapIter + 1 }

/-- The method `DictRados::beginReaderMapIterator`. -/
def DictRados.beginReaderMapIterator (dr : DictRados) : DictRados :=
  { dr with readerMapIter := 0 }

/-- The method `DictRados::isEndReaderMapIterator`. -/
def DictRados.isEndReaderMapIterator (dr : DictRados) : Bool :=
  decide (dr.readerMapIter = dr.readerMap.length)

/-- The struct `rados_dict_iterate_context`: `omap_iter` is `none` for a NULL
handle, `error` is `none` for a NULL message. -/
structure rados_dict_iterate_context where
  omap_iter : Option Unit
  flags : Nat
  error : Option CStr
  deriving DecidableEq

/-- The function `rados_dict_iterate_init`.  The context is `none` when one
of the three assertions fails; the dictionary object and the store are then
as they were.  The C call `rados_read_op_omap_get_vals_by_keys` allocates the
handle stored in `omap_iter`; the read operation that is sent is the C++ one,
which fills the reader map of the dictionary object. -/
def rados_dict_iterate_init (dr : DictRados) (s : Store) (paths : List CStr) (flags : Nat) :
    Option rados_dict_iterate_context × DictRados × Store :=
  if flags &&& DICT_ITERATE_FLAG_RECURSE ≠ 0 then (none, dr, s)
  else if flags &&& DICT_ITERATE_FLAG_EXACT_KEY ≠ 0 then (none, dr, s)
  else if flags &&& (DICT_ITERATE_FLAG_SORT_BY_KEY ||| DICT_ITERATE_FLAG_SORT_BY_VALUE) ≠ 0 then
    (none, dr, s)
  else
    let iter : rados_dict_iterate_context := { omap_iter := some (), flags := flags, error := none }
    let keys := paths.foldl (fun acc p => std_set_insert p acc) []
    let dr1 := dr.clearReaderMap
    let (reply, s') := IoCtx_operate_read s keys (-1) dr1.readerMap
    let dr2 := { dr1 with readerMap := reply.map }
    let dr3 := if reply.err = 0 then dr2.beginReaderMapIterator else dr2
    let iter1 :=
      if reply.err < 0 then
        { iter with error := some ("rados_read_op_operate() failed: ".toList ++ lld_to_dec reply.err) }
      else iter
    let iter2 :=
      if reply.r_val < 0 then
        { iter1 with error := some ("rados_read_op_omap_get_vals_by_keys() failed: ".toList
            ++ lld_to_dec reply.r_val) }
      else iter1
    (some iter2, dr3, s')

/-- Result of `rados_dict_iterate`: the returned boolean and what `*key_r`
and `*value_r` were assigned (`none` when the function assigned nothing). -/
structure IterateResult where
  ret : Bool
  key_r : Option CPtr
  value_r : Option CPtr
  deriving DecidableEq

/-- The function `rados_dict_iterate`.  The status `err` is the constant 0,
the call that would fetch the next pair from `omap_iter` being commented out.
The string `val` is local to the block that reads the reader map, so the
pointer `omap_val` taken from it outlives it.  The NULL stored in `*value_r`
under `DICT_ITERATE_FLAG_NO_VALUE` is overwritten by the statement after it,
so the flag changes nothing. -/
def rados_dict_iterate (iter : rados_dict_iterate_context) (dr : DictRados) :
    IterateResult × rados_dict_iterate_context × DictRados :=
  if iter.error.isSome ∨ iter.omap_iter.isNone then (⟨false, none, none⟩, iter, dr)
  else
    let omap_val_len : Nat := 0
    let err : Int := 0
    let step : CPtr × CPtr × DictRados :=
      if !dr.isEndReaderMapIterator then
        match dr.readerMap.get? dr.readerMapIter with
        | some kv => (CPtr.live (c_str kv.1), CPtr.dangling, dr.incrementReaderMapIterator)
        | none => (CPtr.null, CPtr.null, dr)
      else (CPtr.null, CPtr.null, dr)
    let omap_key := step.1
    let omap_val := step.2.1
    let dr' := step.2.2
    if err < 0 then
      (⟨false, none, none⟩,
        { iter with error := some ("Failed to perform RADOS omap iteration: ".toList
            ++ lld_to_dec err) }, dr')
    else if omap_key = CPtr.null ∧ omap_val = CPtr.null ∧ omap_val_len = 0 then
      (⟨false, none, none⟩, { iter with omap_iter := none }, dr')
    else
      (⟨true, some omap_key, some omap_val⟩, iter, dr')

/-- The calls `rados_dict_iterate` repeated `n` times on one context: the
results in order, with the context and dictionary object left. -/
def rados_dict_iterate_n (iter : rados_dict_iterate_context) (dr : DictRados) :
    Nat → List IterateResult × rados_dict_iterate_context × DictRados
  | 0 => ([], iter, dr)
  | n + 1 =>
    let r := rados_dict_iterate iter dr
    let rest := rados_dict_iterate_n r.2.1 r.2.2 n
    (r.1 :: rest.1, rest.2.1, rest.2.2)

/-- The call `rados_dict_iterate_init` followed by `n` calls of
`rados_dict_iterate` on the context it returned: the results of these calls,
`none` when an assertion of the init failed. -/
def rados_dict_iterate_run (dr : DictRados) (s : Store) (paths : List CStr) (flags : Nat)
    (n : Nat) : Option (List IterateResult) :=
  match rados_dict_iterate_init dr s paths flags with
  | (some iter, dr', _) => some (rados_dict_iterate_n iter dr' n).1
  | (none, _, _) => none

/-! ## Initialisation -/

/-- The host function `t_strsplit(data, separators)` for one separator
character, scanning `data` with the token read so far in `cur`: every
separator ends a token, empty tokens included. -/
def t_strsplit_scan (sep : Char) : CStr → CStr → List CStr
  | cur, [] => [cur]
  | cur, c :: cs =>
    if c = sep then cur :: t_strsplit_scan sep [] cs
    else t_strsplit_scan sep (cur ++ [c]) cs

/-- The host function `t_strsplit(data, separators)` for one separator
character: an empty `data` gives an array holding only the terminating NULL,
any other is cut at every separator. -/
def t_strsplit (data : CStr) (sep : Char) : List CStr :=
  if data = [] then [] else t_strsplit_scan sep [] data

/-- The settings that `rados_dict_init` stores in the `DictRados` object. -/
structure DictSettings where
  cluster_name : CStr
  cluster_user : CStr
  config : CStr
  pool : CStr
  oid : CStr
  deriving DecidableEq

/-- State of the argument loop of `rados_dict_init`: the settings, `ret` and
`*error_r` (`none` while unassigned). -/
structure InitParse where
  settings : DictSettings
  ret : Int
  error_r : Option CStr
  deriving DecidableEq

/-- The test `strncmp(arg, pre, strlen(pre)) == 0`. -/
def strncmp_eq (arg pre : CStr) : Bool :=
  pre.isPrefixOf arg

/-- One round of the argument loop of `rados_dict_init`. -/
def rados_dict_init_arg (p : InitParse) (arg : CStr) : InitParse :=
  if strncmp_eq arg "oid=".toList then
    { p with settings := { p.settings with oid := arg.drop 4 } }
  else if strncmp_eq arg "config=".toList then
    { p with settings := { p.settings with config := arg.drop 7 } }
  else if strncmp_eq arg "pool=".toList then
    { p with settings := { p.settings with pool := arg.drop 5 } }
  else if strncmp_eq arg "cluster_name=".toList then
    { p with settings := { p.settings with cluster_name := arg.drop 13 } }
  else if strncmp_eq arg "cluster_user=".toList then
    { p with settings := { p.settings with cluster_user := arg.drop 13 } }
  else
    { p with error_r := some ("Unknown parameter: ".toList ++ arg), ret := -1 }

/-- The first part of `rados_dict_init`: the defaults are set, the URI is
split at the colons and the argument loop runs over the tokens. -/
def rados_dict_init_parse (uri : CStr) : InitParse :=
  let settings : DictSettings :=
    { cluster_name := "ceph".toList, cluster_user := "client.admin".toList,
      config := "/etc/ceph/ceph.conf".toList, pool := "librmb".toList, oid := [] }
  (t_strsplit uri ':').foldl rados_dict_init_arg { settings := settings, ret := 0, error_r := none }

/-- An operation on the cluster session or the I/O context made by
`rados_dict_init`. -/
inductive ClusterOp
  | initCluster (name clustername : CStr) (flags : Nat)
  | readConfigFile (path : CStr)
  | connect
  | createIOContext (name : CStr)
  | shutdown
  | set_namespace (nspace : CStr)
  deriving DecidableEq

/-- The answers of the cluster to the operations of `rados_dict_init`, and
the host function `strerror`. -/
structure ClusterEnv where
  initCluster : CStr → CStr → Nat → Int
  readConfigFile : CStr → Int
  connect : Int
  createIOContext : CStr → Int
  strerror : Int → CStr

/-- The struct `rados_dict` handed out through `*dict_r`: the settings and
the user name of its `DictRados` object. -/
structure rados_dict where
  settings : DictSettings
  username : CStr
  deriving DecidableEq

/-- Result of `rados_dict_init`: the returned status, `*dict_r` and
`*error_r` (`none` while unassigned) and the operations made, in order. -/
structure InitResult where
  ret : Int
  dict_r : Option rados_dict
  error_r : Option CStr
  ops : List ClusterOp
  deriving DecidableEq

/-- State of `rados_dict_init` between its steps: `ret`, `*error_r` and the
operations made so far. -/
structure InitState where
  ret : Int
  error_r : Option CStr
  ops : List ClusterOp
  deriving DecidableEq

/-- The function `rados_dict_init`, for the user name `set->username`. -/
def rados_dict_init (env : ClusterEnv) (uri : CStr) (username : CStr) : InitResult :=
  let p := rados_dict_init_parse uri
  let st0 : InitState := { ret := p.ret, error_r := p.error_r, ops := [] }
  let st1 : InitState :=
    if st0.ret ≥ 0 then
      let flags : Nat := 0
      let err := env.initCluster p.settings.cluster_user p.settings.cluster_name flags
      let ops := st0.ops ++ [ClusterOp.initCluster p.settings.cluster_user
        p.settings.cluster_name flags]
      if err < 0 then
        { ret := -1,
          error_r := some ("Couldn't create the cluster handle! ".toList ++ env.strerror (-err)),
          ops := ops }
      else { st0 with ops := ops }
    else st0
  let st2 : InitState :=
    if st1.ret ≥ 0 then
      let err := env.readConfigFile p.settings.config
      let ops := st1.ops ++ [ClusterOp.readConfigFile p.settings.config]
      if err < 0 then
        { ret := -1,
          error_r := some ("Cannot read config file: ".toList ++ env.strerror (-err)),
          ops := ops }
      else { st1 with ops := ops }
    else st1
  let st3 : InitState :=
    if st2.ret ≥ 0 then
      let err := env.connect
      let ops := st2.ops ++ [ClusterOp.connect]
      if err < 0 then
        { ret := -1,
          error_r := some ("Cannot connect to cluster: ".toList ++ env.strerror (-err)),
          ops := ops }
      else { st2 with ops := ops }
    else st2
  let st4 : InitState :=
    if st3.ret ≥ 0 then
      let err := env.createIOContext p.settings.pool
      let ops := st3.ops ++ [ClusterOp.createIOContext p.settings.pool]
      if err < 0 then
        { ret := -1,
          error_r := some ("Cannot open RADOS pool ".toList ++ p.settings.pool ++ ": ".toList
            ++ env.strerror (-err)),
          ops := ops ++ [ClusterOp.shutdown] }
      else { st3 with ops := ops }
    else st3
  if st4.ret < 0 then
    { ret := -1, dict_r := none, error_r := st4.error_r, ops := st4.ops }
  else
    let ns := rados_dict_init_namespace username
    { ret := 0, dict_r := some { settings := p.settings, username := ns },
      error_r := st4.error_r, ops := st4.ops ++ [ClusterOp.set_namespace ns] }

/-! ### Reference for the URI grammar, after the specification -/

/-- The tokens written one after the other with a colon between two
neighbours: a URI is split at every colon into `tokens` when this gives the
URI back and no token holds a colon. -/
def uri_of_tokens : List CStr → CStr
  | [] => []
  | [t] => t
  | t :: u :: ts => t ++ ':' :: uri_of_tokens (u :: ts)

/-- The five prefixes of the URI grammar. -/
def uri_prefixes : List CStr :=
  ["oid=".toList, "config=".toList, "pool=".toList, "cluster_name=".toList,
    "cluster_user=".toList]

/-- A token is recognized when it starts with one of the five prefixes. -/
def uri_token_recognized (tok : CStr) : Bool :=
  uri_prefixes.any (fun pre => pre.isPrefixOf tok)

/-- The value of a setting: the text after the prefix in the last token that
carries the prefix, the default when no token carries it. -/
def uri_setting (pre dflt : CStr) (tokens : List CStr) : CStr :=
  match (tokens.filter (fun t => pre.isPrefixOf t)).getLast? with
  | some t => t.drop pre.length
  | none => dflt

/-- The five settings that the tokens of a URI select. -/
def uri_settings (tokens : List CStr) : DictSettings :=
  { cluster_name := uri_setting "cluster_name=".toList "ceph".toList tokens,
    cluster_user := uri_setting "cluster_user=".toList "client.admin".toList tokens,
    config := uri_setting "config=".toList "/etc/ceph/ceph.conf".toList tokens,
    pool := uri_setting "pool=".toList "librmb".toList tokens,
    oid := uri_setting "oid=".toList [] tokens }

end DictRados

/-! # Storage creation (`src/storage-rbox/rbox-storage.cpp`) -/

namespace RboxStorage

/-- A call on the member `cluster` (class `RadosCluster`) of the storage. -/
inductive ClusterCall
  | init
  | storage_create (pool username oid : List Char)
  | deinit
  deriving DecidableEq

/-- What `rbox_storage_create` finds around it: the status of
`dbox_storage_create` and the error it left, the properties of the attachment
file system (`none` when `attachment_fs` is NULL), the value of the host
constant `FS_PROPERTY_RENAME`, the status and message of `cluster.init`, the
status of `cluster.storage_create`, the user name (`none` when
`storage.user` is NULL) and the host function `strerror`. -/
structure StorageEnv where
  dbox_storage_create : Int
  dbox_error : Option (List Char)
  attachment_fs : Option Nat
  FS_PROPERTY_RENAME : Nat
  cluster_init : Int
  error_msg : List Char
  storage_create : List Char → List Char → List Char → Int
  user : Option (List Char)
  strerror : Int → List Char

/-- Result of `rbox_storage_create`: the returned status, `*error_r` and the
calls made on the cluster, in order. -/
structure CreateResult where
  ret : Int
  error_r : Option (List Char)
  calls : List ClusterCall
  deriving DecidableEq

/-- The function `rbox_storage_create`. -/
def rbox_storage_create (env : StorageEnv) : CreateResult :=
  if env.dbox_storage_create < 0 then
    { ret := -1, error_r := env.dbox_error, calls := [] }
  else
    let renaming_missing : Bool :=
      match env.attachment_fs with
      | some props => decide (props &&& env.FS_PROPERTY_RENAME = 0)
      | none => false
    if renaming_missing then
      { ret := -1,
        error_r := some ("mail_attachment_fs: Backend doesn".toList ++ Char.ofNat 39 ::
          "t support renaming".toList),
        calls := [] }
    else
      let ret := env.cluster_init
      if ret < 0 then
        { ret := -1, error_r := some env.error_msg, calls := [ClusterCall.init] }
      else
        let username : List Char :=
          match env.user with
          | some u => u
          | none => "unknown".toList
        let poolname : List Char := "mail_storage".toList
        let ret := env.storage_create poolname username "my_oid".toList
        if ret < 0 then
          { ret := -1,
            error_r := some ("Error creating RadosStorage()! ".toList ++ env.strerror (-ret)),
            calls := [ClusterCall.init,
              ClusterCall.storage_create poolname username "my_oid".toList,
              ClusterCall.deinit] }
        else
          { ret := 0, error_r := env.dbox_error,
            calls := [ClusterCall.init,
              ClusterCall.storage_create poolname username "my_oid".toList] }

/-! ## The header of the mailbox index

The struct `rbox_index_header` and the constant `RBOX_INDEX_HEADER_MIN_SIZE`
are declared in a header outside these sources.  The header is kept as its
bytes; its size, the offset of its member `mailbox_guid` and the constant are
parameters. -/

/-- The size of a `guid_128_t` of the host. -/
def GUID_128_SIZE : Nat := 16

/-- What the functions here use of the declaration of `rbox_index_header`:
the constant `RBOX_INDEX_HEADER_MIN_SIZE`, `sizeof(struct rbox_index_header)`
and the offset of the member `mailbox_guid`. -/
structure HeaderLayout where
  RBOX_INDEX_HEADER_MIN_SIZE : Nat
  sizeof_hdr : Nat
  offsetof_mailbox_guid : Nat
  deriving DecidableEq

/-- The host function `guid_128_is_empty`: every byte is zero. -/
def guid_128_is_empty (guid : List Nat) : Bool :=
  guid.all (fun b => decide (b = 0))

/-- The member `mailbox_guid` of a header kept as its bytes. -/
def mailbox_guid (layout : HeaderLayout) (hdr : List Nat) : List Nat :=
  (hdr.drop layout.offsetof_mailbox_guid).take GUID_128_SIZE

/-- The call `memcpy(dst, src, n)` on a destination kept as its bytes. -/
def memcpy (dst src : List Nat) (n : Nat) : List Nat :=
  src.take n ++ dst.drop n

/-- Result of `rbox_read_header`: the returned status, the bytes of `*hdr`,
`*need_resize_r`, whether `mail_storage_set_critical` was called, and the
header handed to `mail_index_set_ext_init_data` (`none` when it was not
called). -/
structure ReadHeaderResult where
  ret : Int
  hdr : List Nat
  need_resize_r : Bool
  critical : Bool
  ext_init_data : Option (List Nat)
  deriving DecidableEq

/-- The function `rbox_read_header`: `data` is the blob that
`mail_index_get_header_ext` finds, `hdr` what the buffer of the caller holds
before the call.  The result is `none` when the assertion `mbox->box.opened`
fails. -/
def rbox_read_header (layout : HeaderLayout) (opened creating : Bool) (data hdr : List Nat)
    (log_error : Bool) : Option ReadHeaderResult :=
  if !opened then none
  else
    let data_size := data.length
    let r : ReadHeaderResult :=
      if data_size < layout.RBOX_INDEX_HEADER_MIN_SIZE ∧ (creating = false ∨ data_size ≠ 0) then
        { ret := -1, hdr := hdr, need_resize_r := false, critical := log_error,
          ext_init_data := none }
      else
        let hdr := List.replicate layout.sizeof_hdr 0
        let hdr := memcpy hdr data (min data_size layout.sizeof_hdr)
        if guid_128_is_empty (mailbox_guid layout hdr) then
          { ret := -1, hdr := hdr, need_resize_r := false, critical := false,
            ext_init_data := none }
        else
          { ret := 0, hdr := hdr, need_resize_r := false, critical := false,
            ext_init_data := some hdr }
    some { r with need_resize_r := decide (data_size < layout.sizeof_hdr) }

/-- The struct `mail_index_header` of the host as far as
`rbox_mailbox_create_indexes` reads it. -/
structure mail_index_header where
  uid_validity : Nat
  next_uid : Nat
  first_recent_uid : Nat
  deriving DecidableEq

/-- The struct `mailbox_update` of the host as far as the functions here read
it. -/
structure mailbox_update where
  uid_validity : Nat
  min_next_uid : Nat
  min_first_recent_uid : Nat
  min_highest_modseq : Nat
  mailbox_guid : List Nat
  deriving DecidableEq

/-- A change that the functions here ask of the index, kept in the order of
the calls with the changes of the index transaction: a field of the index
header written by `mail_index_update_header`, `mail_index_modseq_enable`,
`mail_index_update_highest_modseq`, `index_pop3_uidl_set_max_uid`,
`mail_index_ext_resize_hdr` and `mail_index_update_header_ext`. -/
inductive IndexUpdate
  | uid_validity (v : Nat)
  | next_uid (v : Nat)
  | first_recent_uid (v : Nat)
  | modseq_enable
  | highest_modseq (v : Nat)
  | pop3_uidl_max_uid (v : Nat)
  | ext_resize_hdr (size : Nat)
  | header_ext (hdr : List Nat)
  deriving DecidableEq

/-- What `rbox_mailbox_create_indexes` finds around it: the layout of the
rbox header, the flags `opened`, `creating` and `inbox_user` of the mailbox,
the header of the view, the value of `mail_index_modseq_get_highest`, the
value of `dbox_get_uidvalidity_next`, the blob of the header extension, what
the local buffer of `rbox_update_header` holds before it is written, the guid
that `guid_128_generate` makes, and the status of
`mail_index_transaction_commit`. -/
structure IndexEnv where
  layout : HeaderLayout
  opened : Bool
  creating : Bool
  inbox_user : Bool
  hdr : mail_index_header
  modseq_highest : Nat
  uidvalidity_next : Nat
  ext_data : List Nat
  stack_hdr : List Nat
  generated_guid : List Nat
  commit : Int
  deriving DecidableEq

/-- The member `mailbox_guid` of a header overwritten with a guid. -/
def set_mailbox_guid (layout : HeaderLayout) (hdr guid : List Nat) : List Nat :=
  hdr.take layout.offsetof_mailbox_guid ++ guid.take GUID_128_SIZE
    ++ hdr.drop (layout.offsetof_mailbox_guid + GUID_128_SIZE)

/-- Result of `rbox_update_header`: the transaction after it and the guid
stored in `mbox->mailbox_guid`. -/
structure UpdateHeaderResult where
  trans : List IndexUpdate
  mailbox_guid : List Nat
  deriving DecidableEq

/-- The function `rbox_update_header`; `none` when the assertion of
`rbox_read_header` fails. -/
def rbox_update_header (env : IndexEnv) (trans : List IndexUpdate)
    (update : Option mailbox_update) : Option UpdateHeaderResult :=
  match rbox_read_header env.layout env.opened env.creating env.ext_data env.stack_hdr true with
  | none => none
  | some rh =>
    let hdr := if rh.ret < 0 then List.replicate env.layout.sizeof_hdr 0 else rh.hdr
    let need_resize := if rh.ret < 0 then true else rh.need_resize_r
    let new_hdr := hdr
    let update_guid : Option (List Nat) :=
      match update with
      | some u => if !guid_128_is_empty u.mailbox_guid then some u.mailbox_guid else none
      | none => none
    let new_hdr :=
      match update_guid with
      | some guid => set_mailbox_guid env.layout new_hdr guid
      | none =>
        if guid_128_is_empty (mailbox_guid env.layout new_hdr) then
          set_mailbox_guid env.layout new_hdr env.generated_guid
        else new_hdr
    let trans :=
      if need_resize then trans ++ [IndexUpdate.ext_resize_hdr env.layout.sizeof_hdr] else trans
    let trans := if hdr ≠ new_hdr then trans ++ [IndexUpdate.header_ext new_hdr] else trans
    some { trans := trans, mailbox_guid := mailbox_guid env.layout new_hdr }

/-- Result of `rbox_mailbox_create_indexes`: the returned status, the
transaction after the call, and whether the function committed it. -/
structure CreateIndexesResult where
  ret : Int
  trans : List IndexUpdate
  committed : Bool
  deriving DecidableEq

/-- The function `rbox_mailbox_create_indexes`; `trans` is `none` for NULL,
else the changes the transaction holds.  Each conditional call appends its
change to them, or nothing.  The result is `none` when the assertion of
`rbox_read_header` fails. -/
def rbox_mailbox_create_indexes (env : IndexEnv) (update : Option mailbox_update)
    (trans : Option (List IndexUpdate)) : Option CreateIndexesResult :=
  let new_trans : Bool := trans.isNone
  let trans : List IndexUpdate :=
    match trans with
    | some t => t
    | none => []
  let hdr := env.hdr
  let uid_validity : Nat :=
    match update with
    | some u =>
      if u.uid_validity ≠ 0 then u.uid_validity
      else if hdr.uid_validity ≠ 0 then hdr.uid_validity
      else env.uidvalidity_next
    | none =>
      if hdr.uid_validity ≠ 0 then hdr.uid_validity
      else env.uidvalidity_next
  let trans :=
    trans ++ (if hdr.uid_validity ≠ uid_validity then [IndexUpdate.uid_validity uid_validity]
              else [])
  let trans :=
    trans ++ (match update with
      | some u =>
        if hdr.next_uid < u.min_next_uid then [IndexUpdate.next_uid u.min_next_uid] else []
      | none => [])
  let trans :=
    trans ++ (match update with
      | some u =>
        if u.min_first_recent_uid ≠ 0 ∧ hdr.first_recent_uid < u.min_first_recent_uid then
          [IndexUpdate.first_recent_uid u.min_first_recent_uid]
        else []
      | none => [])
  let trans :=
    trans ++ (match update with
      | some u =>
        if u.min_highest_modseq ≠ 0 ∧ env.modseq_highest < u.min_highest_modseq then
          [IndexUpdate.modseq_enable, IndexUpdate.highest_modseq u.min_highest_modseq]
        else []
      | none => [])
  let trans :=
    trans ++ (if env.inbox_user ∧ env.creating then [IndexUpdate.pop3_uidl_max_uid 0] else [])
  match rbox_update_header env trans update with
  | none => none
  | some uh =>
    let trans := uh.trans
    if new_trans then
      if env.commit < 0 then some { ret := -1, trans := trans, committed := false }
      else some { ret := 0, trans := trans, committed := true }
    else some { ret := 0, trans := trans, committed := false }

end RboxStorage

/-! # Saving mails (`src/storage-rados/rados-save.c`)

The file system is the list of the paths that exist; every system call that
touches it is logged with its outcome.  Failures that the state of the file
system does not explain (permissions, a full disk) come from oracles of the
environment.  The index transaction and the synchronization of the mailbox
belong to the host and to a part of the repository outside these sources;
they are modelled by what the functions here ask of them. -/

namespace RadosSave

/-- A path name. -/
abbrev Path := List Char

/-- The conversions `%u` of `printf` and `dec2str`: the decimal digits. -/
def dec2str (n : Nat) : List Char :=
  Nat.toDigits 10 n

/-- A call that touches the file system or the mailbox synchronization,
logged with its outcome. -/
inductive SysCall
  | open_excl (path : Path) (ok : Bool)
  | rename (src dst : Path) (ok : Bool)
  | unlink (path : Path)
  | send_istream (ret : Int)
  | i_stream_read (ret : Int)
  | sync_begin (ok : Bool)
  | sync_finish (success : Bool)
  deriving DecidableEq

/-- The file system and the log of the calls made, oldest first. -/
structure World where
  files : List Path
  calls : List SysCall
  deriving DecidableEq

/-- The value of `parsed_fsync_mode` is `FSYNC_MODE_NEVER`, and the outcomes
of the calls of one `rados_save_flush`: `o_stream_nfinish`, `fsync`, `fstat`
with the `st_mtime` it reports, `utime` and `close`. -/
structure FlushEnv where
  fsync_mode_never : Bool
  o_stream_nfinish : Int
  fsync : Int
  fstat : Int
  st_mtime : Int
  utime : Int
  close : Int
  deriving DecidableEq

/-- The struct `rados_sync_context` as far as the save code reads it: the
`next_uid` of the header of its view and its `uid_validity`. -/
structure rados_sync_context where
  next_uid : Nat
  uid_validity : Nat
  deriving DecidableEq

/-- The oracles of the environment: `open` fails on a free path,
`rename` fails on an existing source, the descriptor `open` hands out, and
what `rados_sync_begin` answers (`none` for a negative status). -/
structure SysEnv where
  open_denied : Path → Bool
  rename_denied : Path → Path → Bool
  fd : Nat
  sync_begin : Option rados_sync_context

/-- A record appended to the index transaction: its uid (0 while
unassigned), its flags, and the keywords and modseq when they were set. -/
structure IndexRecord where
  uid : Nat
  flags : Nat
  keywords : Option (List (List Char))
  modseq : Option Nat
  deriving DecidableEq

/-- The struct `mail_index_transaction` as far as the save code uses it: the
sequence number of the first appended record and the appended records. -/
structure mail_index_transaction where
  first_new_seq : Nat
  appends : List IndexRecord
  deriving DecidableEq

/-- The host function `mail_index_append(t, 0, &seq)`: a record without uid
is appended; the result carries its sequence number. -/
def mail_index_append (t : mail_index_transaction) : mail_index_transaction × Nat :=
  ({ t with appends := t.appends ++ [{ uid := 0, flags := 0, keywords := none, modseq := none }] },
    t.first_new_seq + t.appends.length)

/-- The record at position `n` of a list changed by `f`. -/
def update_nth (f : IndexRecord → IndexRecord) : Nat → List IndexRecord → List IndexRecord
  | _, [] => []
  | 0, r :: rs => f r :: rs
  | n + 1, r :: rs => r :: update_nth f n rs

/-- The appended record with sequence number `seq` changed by `f`. -/
def update_record (t : mail_index_transaction) (seq : Nat) (f : IndexRecord → IndexRecord) :
    mail_index_transaction :=
  if seq < t.first_new_seq then t
  else { t with appends := update_nth f (seq - t.first_new_seq) t.appends }

/-- The host function `mail_index_update_flags` with `MODIFY_REPLACE`. -/
def mail_index_update_flags (t : mail_index_transaction) (seq flags : Nat) :
    mail_index_transaction :=
  update_record t seq (fun r => { r with flags := flags })

/-- The host function `mail_index_update_keywords` with `MODIFY_REPLACE`. -/
def mail_index_update_keywords (t : mail_index_transaction) (seq : Nat)
    (keywords : List (List Char)) : mail_index_transaction :=
  update_record t seq (fun r => { r with keywords := some keywords })

/-- The host function `mail_index_update_modseq`. -/
def mail_index_update_modseq (t : mail_index_transaction) (seq min_modseq : Nat) :
    mail_index_transaction :=
  update_record t seq (fun r => { r with modseq := some min_modseq })

/-- The records numbered from `uid` on, in their order.  A uid is a
`uint32_t`, so the number after 2^32 - 1 is 0. -/
def assign_uids : Nat → List IndexRecord → List IndexRecord
  | _, [] => []
  | uid, r :: rs => { r with uid := uid } :: assign_uids ((uid + 1) % 2 ^ 32) rs

/-- The host function `mail_index_append_finish_uids` on records that all
carry the uid 0, as `rados_save_begin` appends them: they are numbered from
`first_uid` on in their order, in 32-bit arithmetic; the result carries the
uids given, which the function adds to `saved_uids`.  While the numbering
does not pass 2^32 - 1 the uids ascend, and the order in which `saved_uids`
lists them is the order of the records. -/
def mail_index_append_finish_uids (t : mail_index_transaction) (first_uid : Nat) :
    mail_index_transaction × List Nat :=
  let appends := assign_uids first_uid t.appends
  ({ t with appends := appends }, appends.map (fun r => r.uid))

/-- The flag `MAIL_RECENT` of the host. -/
def MAIL_RECENT : Nat := 0x20

/-- The expression `flags & ~MAIL_RECENT` on a 32-bit flag word. -/
def clear_recent (flags : Nat) : Nat :=
  flags &&& (0xFFFFFFFF - MAIL_RECENT)

/-- The struct `mail_save_data` as far as the save code reads and writes it;
`output` says whether an output stream is attached, `received_date` is -1
while unset, `keywords` is `none` for NULL. -/
structure mail_save_data where
  flags : Nat
  keywords : Option (List (List Char))
  min_modseq : Nat
  received_date : Int
  output : Bool
  deriving DecidableEq

/-- The struct `rados_save_context`, with the directory of the mailbox and
the index transaction it points to; `input` says whether an input stream is
attached, `fd` is -1 while no file is open, `sync_ctx` is `none` for NULL. -/
structure rados_save_context where
  data : mail_save_data
  dir : Path
  trans : mail_index_transaction
  tmp_basename : List Char
  mail_count : Nat
  sync_ctx : Option rados_sync_context
  seq : Nat
  input : Bool
  fd : Int
  failed : Bool
  finished : Bool
  deriving DecidableEq

/-- The function `rados_get_save_path`. -/
def rados_get_save_path (ctx : rados_save_context) (num : Nat) : Path :=
  ctx.dir ++ ['/'] ++ ctx.tmp_basename ++ ['.'] ++ dec2str num

/-- The call `open(path, O_WRONLY | O_CREAT | O_EXCL, 0660)`: it fails when
the path exists or the environment denies it, else the file is created.  The
result is the descriptor, -1 on failure. -/
def sys_open_excl (env : SysEnv) (w : World) (path : Path) : Int × World :=
  if path ∈ w.files ∨ env.open_denied path = true then
    (-1, { w with calls := w.calls ++ [SysCall.open_excl path false] })
  else
    ((env.fd : Int), { files := path :: w.files,
                       calls := w.calls ++ [SysCall.open_excl path true] })

/-- The call `rename(src, dst)`: it fails when the source does not exist or
the environment denies it, else the source name goes and the destination
names the file. -/
def sys_rename (env : SysEnv) (w : World) (src dst : Path) : Bool × World :=
  if src ∉ w.files ∨ env.rename_denied src dst = true then
    (false, { w with calls := w.calls ++ [SysCall.rename src dst false] })
  else
    (true, { files := dst :: w.files.filter (fun p => decide (p ≠ src ∧ p ≠ dst)),
             calls := w.calls ++ [SysCall.rename src dst true] })

/-- The host function `i_unlink(path)`: the path no longer exists. -/
def i_unlink (w : World) (path : Path) : World :=
  { files := w.files.filter (fun p => decide (p ≠ path)),
    calls := w.calls ++ [SysCall.unlink path] }

/-- The function `rados_save_begin`, called with the data of the mail in
`ctx.data`.  The result is the returned status. -/
def rados_save_begin (env : SysEnv) (w : World) (ctx : rados_save_context) :
    Int × rados_save_context × World :=
  let ctx := { ctx with failed := false }
  let path := rados_get_save_path ctx ctx.mail_count
  let o := sys_open_excl env w path
  let w := o.2
  let ctx := { ctx with fd := o.1 }
  let ctx :=
    if ctx.fd ≠ -1 then { ctx with data := { ctx.data with output := true } }
    else { ctx with failed := true }
  if ctx.failed then (-1, ctx, w)
  else
    let save_flags := clear_recent ctx.data.flags
    let a := mail_index_append ctx.trans
    let ctx := { ctx with trans := a.1, seq := a.2 }
    let ctx := { ctx with trans := mail_index_update_flags ctx.trans ctx.seq save_flags }
    let ctx :=
      match ctx.data.keywords with
      | some kw => { ctx with trans := mail_index_update_keywords ctx.trans ctx.seq kw }
      | none => ctx
    let ctx :=
      if ctx.data.min_modseq ≠ 0 then
        { ctx with trans := mail_index_update_modseq ctx.trans ctx.seq ctx.data.min_modseq }
      else ctx
    let ctx := { ctx with input := true }
    ((if ctx.failed then -1 else 0), ctx, w)

/-- The loop of `rados_save_continue` over the rounds the streams go through:
each round is the status of `o_stream_send_istream` and the status of the
`i_stream_read` that follows it.  The result is `none` when the rounds end
while the input still reports data. -/
def rados_save_continue_loop (w : World) (ctx : rados_save_context) :
    List (Int × Int) → Option (Int × rados_save_context × World)
  | [] => none
  | (sent, read) :: rounds =>
    let w := { w with calls := w.calls ++ [SysCall.send_istream sent] }
    if sent < 0 then some (-1, { ctx with failed := true }, w)
    else
      let w := { w with calls := w.calls ++ [SysCall.i_stream_read read] }
      if read > 0 then rados_save_continue_loop w ctx rounds
      else some (0, ctx, w)

/-- The function `rados_save_continue`. -/
def rados_save_continue (w : World) (ctx : rados_save_context) (rounds : List (Int × Int)) :
    Option (Int × rados_save_context × World) :=
  if ctx.failed then some (-1, ctx, w)
  else rados_save_continue_loop w ctx rounds

/-- The function `rados_save_flush`. -/
def rados_save_flush (fenv : FlushEnv) (ctx : rados_save_context) : Int × rados_save_context :=
  let ret : Int := 0
  let ret := if fenv.o_stream_nfinish < 0 then -1 else ret
  let ret := if !fenv.fsync_mode_never then (if fenv.fsync < 0 then -1 else ret) else ret
  let r : Int × rados_save_context :=
    if ctx.data.received_date = -1 then
      if fenv.fstat = 0 then
        (ret, { ctx with data := { ctx.data with received_date := fenv.st_mtime } })
      else (-1, ctx)
    else
      if fenv.utime < 0 then (-1, ctx) else (ret, ctx)
  let ret := r.1
  let ctx := r.2
  let ctx := { ctx with data := { ctx.data with output := false } }
  let ret := if fenv.close < 0 then -1 else ret
  let ctx := { ctx with fd := -1 }
  (ret, ctx)

/-- The function `rados_save_finish`; `mail_count` is an `unsigned int`.  The
host calls that end it release the parser and the data of the mail; they are
left out, nothing here reads `ctx.data` after the finish. -/
def rados_save_finish (fenv : FlushEnv) (w : World) (ctx : rados_save_context) :
    Int × rados_save_context × World :=
  let path := rados_get_save_path ctx ctx.mail_count
  let ctx := { ctx with finished := true }
  let ctx :=
    if ctx.fd ≠ -1 then
      let f := rados_save_flush fenv ctx
      if f.1 < 0 then { f.2 with failed := true } else f.2
    else ctx
  let r : rados_save_context × World :=
    if !ctx.failed then ({ ctx with mail_count := (ctx.mail_count + 1) % 2 ^ 32 }, w)
    else (ctx, i_unlink w path)
  let ctx := r.1
  let w := r.2
  let ctx := if ctx.input then { ctx with input := false } else ctx
  ((if ctx.failed then -1 else 0), ctx, w)

/-- The function `rados_save_cancel`. -/
def rados_save_cancel (fenv : FlushEnv) (w : World) (ctx : rados_save_context) :
    rados_save_context × World :=
  let ctx := { ctx with failed := true }
  let r := rados_save_finish fenv w ctx
  (r.2.1, r.2.2)

/-- Modelled from the spec: the repository function
`rados_sync_finish(&ctx->sync_ctx, success)` is defined outside these
sources.  It finishes the open synchronization epoch in the given mode; the
epoch is then no longer open, so the pointer handed in by address is reset. -/
def rados_sync_finish (w : World) (ctx : rados_save_context) (success : Bool) :
    rados_save_context × World :=
  ({ ctx with sync_ctx := none }, { w with calls := w.calls ++ [SysCall.sync_finish success] })

/-- The function `rados_transaction_save_rollback`; the context is freed at
its end, the result is the context as it was just before. -/
def rados_transaction_save_rollback (fenv : FlushEnv) (w : World) (ctx : rados_save_context) :
    rados_save_context × World :=
  let r : rados_save_context × World :=
    if !ctx.finished then rados_save_cancel fenv w ctx else (ctx, w)
  if r.1.sync_ctx.isSome then rados_sync_finish r.2 r.1 false else r

/-- The string `src_path` of `rados_transaction_save_commit_pre` in round
`n`: the prefix made with `%s/%s.` and the number written with `%u`. -/
def commit_src_path (dir : Path) (tmp_basename : List Char) (n : Nat) : Path :=
  (dir ++ '/' :: tmp_basename ++ ['.']) ++ dec2str n

/-- The string `dest_path` of `rados_transaction_save_commit_pre` for a uid:
the directory, a slash, and the uid written with `%u.`. -/
def commit_dest_path (dir : Path) (uid : Nat) : Path :=
  (dir ++ ['/']) ++ (dec2str uid ++ ['.'])

/-- The rename loop of `rados_transaction_save_commit_pre` from the `n`-th
saved uid on: the staging file of number `n` goes to the name made of the
uid.  The result says whether every rename succeeded. -/
def commit_pre_renames (env : SysEnv) (dir : Path) (tmp_basename : List Char) :
    World → Nat → List Nat → Bool × World
  | w, _, [] => (true, w)
  | w, n, uid :: uids =>
    let r := sys_rename env w (commit_src_path dir tmp_basename n) (commit_dest_path dir uid)
    if r.1 then commit_pre_renames env dir tmp_basename r.2 (n + 1) uids
    else (false, r.2)

/-- Result of `rados_transaction_save_commit_pre`: the returned status, the
saved uids and the uid validity written to the changes of the transaction. -/
structure CommitPreResult where
  ret : Int
  saved_uids : List Nat
  uid_validity : Nat
  deriving DecidableEq

/-- The function `rados_transaction_save_commit_pre`; the result is `none`
when the assertion `ctx->finished` fails. -/
def rados_transaction_save_commit_pre (env : SysEnv) (fenv : FlushEnv) (w : World)
    (ctx : rados_save_context) : Option (CommitPreResult × rados_save_context × World) :=
  if !ctx.finished then none
  else
    match env.sync_begin with
    | none =>
      let w := { w with calls := w.calls ++ [SysCall.sync_begin false] }
      let ctx := { ctx with failed := true }
      let r := rados_transaction_save_rollback fenv w ctx
      some (⟨-1, [], 0⟩, r.1, r.2)
    | some sync_ctx =>
      let w := { w with calls := w.calls ++ [SysCall.sync_begin true] }
      let ctx := { ctx with sync_ctx := some sync_ctx }
      let u := mail_index_append_finish_uids ctx.trans sync_ctx.next_uid
      let ctx := { ctx with trans := u.1 }
      let saved_uids := u.2
      let uid_validity := sync_ctx.uid_validity
      let l := commit_pre_renames env ctx.dir ctx.tmp_basename w 0 saved_uids
      if l.1 then some (⟨0, saved_uids, uid_validity⟩, ctx, l.2)
      else
        let ctx := { ctx with failed := true }
        let r := rados_transaction_save_rollback fenv l.2 ctx
        some (⟨-1, saved_uids, uid_validity⟩, r.1, r.2)

/-! ## A small save transaction, for concrete runs -/

/-- A fresh save context for the mailbox directory `d` with the temporary
base name `t`, as `rados_save_alloc` leaves it, with the data of a mail
without flags, keywords, modseq or received date. -/
def fresh_save_context : rados_save_context :=
  { data := { flags := 0, keywords := none, min_modseq := 0, received_date := -1,
              output := false },
    dir := ['d'], trans := { first_new_seq := 1, appends := [] }, tmp_basename := ['t'],
    mail_count := 0, sync_ctx := none, seq := 0, input := false, fd := -1,
    failed := false, finished := false }

/-- An environment that denies no `open`, denies the rename of the one path
`deny`, and begins the synchronization with `next_uid` 5. -/
def plain_env (deny : Path) : SysEnv :=
  { open_denied := fun _ => false, rename_denied := fun src _ => decide (src = deny),
    fd := 3, sync_begin := some { next_uid := 5, uid_validity := 1 } }

/-- A flush in which every call succeeds. -/
def plain_flush : FlushEnv :=
  { fsync_mode_never := false, o_stream_nfinish := 0, fsync := 0, fstat := 0,
    st_mtime := 100, utime := 0, close := 0 }

/-- One mail saved: `rados_save_begin`, one `rados_save_continue` that drains
the input in one round, `rados_save_finish`. -/
def save_one_mail (env : SysEnv) (fenv : FlushEnv) (st : rados_save_context × World) :
    rados_save_context × World :=
  let b := rados_save_begin env st.2 st.1
  match rados_save_continue b.2.2 b.2.1 [(1, 0)] with
  | some c =>
    let f := rados_save_finish fenv c.2.2 c.2.1
    (f.2.1, f.2.2)
  | none => (b.2.1, b.2.2)

/-- Two mails saved on the fresh context in an empty directory. -/
def two_mails_saved (env : SysEnv) : rados_save_context × World :=
  save_one_mail env plain_flush
    (save_one_mail env plain_flush (fresh_save_context, { files := [], calls := [] }))

/-! ## The temporary base name and the end of the commit -/

/-- The globals that `rados_generate_tmp_filename` reads: the two fields of
`ioloop_timeval` as `dec2str` receives them, and the strings `my_pid` and
`my_hostname` of the host. -/
structure TmpNameEnv where
  tv_sec : Nat
  my_pid : List Char
  tv_usec : Nat
  my_hostname : List Char
  deriving DecidableEq

/-- The function `rados_generate_tmp_filename` with the format
`temp.%s.P%sQ%uM%s.%s`.  Its static counter `create_count` is an
`unsigned int`: the argument is the value before the call, the result carries
the name and the value after the call. -/
def rados_generate_tmp_filename (env : TmpNameEnv) (create_count : Nat) : List Char × Nat :=
  (['t', 'e', 'm', 'p', '.'] ++ (dec2str env.tv_sec ++ '.' :: 'P' :: (env.my_pid ++ 'Q' ::
      (dec2str create_count ++ 'M' :: (dec2str env.tv_usec ++ '.' :: env.my_hostname)))),
    (create_count + 1) % 2 ^ 32)

/-- The names returned by calls of `rados_generate_tmp_filename` made one
after the other in one process, one call for each state of the globals in the
list, with the counter at `create_count` before the first. -/
def rados_generate_tmp_filenames (create_count : Nat) : List TmpNameEnv → List (List Char)
  | [] => []
  | env :: envs =>
    (rados_generate_tmp_filename env create_count).1
      :: rados_generate_tmp_filenames (rados_generate_tmp_filename env create_count).2 envs

/-- The function `rados_transaction_save_commit_post`.  The result is `none`
when `ctx->sync_ctx` is NULL, which the function dereferences.  The host call
`mail_index_sync_set_commit_result` only hands the commit result to the index
synchronization and is left out; the context is freed by the rollback at the
end, the result is the context as it was just before. -/
def rados_transaction_save_commit_post (fenv : FlushEnv) (w : World)
    (ctx : rados_save_context) : Option (rados_save_context × World) :=
  match ctx.sync_ctx with
  | none => none
  | some _ =>
    let r := rados_sync_finish w ctx true
    some (rados_transaction_save_rollback fenv r.2 r.1)

end RadosSave

/-! # Decimal renderings

The conversions `%u`, `%lld` and `dec2str` write a number with
`Nat.toDigits 10`.  The functions here read such a rendering back; they are
the tools of the proofs that a rendering determines its number. -/

namespace Decimal

/-- The value of a decimal digit character. -/
def digit_value (c : Char) : Nat :=
  c.toNat - 48

/-- The number that a string of decimal digits writes. -/
def dec_value (cs : List Char) : Nat :=
  cs.foldl (fun acc c => 10 * acc + digit_value c) 0

/-- The character is one of the ten decimal digits. -/
def is_digit (c : Char) : Bool :=
  decide (48 ≤ c.toNat ∧ c.toNat ≤ 57)

end Decimal

/-! # Properties of the decimal renderings -/

namespace Decimal

theorem digit_value_digitChar (d : Nat) (h : d < 10) : digit_value (Nat.digitChar d) = d := by
  interval_cases d <;> rfl

theorem is_digit_digitChar (d : Nat) (h : d < 10) : is_digit (Nat.digitChar d) = true := by
  interval_cases d <;> rfl

theorem toDigitsCore_acc (b : Nat) (fuel : Nat) :
    ∀ (n : Nat) (ds : List Char),
      Nat.toDigitsCore b fuel n ds = Nat.toDigitsCore b fuel n [] ++ ds := by
  induction fuel with
  | zero => intro n ds; simp [Nat.toDigitsCore]
  | succ f ih =>
    intro n ds
    simp only [Nat.toDigitsCore]
    split_ifs
    · rfl
    · rw [ih (n / b) (Nat.digitChar (n % b) :: ds), ih (n / b) [Nat.digitChar (n % b)]]
      simp

theorem dec_value_append_singleton (cs : List Char) (c : Char) :
    dec_value (cs ++ [c]) = 10 * dec_value cs + digit_value c := by
  simp [dec_value, List.foldl_append]

theorem dec_value_toDigitsCore (fuel : Nat) :
    ∀ n : Nat, n < fuel → dec_value (Nat.toDigitsCore 10 fuel n []) = n := by
  induction fuel with
  | zero => intro n h; omega
  | succ f ih =>
    intro n h
    simp only [Nat.toDigitsCore]
    split_ifs with h0
    · have hn : n < 10 := by omega
      have hm : n % 10 = n := Nat.mod_eq_of_lt hn
      rw [hm]
      simp [dec_value, digit_value_digitChar n hn]
    · rw [toDigitsCore_acc, dec_value_append_singleton,
        ih (n / 10) (by omega), digit_value_digitChar _ (Nat.mod_lt _ (by decide))]
      omega

/-- The decimal rendering read back gives the number. -/
theorem dec_value_toDigits (n : Nat) : dec_value (Nat.toDigits 10 n) = n :=
  dec_value_toDigitsCore (n + 1) n (Nat.lt_succ_self n)

/-- Two numbers with the same decimal rendering are equal. -/
theorem toDigits_injective (m n : Nat) (h : Nat.toDigits 10 m = Nat.toDigits 10 n) : m = n := by
  have := congrArg dec_value h
  rwa [dec_value_toDigits, dec_value_toDigits] at this

theorem is_digit_toDigitsCore (fuel : Nat) :
    ∀ (n : Nat) (c : Char), c ∈ Nat.toDigitsCore 10 fuel n [] → is_digit c = true := by
  induction fuel with
  | zero => intro n c h; simp [Nat.toDigitsCore] at h
  | succ f ih =>
    intro n c h
    simp only [Nat.toDigitsCore] at h
    split_ifs at h with h0
    · simp only [List.mem_singleton] at h
      rw [h]
      exact is_digit_digitChar _ (Nat.mod_lt _ (by decide))
    · rw [toDigitsCore_acc] at h
      rcases List.mem_append.mp h with h1 | h1
      · exact ih _ c h1
      · simp only [List.mem_singleton] at h1
        rw [h1]
        exact is_digit_digitChar _ (Nat.mod_lt _ (by decide))

/-- Every character of a decimal rendering is a digit. -/
theorem is_digit_toDigits (n : Nat) (c : Char) (h : c ∈ Nat.toDigits 10 n) :
    is_digit c = true :=
  is_digit_toDigitsCore (n + 1) n c h

theorem toDigits_ne_nil (n : Nat) : Nat.toDigits 10 n ≠ [] := by
  unfold Nat.toDigits
  simp only [Nat.toDigitsCore]
  split_ifs
  · simp
  · rw [toDigitsCore_acc]
    simp

/-- Two strings cut at a separator that the second parts do not hold are
equal only when both parts are. -/
theorem append_sep_inj (sep : Char) :
    ∀ (k1 k2 r1 r2 : List Char), sep ∉ r1 → sep ∉ r2 →
      k1 ++ sep :: r1 = k2 ++ sep :: r2 → k1 = k2 ∧ r1 = r2 := by
  intro k1
  induction k1 with
  | nil =>
    intro k2 r1 r2 h1 h2 h
    cases k2 with
    | nil => simpa using h
    | cons c k2 =>
      simp only [List.nil_append, List.cons_append, List.cons.injEq] at h
      exact absurd (h.2 ▸ (by simp : sep ∈ k2 ++ sep :: r2)) h1
  | cons a k1 ih =>
    intro k2 r1 r2 h1 h2 h
    cases k2 with
    | nil =>
      simp only [List.nil_append, List.cons_append, List.cons.injEq] at h
      exact absurd (h.2 ▸ (by simp : sep ∈ k1 ++ sep :: r1)) h2
    | cons c k2 =>
      simp only [List.cons_append, List.cons.injEq] at h
      obtain ⟨e1, e2⟩ := ih k2 r1 r2 h1 h2 h.2
      exact ⟨by rw [h.1, e1], e2⟩

/-- Two strings that start with runs of digits ended by one non-digit
separator are equal only when the runs and the rests are. -/
theorem digits_sep_inj (sep : Char) (hsep : is_digit sep = false) :
    ∀ (d1 d2 r1 r2 : List Char), (∀ c ∈ d1, is_digit c = true) → (∀ c ∈ d2, is_digit c = true) →
      d1 ++ sep :: r1 = d2 ++ sep :: r2 → d1 = d2 ∧ r1 = r2 := by
  intro d1
  induction d1 with
  | nil =>
    intro d2 r1 r2 _ h2 h
    cases d2 with
    | nil => simpa using h
    | cons c d2 =>
      simp only [List.nil_append, List.cons_append, List.cons.injEq] at h
      have := h2 c (by simp)
      rw [← h.1, hsep] at this
      exact absurd this (by decide)
  | cons a d1 ih =>
    intro d2 r1 r2 h1 h2 h
    cases d2 with
    | nil =>
      simp only [List.nil_append, List.cons_append, List.cons.injEq] at h
      have := h1 a (by simp)
      rw [h.1, hsep] at this
      exact absurd this (by decide)
    | cons c d2 =>
      simp only [List.cons_append, List.cons.injEq] at h
      obtain ⟨e1, e2⟩ := ih d2 r1 r2 (fun x hx => h1 x (by simp [hx]))
        (fun x hx => h2 x (by simp [hx])) h.2
      exact ⟨by rw [h.1, e1], e2⟩

end Decimal

namespace DictRados

open dict_commit_ret

/-! ## Lemmas on the escaping -/

theorem rados_escape_username_cons (c : Char) (p : CStr) :
    rados_escape_username (c :: p) = escape_char c ++ rados_escape_username p := by
  simp only [rados_escape_username, escape_char, DICT_USERNAME_SEPARATOR]
  split_ifs <;> simp

theorem rados_unescape_escape (u : CStr) :
    rados_unescape_username (rados_escape_username u) = u := by
  induction u with
  | nil => simp [rados_escape_username, rados_unescape_username]
  | cons c p ih =>
    by_cases h1 : c = '/'
    · subst h1
      simp [rados_escape_username, DICT_USERNAME_SEPARATOR, rados_unescape_username, ih]
    · by_cases h2 : c = '\\'
      · subst h2
        simp [rados_escape_username, DICT_USERNAME_SEPARATOR, rados_unescape_username, ih]
      · have hc : rados_escape_username (c :: p) = c :: rados_escape_username p := by
          simp [rados_escape_username, DICT_USERNAME_SEPARATOR, h1, h2]
        rw [hc]
        cases hq : rados_escape_username p with
        | nil =>
          rw [hq] at ih
          simp [rados_unescape_username, ← ih]
        | cons d q =>
          rw [hq] at ih
          simp [rados_unescape_username, h2, ih]

theorem separator_not_mem_escape (u : CStr) : '/' ∉ rados_escape_username u := by
  induction u with
  | nil => simp [rados_escape_username]
  | cons c p ih =>
    rw [rados_escape_username_cons]
    simp only [List.mem_append, not_or]
    refine ⟨?_, ih⟩
    unfold escape_char
    split_ifs with h1 h2
    · decide
    · decide
    · simpa using fun h => h1 h.symm

/-! ## Lemmas on maps, the store and lookups -/

theorem omap_find_ordered_insert_ne (x k : CStr) (v : Bytes) (m : Omap) (h : k ≠ x) :
    omap_find x (omap_ordered_insert k v m) = omap_find x m := by
  induction m with
  | nil => simp [omap_ordered_insert, omap_find, h]
  | cons kv m ih =>
    obtain ⟨k1, v1⟩ := kv
    unfold omap_ordered_insert
    split_ifs
    · simp [omap_find, h]
    · simp [omap_find, ih]

theorem omap_find_ordered_insert_self (k : CStr) (v : Bytes) (m : Omap)
    (h : omap_find k m = none) : omap_find k (omap_ordered_insert k v m) = some v := by
  induction m with
  | nil => simp [omap_ordered_insert, omap_find]
  | cons kv m ih =>
    obtain ⟨k1, v1⟩ := kv
    unfold omap_ordered_insert
    have hk : k1 ≠ k := by
      intro e
      simp [omap_find, e] at h
    have hm : omap_find k m = none := by
      simpa [omap_find, hk] using h
    split_ifs
    · simp [omap_find]
    · simp [omap_find, hk, ih hm]

theorem omap_find_std_map_insert (x k : CStr) (v : Bytes) (m : Omap) :
    omap_find x (std_map_insert k v m) =
      match omap_find x m with
      | some w => some w
      | none => if k = x then some v else none := by
  unfold std_map_insert
  by_cases hk : k = x
  · subst hk
    cases hf : omap_find k m with
    | none => simp [hf, omap_find_ordered_insert_self k v m hf]
    | some w => simp [hf]
  · cases hf : omap_find k m with
    | none =>
      simp only [Option.isSome_none, Bool.false_eq_true, if_false, hk]
      rw [omap_find_ordered_insert_ne x k v m hk]
      cases omap_find x m <;> rfl
    | some w =>
      simp only [Option.isSome_some, if_true, hk, if_false]
      cases omap_find x m <;> rfl

theorem omap_find_foldl_insert (x : CStr) (l acc : Omap) :
    omap_find x (l.foldl (fun a kv => std_map_insert kv.1 kv.2 a) acc) =
      match omap_find x acc with
      | some w => some w
      | none => omap_find x l := by
  induction l generalizing acc with
  | nil => simp [omap_find]; cases omap_find x acc <;> rfl
  | cons kv l ih =>
    obtain ⟨k1, v1⟩ := kv
    simp only [List.foldl_cons]
    rw [ih, omap_find_std_map_insert]
    cases hf : omap_find x acc with
    | some w => rfl
    | none =>
      by_cases hk : k1 = x
      · simp [hk, omap_find]
      · simp [hk, omap_find]

theorem omap_find_std_map_of (x : CStr) (l : Omap) :
    omap_find x (std_map_of l) = omap_find x l := by
  unfold std_map_of
  rw [omap_find_foldl_insert]
  simp [omap_find]

theorem omap_find_filter (x : CStr) (p : CStr → Bool) (m : Omap) :
    omap_find x (m.filter (fun kv => p kv.1)) = if p x then omap_find x m else none := by
  induction m with
  | nil => simp [omap_find]
  | cons kv m ih =>
    obtain ⟨k1, v1⟩ := kv
    by_cases hk : k1 = x
    · subst hk
      cases hp : p k1 with
      | true => simp [List.filter_cons, hp, omap_find]
      | false => simp [List.filter_cons, hp, ih]
    · cases hp : p k1 with
      | true => simp [List.filter_cons, hp, omap_find, hk, ih]
      | false => simp [List.filter_cons, hp, omap_find, hk, ih]

theorem omap_find_filter_keys (x : CStr) (keys : List CStr) (m : Omap) :
    omap_find x (m.filter (fun kv => decide (kv.1 ∈ keys))) =
      if x ∈ keys then omap_find x m else none := by
  have h := omap_find_filter x (fun k => decide (k ∈ keys)) m
  simpa using h

theorem omap_find_put (x k : CStr) (v : Bytes) (m : Omap) :
    omap_find x (omap_put k v m) = if k = x then some v else omap_find x m := by
  induction m with
  | nil => simp [omap_put, omap_find]
  | cons kv m ih =>
    obtain ⟨k1, v1⟩ := kv
    unfold omap_put
    by_cases h1 : k1 = k
    · subst h1
      by_cases h2 : k1 = x
      · simp [omap_find, h2]
      · simp [omap_find, h2]
    · simp only [h1, if_false, omap_find, ih]
      by_cases h2 : k1 = x
      · subst h2
        simp [Ne.symm h1]
      · simp [h2]

theorem omap_find_remove (x : CStr) (keys : List CStr) (m : Omap) :
    omap_find x (omap_remove keys m) = if x ∈ keys then none else omap_find x m := by
  unfold omap_remove
  have h := omap_find_filter x (fun k => decide (k ∉ keys)) m
  rw [h]
  by_cases hx : x ∈ keys <;> simp [hx]

/-- What a lookup answers, read off the map-object. -/
theorem rados_dict_lookup_eq (s : Store) (key : CStr) :
    (rados_dict_lookup s key).1 =
      match s.object with
      | none => ⟨DICT_COMMIT_RET_NOTFOUND, none⟩
      | some m =>
        match omap_find key m with
        | some val => ⟨DICT_COMMIT_RET_OK, some (p_strndup val val.length)⟩
        | none => ⟨DICT_COMMIT_RET_NOTFOUND, none⟩ := by
  unfold rados_dict_lookup IoCtx_operate_read
  cases hs : s.object with
  | none =>
    simp [rados_dict_lookup_reply, ENOENT]
  | some m =>
    simp only [rados_dict_lookup_reply]
    rw [omap_find_std_map_of, omap_find_filter_keys]
    simp

theorem p_strndup_of_no_nul (v : CStr) (h : NUL ∉ v) : p_strndup v v.length = v := by
  unfold p_strndup
  rw [List.take_length]
  rw [List.takeWhile_eq_self_iff]
  intro c hc
  simp only [decide_eq_true_eq]
  intro e
  exact h (e ▸ hc)

theorem p_strndup_length (v : Bytes) :
    p_strndup v v.length = v.takeWhile (fun c => decide (c ≠ NUL)) := by
  unfold p_strndup
  rw [List.take_length]

/-! ## Lemmas on transactions -/

theorem rados_set_object (ctx : rados_dict_transaction_context) (s : Store) (k v : CStr)
    (ops : List WriteOp) (h : ctx.op = some ops) :
    (rados_set ctx s k v).2.object = some (omap_put k v (s.object.getD [])) := by
  simp [rados_set, h, IoCtx_omap_set, std_map_insert, omap_find, omap_ordered_insert]

theorem rados_unset_object (ctx : rados_dict_transaction_context) (s : Store) (k : CStr)
    (ops : List WriteOp) (h : ctx.op = some ops) :
    (rados_unset ctx s k).2.object = s.object.map (omap_remove [k]) := by
  simp only [rados_unset, h, IoCtx_omap_rm_keys]
  cases hs : s.object <;> simp

theorem rados_atomic_inc_store (ctx : rados_dict_transaction_context) (s : Store) (k : CStr)
    (d : Int) : (rados_atomic_inc ctx s k d).2 = s := by
  unfold rados_atomic_inc
  cases ctx.op <;> rfl

theorem rados_transaction_commit_store (ctx : rados_dict_transaction_context) (s : Store)
    (async : Bool) (callback : Option Nat) (context : Nat) :
    (rados_transaction_commit ctx s async callback context).2 = s := rfl

theorem run_transaction_store (s : Store) (calls : List Mutation) :
    (run_transaction s calls).2 = (run_mutations rados_transaction_init s calls).2 := rfl

theorem run_mutations_atomic_inc_store (ctx : rados_dict_transaction_context) (s : Store)
    (calls : List Mutation) (h : ∀ c ∈ calls, ∃ k d, c = Mutation.atomic_inc k d) :
    (run_mutations ctx s calls).2 = s := by
  induction calls generalizing ctx s with
  | nil => rfl
  | cons c cs ih =>
    obtain ⟨k, d, hc⟩ := h c (List.mem_cons_self c cs)
    subst hc
    simp only [run_mutations, Mutation.apply]
    rw [ih _ _ (fun c hc => h c (List.mem_cons_of_mem _ hc))]
    exact rados_atomic_inc_store ctx s k d

/-! ## The claims -/

/-- C1, evaluated on the code: the user names `a/b` and `a\-b` are different
but `rados_dict_init` derives the same namespace string for both.  The first
holds the separator and is escaped to `a\-b`; the second holds no separator,
so it is taken as it is, its backslash unescaped. -/
theorem namespace_collision_of_unescaped_backslash :
    rados_dict_init_namespace ['a', '/', 'b']
      = rados_dict_init_namespace ['a', '\\', '-', 'b'] ∧
    (['a', '/', 'b'] : CStr) ≠ ['a', '\\', '-', 'b'] := by
  decide

/-- C2: `rados_escape_username` replaces every separator by backslash,minus
and every backslash by two backslashes and copies every other character; its
output holds no separator; decoding the output gives the input back; and the
function is injective. -/
theorem rados_escape_username_injective (u : CStr) :
    rados_escape_username u = u.flatMap escape_char ∧
    '/' ∉ rados_escape_username u ∧
    rados_unescape_username (rados_escape_username u) = u ∧
    ∀ w : CStr, rados_escape_username u = rados_escape_username w → u = w := by
  refine ⟨?_, separator_not_mem_escape u, rados_unescape_escape u, ?_⟩
  · induction u with
    | nil => rfl
    | cons c p ih => rw [rados_escape_username_cons, List.flatMap_cons, ih]
  · intro w h
    have := congrArg rados_unescape_username h
    rwa [rados_unescape_escape, rados_unescape_escape] at this

/-- C3: with the store serving every request, a lookup of a key that the
map-object does not hold returns not-found with a NULL value, and after
`rados_set(k, v)` in a transaction followed by `rados_transaction_commit` a
lookup of `k` returns OK with the value `v`, for every C string `v`, the
empty one included. -/
theorem set_commit_lookup_round_trip (s : Store) (k v : CStr) (hv : NUL ∉ v) :
    ((∀ m, s.object = some m → omap_find k m = none) →
        (rados_dict_lookup s k).1 = ⟨DICT_COMMIT_RET_NOTFOUND, none⟩) ∧
    (rados_dict_lookup (run_transaction s [Mutation.set k v]).2 k).1
        = ⟨DICT_COMMIT_RET_OK, some v⟩ := by
  constructor
  · intro h
    rw [rados_dict_lookup_eq]
    cases hs : s.object with
    | none => rfl
    | some m => simp [h m hs]
  · rw [rados_dict_lookup_eq, run_transaction_store]
    simp only [run_mutations, Mutation.apply]
    rw [rados_set_object rados_transaction_init s k v [] rfl]
    simp [omap_find_put, p_strndup_of_no_nul v hv]

/-- Witness of C3: the empty value set on a store without the map-object. -/
theorem set_commit_lookup_round_trip_witness :
    NUL ∉ ([] : CStr) ∧
    (((∀ m, (⟨none, []⟩ : Store).object = some m → omap_find ['k'] m = none) →
        (rados_dict_lookup ⟨none, []⟩ ['k']).1 = ⟨DICT_COMMIT_RET_NOTFOUND, none⟩) ∧
      (rados_dict_lookup (run_transaction ⟨none, []⟩ [Mutation.set ['k'] []]).2 ['k']).1
        = ⟨DICT_COMMIT_RET_OK, some []⟩) :=
  ⟨by decide, set_commit_lookup_round_trip ⟨none, []⟩ ['k'] [] (by decide)⟩

/-- C4: after a committed `rados_set(k, v)` and a later committed transaction
holding `rados_unset(k)`, a lookup of `k` returns not-found, and a lookup of
any other key returns what it returned before the unset, which is what it
returned before the set. -/
theorem unset_commit_lookup_notfound (s : Store) (k v : CStr) :
    (rados_dict_lookup
        (run_transaction (run_transaction s [Mutation.set k v]).2 [Mutation.unset k]).2 k).1
      = ⟨DICT_COMMIT_RET_NOTFOUND, none⟩ ∧
    ∀ k2 : CStr, k2 ≠ k →
      (rados_dict_lookup
          (run_transaction (run_transaction s [Mutation.set k v]).2 [Mutation.unset k]).2 k2).1
        = (rados_dict_lookup (run_transaction s [Mutation.set k v]).2 k2).1 ∧
      (rados_dict_lookup (run_transaction s [Mutation.set k v]).2 k2).1
        = (rados_dict_lookup s k2).1 := by
  have h1 : (run_transaction s [Mutation.set k v]).2.object
      = some (omap_put k v (s.object.getD [])) := by
    rw [run_transaction_store]
    simp only [run_mutations, Mutation.apply]
    exact rados_set_object rados_transaction_init s k v [] rfl
  have h2 : (run_transaction (run_transaction s [Mutation.set k v]).2 [Mutation.unset k]).2.object
      = some (omap_remove [k] (omap_put k v (s.object.getD []))) := by
    rw [run_transaction_store]
    simp only [run_mutations, Mutation.apply]
    rw [rados_unset_object rados_transaction_init _ k [] rfl, h1]
    rfl
  refine ⟨?_, ?_⟩
  · rw [rados_dict_lookup_eq, h2]
    simp [omap_find_remove]
  · intro k2 hk
    have hk' : ¬ k = k2 := fun e => hk e.symm
    refine ⟨?_, ?_⟩
    · rw [rados_dict_lookup_eq, rados_dict_lookup_eq, h2, h1]
      simp [omap_find_remove, hk]
    · rw [rados_dict_lookup_eq, rados_dict_lookup_eq, h1]
      simp only [omap_find_put, hk', if_false]
      cases hs : s.object with
      | none => simp [omap_find]
      | some m => simp

/-- C5, evaluated on the code: on a store without the map-object a lookup of
`k` returns not-found; after `rados_set(k, v)` on a fresh transaction, with
no commit, the lookup returns OK with `v`; and after
`rados_transaction_rollback` the map-object holds the pair and the store has
received the `omap_set` request. -/
theorem pending_set_visible_and_kept_by_rollback :
    (rados_dict_lookup ⟨none, []⟩ ['k']).1 = ⟨DICT_COMMIT_RET_NOTFOUND, none⟩ ∧
    (rados_dict_lookup
        (run_mutations rados_transaction_init ⟨none, []⟩ [Mutation.set ['k'] ['v']]).2 ['k']).1
      = ⟨DICT_COMMIT_RET_OK, some ['v']⟩ ∧
    (rados_transaction_rollback
        (run_mutations rados_transaction_init ⟨none, []⟩ [Mutation.set ['k'] ['v']]).1
        (run_mutations rados_transaction_init ⟨none, []⟩ [Mutation.set ['k'] ['v']]).2).object
      = some [(['k'], ['v'])] ∧
    (rados_transaction_rollback
        (run_mutations rados_transaction_init ⟨none, []⟩ [Mutation.set ['k'] ['v']]).1
        (run_mutations rados_transaction_init ⟨none, []⟩ [Mutation.set ['k'] ['v']]).2).requests
      = [StoreRequest.omap_set [(['k'], ['v'])]] := by
  decide

/-- C6, evaluated on the code: on an empty map-object, where a lookup of `b`
returns not-found, the transaction `rados_set(a, 1)`, `rados_atomic_inc(b, 1)`
commits with `DICT_COMMIT_RET_OK`, and a lookup of `a` then returns the value
set. -/
theorem commit_ok_after_atomic_inc_on_missing_key :
    (rados_dict_lookup ⟨some [], []⟩ ['b']).1 = ⟨DICT_COMMIT_RET_NOTFOUND, none⟩ ∧
    (run_transaction ⟨some [], []⟩
        [Mutation.set ['a'] ['1'], Mutation.atomic_inc ['b'] 1]).1.ret = DICT_COMMIT_RET_OK ∧
    (rados_dict_lookup (run_transaction ⟨some [], []⟩
        [Mutation.set ['a'] ['1'], Mutation.atomic_inc ['b'] 1]).2 ['a']).1
      = ⟨DICT_COMMIT_RET_OK, some ['1']⟩ := by
  decide

/-- C7, evaluated on the code: with the key `n` holding `5`, a committed
transaction with `rados_atomic_inc(n, 1)` followed by a committed transaction
with `rados_atomic_inc(n, 2)` sends nothing to the store, and a lookup of `n`
still returns `5`. -/
theorem atomic_inc_twice_leaves_value :
    (run_transaction (run_transaction ⟨some [(['n'], ['5'])], []⟩
        [Mutation.atomic_inc ['n'] 1]).2 [Mutation.atomic_inc ['n'] 2]).2
      = ⟨some [(['n'], ['5'])], []⟩ ∧
    (rados_dict_lookup (run_transaction (run_transaction ⟨some [(['n'], ['5'])], []⟩
        [Mutation.atomic_inc ['n'] 1]).2 [Mutation.atomic_inc ['n'] 2]).2 ['n']).1
      = ⟨DICT_COMMIT_RET_OK, some ['5']⟩ := by
  decide

/-- C8: a transaction as `rados_transaction_init` makes it has `changed`
false, and for every transaction with `changed` false
`rados_transaction_commit` returns `DICT_COMMIT_RET_OK` and leaves the store,
its request log included, as it was, so every lookup returns what it
returned before. -/
theorem commit_empty_batch_noop (ctx : rados_dict_transaction_context) (s : Store)
    (async : Bool) (callback : Option Nat) (context : Nat) (h : ctx.changed = false) :
    rados_transaction_init.changed = false ∧
    (rados_transaction_commit ctx s async callback context).1.ret = DICT_COMMIT_RET_OK ∧
    (rados_transaction_commit ctx s async callback context).2 = s ∧
    ∀ key : CStr,
      (rados_dict_lookup (rados_transaction_commit ctx s async callback context).2 key).1
        = (rados_dict_lookup s key).1 := by
  refine ⟨rfl, ?_, rfl, fun _ => rfl⟩
  simp only [rados_transaction_commit, h]
  cases ctx.op <;> simp

/-- Witness of C8: the commit of a transaction fresh from
`rados_transaction_init`, on a map-object holding one pair. -/
theorem commit_empty_batch_noop_witness :
    rados_transaction_init.changed = false ∧
    (rados_transaction_commit rados_transaction_init ⟨some [(['k'], ['v'])], []⟩
        false none 0).1.ret = DICT_COMMIT_RET_OK ∧
    (rados_transaction_commit rados_transaction_init ⟨some [(['k'], ['v'])], []⟩
        false none 0).2 = ⟨some [(['k'], ['v'])], []⟩ :=
  ⟨rfl,
   (commit_empty_batch_noop rados_transaction_init ⟨some [(['k'], ['v'])], []⟩
      false none 0 rfl).2.1,
   (commit_empty_batch_noop rados_transaction_init ⟨some [(['k'], ['v'])], []⟩
      false none 0 rfl).2.2.1⟩

/-- C9: for every transaction and both values of the async flag,
`rados_transaction_commit` with a callback invokes it exactly once, with the
outcome code the function returns and with the supplied context; without a
callback it invokes none. -/
theorem commit_callback_same_outcome (ctx : rados_dict_transaction_context) (s : Store)
    (async : Bool) (context : Nat) :
    (∀ cb : Nat,
      (rados_transaction_commit ctx s async (some cb) context).1.calls
        = [⟨cb, (rados_transaction_commit ctx s async (some cb) context).1.ret, context⟩]) ∧
    (rados_transaction_commit ctx s async none context).1.calls = [] := by
  exact ⟨fun _ => rfl, rfl⟩

/-- C10 as stated fails: with the stored value `a`,NUL,`b` under the key the
lookup returns OK with the value `a`, which is not the stored value. -/
theorem rados_dict_lookup_truncates_at_nul :
    rados_dict_lookup_reply ⟨0, 0, [(['k'], ['a', NUL, 'b'])]⟩ ['k']
      = ⟨DICT_COMMIT_RET_OK, some ['a']⟩ ∧
    (['a'] : CStr) ≠ ['a', NUL, 'b'] := by
  decide

/-- C10, amended: for every key, request status `err` and step status
`r_val`, `rados_dict_lookup` returns OK exactly when `err = 0`, `r_val = 0`
and the key is in the reply, and the value returned is then the stored value
up to its first NUL, the whole stored value when it holds none; it returns
not-found exactly when `err = 0`, `r_val = 0` and the key is absent, or
`err = -ENOENT`; it returns FAILED exactly in the other cases; and the value
is NULL whenever the result is not OK. -/
theorem rados_dict_lookup_classification (key : CStr) (err r_val : Int) (map : Omap) :
    ((rados_dict_lookup_reply ⟨err, r_val, map⟩ key).ret = DICT_COMMIT_RET_OK ↔
      err = 0 ∧ r_val = 0 ∧ ∃ val, omap_find key map = some val) ∧
    (∀ val, err = 0 → r_val = 0 → omap_find key map = some val →
      (rados_dict_lookup_reply ⟨err, r_val, map⟩ key).value_r
          = some (val.takeWhile (fun c => decide (c ≠ NUL))) ∧
      (NUL ∉ val → (rados_dict_lookup_reply ⟨err, r_val, map⟩ key).value_r = some val)) ∧
    ((rados_dict_lookup_reply ⟨err, r_val, map⟩ key).ret = DICT_COMMIT_RET_NOTFOUND ↔
      (err = 0 ∧ r_val = 0 ∧ omap_find key map = none) ∨ err = -ENOENT) ∧
    ((rados_dict_lookup_reply ⟨err, r_val, map⟩ key).ret = DICT_COMMIT_RET_FAILED ↔
      (err ≠ 0 ∧ err ≠ -ENOENT) ∨ (err = 0 ∧ r_val ≠ 0)) ∧
    ((rados_dict_lookup_reply ⟨err, r_val, map⟩ key).ret ≠ DICT_COMMIT_RET_OK →
      (rados_dict_lookup_reply ⟨err, r_val, map⟩ key).value_r = none) := by
  by_cases he : err = 0
  · subst he
    by_cases hr : r_val = 0
    · subst hr
      cases hf : omap_find key map with
      | none => simp [rados_dict_lookup_reply, hf, ENOENT]
      | some val =>
        simp only [rados_dict_lookup_reply, hf]
        refine ⟨by simp, ?_, by simp [ENOENT], by simp [ENOENT], by simp⟩
        intro w _ _ hw
        cases hw
        refine ⟨by simp [p_strndup_length], fun hn => ?_⟩
        simp [p_strndup_of_no_nul val hn]
    · cases hf : omap_find key map <;> simp [rados_dict_lookup_reply, hr, ENOENT]
  · by_cases hn : err = -ENOENT
    · subst hn
      simp [rados_dict_lookup_reply, ENOENT]
    · simp [rados_dict_lookup_reply, he, hn]

/-! ## Lemmas on the iteration -/

theorem rados_dict_iterate_n_ended (iter : rados_dict_iterate_context) (dr : DictRados)
    (h : iter.error.isSome ∨ iter.omap_iter.isNone) (n : Nat) :
    rados_dict_iterate_n iter dr n = (List.replicate n ⟨false, none, none⟩, iter, dr) := by
  induction n with
  | zero => rfl
  | succ n ih =>
    have h1 : rados_dict_iterate iter dr = (⟨false, none, none⟩, iter, dr) := by
      unfold rados_dict_iterate
      rw [if_pos h]
    simp only [rados_dict_iterate_n, h1, ih, List.replicate_succ]

/-- The results of `n` calls of `rados_dict_iterate` on a context without
error whose handle is set: one TRUE for each pair of the reader map from the
iterator on, with the key alive and the value pointer dangling, then FALSE for
all further calls. -/
theorem rados_dict_iterate_n_results (n : Nat) :
    ∀ (iter : rados_dict_iterate_context) (dr : DictRados),
      iter.error = none → iter.omap_iter = some () →
      dr.readerMapIter ≤ dr.readerMap.length →
      (rados_dict_iterate_n iter dr n).1
        = ((dr.readerMap.drop dr.readerMapIter).take n).map
            (fun kv => ⟨true, some (CPtr.live (c_str kv.1)), some CPtr.dangling⟩)
          ++ List.replicate (n - (dr.readerMap.length - dr.readerMapIter))
              ⟨false, none, none⟩ := by
  induction n with
  | zero => intro iter dr _ _ _; simp [rados_dict_iterate_n]
  | succ n ih =>
    intro iter dr herr hit hle
    by_cases hend : dr.readerMapIter = dr.readerMap.length
    · have h1 : rados_dict_iterate iter dr
          = (⟨false, none, none⟩, { iter with omap_iter := none }, dr) := by
        simp [rados_dict_iterate, herr, hit, DictRados.isEndReaderMapIterator, hend]
      simp only [rados_dict_iterate_n, h1]
      rw [rados_dict_iterate_n_ended { iter with omap_iter := none } dr (Or.inr rfl)]
      simp [hend, List.replicate_succ]
    · have hlt : dr.readerMapIter < dr.readerMap.length := lt_of_le_of_ne hle hend
      obtain ⟨kv, hkv⟩ : ∃ kv, dr.readerMap[dr.readerMapIter]? = some kv :=
        ⟨_, List.getElem?_eq_getElem hlt⟩
      have h1 : rados_dict_iterate iter dr
          = (⟨true, some (CPtr.live (c_str kv.1)), some CPtr.dangling⟩, iter,
              dr.incrementReaderMapIterator) := by
        simp [rados_dict_iterate, herr, hit, DictRados.isEndReaderMapIterator, hend, hkv]
      have hdrop : dr.readerMap.drop dr.readerMapIter
          = kv :: dr.readerMap.drop (dr.readerMapIter + 1) := by
        rw [List.drop_eq_getElem_cons hlt]
        congr 1
        have := List.getElem?_eq_getElem hlt
        rw [hkv] at this
        exact (Option.some.inj this).symm
      simp only [rados_dict_iterate_n, h1]
      rw [ih iter dr.incrementReaderMapIterator herr hit
        (by simpa [DictRados.incrementReaderMapIterator] using hlt), hdrop]
      simp only [DictRados.incrementReaderMapIterator, List.take_succ_cons, List.map_cons,
        List.cons_append]
      congr 3
      omega

/-- The whole iteration on an existing map-object with supported flags: the
calls deliver the keys of the reply map in its order, each with a dangling
value pointer, then FALSE. -/
theorem rados_dict_iterate_run_results (dr : DictRados) (s : Store) (m : Omap)
    (paths : List CStr) (flags n : Nat) (hs : s.object = some m)
    (h1 : flags &&& DICT_ITERATE_FLAG_RECURSE = 0)
    (h2 : flags &&& DICT_ITERATE_FLAG_EXACT_KEY = 0)
    (h3 : flags &&& (DICT_ITERATE_FLAG_SORT_BY_KEY ||| DICT_ITERATE_FLAG_SORT_BY_VALUE) = 0) :
    rados_dict_iterate_run dr s paths flags n
      = some (((std_map_of (m.filter (fun kv => decide (kv.1 ∈
            paths.foldl (fun acc p => std_set_insert p acc) [])))).take n).map
          (fun kv => ⟨true, some (CPtr.live (c_str kv.1)), some CPtr.dangling⟩)
        ++ List.replicate (n - (std_map_of (m.filter (fun kv => decide (kv.1 ∈
            paths.foldl (fun acc p => std_set_insert p acc) [])))).length)
          ⟨false, none, none⟩) := by
  have hinit : rados_dict_iterate_init dr s paths flags
      = (some { omap_iter := some (), flags := flags, error := none },
         { readerMap := std_map_of (m.filter (fun kv => decide (kv.1 ∈
            paths.foldl (fun acc p => std_set_insert p acc) []))), readerMapIter := 0 },
         { s with requests := s.requests ++ [StoreRequest.read_omap_get_vals_by_keys
            (paths.foldl (fun acc p => std_set_insert p acc) [])] }) := by
    simp [rados_dict_iterate_init, h1, h2, h3, IoCtx_operate_read, hs,
      DictRados.clearReaderMap, DictRados.beginReaderMapIterator]
  unfold rados_dict_iterate_run
  rw [hinit]
  simp only
  rw [rados_dict_iterate_n_results n _ _ rfl rfl (Nat.zero_le _)]
  simp

/-! ## Lemmas on the initialisation -/

theorem t_strsplit_scan_ne_nil (sep : Char) (cur data : CStr) :
    t_strsplit_scan sep cur data ≠ [] := by
  induction data generalizing cur with
  | nil => simp [t_strsplit_scan]
  | cons c cs ih =>
    unfold t_strsplit_scan
    split_ifs
    · simp
    · exact ih _

theorem uri_of_tokens_cons (t : CStr) (ts : List CStr) (h : ts ≠ []) :
    uri_of_tokens (t :: ts) = t ++ ':' :: uri_of_tokens ts := by
  cases ts with
  | nil => exact absurd rfl h
  | cons u us => rfl

theorem uri_of_tokens_scan (cur data : CStr) :
    uri_of_tokens (t_strsplit_scan ':' cur data) = cur ++ data := by
  induction data generalizing cur with
  | nil => simp [t_strsplit_scan, uri_of_tokens]
  | cons c cs ih =>
    unfold t_strsplit_scan
    split_ifs with h
    · subst h
      rw [uri_of_tokens_cons _ _ (t_strsplit_scan_ne_nil _ _ _), ih]
      simp
    · rw [ih]
      simp

theorem colon_not_mem_scan (cur data : CStr) (hc : ':' ∉ cur) :
    ∀ t ∈ t_strsplit_scan ':' cur data, ':' ∉ t := by
  induction data generalizing cur with
  | nil =>
    intro t ht
    simp [t_strsplit_scan] at ht
    subst ht
    exact hc
  | cons c cs ih =>
    intro t ht
    unfold t_strsplit_scan at ht
    split_ifs at ht with h
    · rcases List.mem_cons.mp ht with h1 | h1
      · subst h1; exact hc
      · exact ih [] (by simp) t h1
    · refine ih (cur ++ [c]) ?_ t ht
      simp only [List.mem_append, List.mem_singleton, not_or]
      exact ⟨hc, fun e => h e.symm⟩

theorem getLast?_filter_append_singleton {α : Type} (f : α → Bool) (l : List α) (a : α) :
    ((l ++ [a]).filter f).getLast? = if f a then some a else (l.filter f).getLast? := by
  rw [List.filter_append]
  cases h : f a with
  | true => simp [List.filter_cons, h]
  | false => simp [List.filter_cons, h]

theorem rados_dict_init_arg_recognized (p : InitParse) (arg : CStr)
    (h : uri_token_recognized arg = true) :
    (rados_dict_init_arg p arg).ret = p.ret ∧
      (rados_dict_init_arg p arg).error_r = p.error_r := by
  unfold rados_dict_init_arg strncmp_eq
  simp only [uri_token_recognized, uri_prefixes, List.any_cons, List.any_nil, Bool.or_false,
    Bool.or_eq_true] at h
  split_ifs with h1 h2 h3 h4 h5
  all_goals first
    | exact ⟨rfl, rfl⟩
    | (exfalso; rcases h with h | h | h | h | h <;> simp_all)

theorem rados_dict_init_arg_unrecognized (p : InitParse) (arg : CStr)
    (h : uri_token_recognized arg = false) :
    rados_dict_init_arg p arg =
      { p with error_r := some ("Unknown parameter: ".toList ++ arg), ret := -1 } := by
  unfold rados_dict_init_arg strncmp_eq
  simp only [uri_token_recognized, uri_prefixes, List.any_cons, List.any_nil, Bool.or_false,
    Bool.or_eq_false_iff] at h
  obtain ⟨h1, h2, h3, h4, h5⟩ := h
  simp only [h1, h2, h3, h4, h5, Bool.false_eq_true, if_false]

theorem prefix_exclusive (p1 p2 arg : CStr) (h12 : ¬ p1 <+: p2) (h21 : ¬ p2 <+: p1)
    (h1 : p1.isPrefixOf arg = true) : p2.isPrefixOf arg = false := by
  by_contra h2
  have h2' : p2.isPrefixOf arg = true := by simpa using h2
  rw [List.isPrefixOf_iff_prefix] at h1 h2'
  rcases List.prefix_or_prefix_of_prefix h1 h2' with h | h
  · exact h12 h
  · exact h21 h

theorem rados_dict_init_arg_settings (p : InitParse) (arg : CStr) :
    (rados_dict_init_arg p arg).settings =
      { cluster_name :=
          if "cluster_name=".toList.isPrefixOf arg then arg.drop 13 else p.settings.cluster_name,
        cluster_user :=
          if "cluster_user=".toList.isPrefixOf arg then arg.drop 13 else p.settings.cluster_user,
        config := if "config=".toList.isPrefixOf arg then arg.drop 7 else p.settings.config,
        pool := if "pool=".toList.isPrefixOf arg then arg.drop 5 else p.settings.pool,
        oid := if "oid=".toList.isPrefixOf arg then arg.drop 4 else p.settings.oid } := by
  unfold rados_dict_init_arg strncmp_eq
  by_cases h1 : "oid=".toList.isPrefixOf arg = true
  · have e2 := prefix_exclusive "oid=".toList "config=".toList arg (by decide) (by decide) h1
    have e3 := prefix_exclusive "oid=".toList "pool=".toList arg (by decide) (by decide) h1
    have e4 := prefix_exclusive "oid=".toList "cluster_name=".toList arg (by decide) (by decide) h1
    have e5 := prefix_exclusive "oid=".toList "cluster_user=".toList arg (by decide) (by decide) h1
    simp only [h1, e2, e3, e4, e5, if_true, Bool.false_eq_true, if_false]
  · by_cases h2 : "config=".toList.isPrefixOf arg = true
    · have e3 := prefix_exclusive "config=".toList "pool=".toList arg (by decide) (by decide) h2
      have e4 := prefix_exclusive "config=".toList "cluster_name=".toList arg (by decide)
        (by decide) h2
      have e5 := prefix_exclusive "config=".toList "cluster_user=".toList arg (by decide)
        (by decide) h2
      simp only [h1, h2, e3, e4, e5, if_true, Bool.false_eq_true, if_false]
    · by_cases h3 : "pool=".toList.isPrefixOf arg = true
      · have e4 := prefix_exclusive "pool=".toList "cluster_name=".toList arg (by decide)
          (by decide) h3
        have e5 := prefix_exclusive "pool=".toList "cluster_user=".toList arg (by decide)
          (by decide) h3
        simp only [h1, h2, h3, e4, e5, if_true, Bool.false_eq_true, if_false]
      · by_cases h4 : "cluster_name=".toList.isPrefixOf arg = true
        · have e5 := prefix_exclusive "cluster_name=".toList "cluster_user=".toList arg
            (by decide) (by decide) h4
          simp only [h1, h2, h3, h4, e5, if_true, Bool.false_eq_true, if_false]
        · by_cases h5 : "cluster_user=".toList.isPrefixOf arg = true
          · simp only [h1, h2, h3, h4, h5, if_true, Bool.false_eq_true, if_false]
          · simp only [h1, h2, h3, h4, h5, Bool.false_eq_true, if_false]

theorem uri_setting_append_singleton (pre dflt : CStr) (toks : List CStr) (a : CStr) :
    uri_setting pre dflt (toks ++ [a]) =
      if pre.isPrefixOf a then a.drop pre.length else uri_setting pre dflt toks := by
  unfold uri_setting
  rw [getLast?_filter_append_singleton]
  cases h : pre.isPrefixOf a <;> simp

/-- What the argument loop leaves, read off the tokens. -/
theorem rados_dict_init_fold (toks : List CStr) :
    (toks.foldl rados_dict_init_arg
        { settings :=
            { cluster_name := "ceph".toList, cluster_user := "client.admin".toList,
              config := "/etc/ceph/ceph.conf".toList, pool := "librmb".toList, oid := [] },
          ret := 0, error_r := none })
      = { settings := uri_settings toks,
          ret := if toks.all uri_token_recognized then 0 else -1,
          error_r := ((toks.filter (fun t => !uri_token_recognized t)).getLast?).map
            (fun t => "Unknown parameter: ".toList ++ t) } := by
  induction toks using List.reverseRecOn with
  | nil => rfl
  | append_singleton toks a ih =>
    rw [List.foldl_append, List.foldl_cons, List.foldl_nil, ih]
    have hs := rados_dict_init_arg_settings
      { settings := uri_settings toks,
        ret := if toks.all uri_token_recognized then 0 else -1,
        error_r := ((toks.filter (fun t => !uri_token_recognized t)).getLast?).map
          (fun t => "Unknown parameter: ".toList ++ t) } a
    have hset : uri_settings (toks ++ [a]) =
        (rados_dict_init_arg
          { settings := uri_settings toks,
            ret := if toks.all uri_token_recognized then 0 else -1,
            error_r := ((toks.filter (fun t => !uri_token_recognized t)).getLast?).map
              (fun t => "Unknown parameter: ".toList ++ t) } a).settings := by
      rw [hs]
      simp only [uri_settings, uri_setting_append_singleton]
      rfl
    rw [getLast?_filter_append_singleton]
    cases hr : uri_token_recognized a with
    | true =>
      obtain ⟨h1, h2⟩ := rados_dict_init_arg_recognized
        { settings := uri_settings toks,
          ret := if toks.all uri_token_recognized then 0 else -1,
          error_r := ((toks.filter (fun t => !uri_token_recognized t)).getLast?).map
            (fun t => "Unknown parameter: ".toList ++ t) } a hr
      rw [hset]
      simp only [List.all_append, List.all_cons, List.all_nil, hr, Bool.and_true, Bool.not_true,
        Bool.false_eq_true, if_false]
      generalize hq : rados_dict_init_arg _ a = q at h1 h2 ⊢
      cases q
      simp_all
    | false =>
      rw [hset, rados_dict_init_arg_unrecognized _ _ hr]
      simp [hr]

theorem rados_dict_init_parse_eq (uri : CStr) :
    rados_dict_init_parse uri
      = { settings := uri_settings (t_strsplit uri ':'),
          ret := if (t_strsplit uri ':').all uri_token_recognized then 0 else -1,
          error_r :=
            (((t_strsplit uri ':').filter (fun t => !uri_token_recognized t)).getLast?).map
              (fun t => "Unknown parameter: ".toList ++ t) } := by
  unfold rados_dict_init_parse
  exact rados_dict_init_fold _

/-- The operations `rados_dict_init` makes and what it returns, case by
case. -/
theorem rados_dict_init_cases (env : ClusterEnv) (uri username : CStr) :
    ((t_strsplit uri ':').all uri_token_recognized = false →
      (rados_dict_init env uri username).ret = -1 ∧
      (rados_dict_init env uri username).dict_r = none ∧
      (rados_dict_init env uri username).ops = [] ∧
      (rados_dict_init env uri username).error_r =
        (((t_strsplit uri ':').filter (fun t => !uri_token_recognized t)).getLast?).map
          (fun t => "Unknown parameter: ".toList ++ t)) ∧
    ((t_strsplit uri ':').all uri_token_recognized = true →
      (env.initCluster (rados_dict_init_parse uri).settings.cluster_user
          (rados_dict_init_parse uri).settings.cluster_name 0 < 0 →
        (rados_dict_init env uri username).ret = -1 ∧
        (rados_dict_init env uri username).dict_r = none ∧
        (rados_dict_init env uri username).ops =
          [ClusterOp.initCluster (rados_dict_init_parse uri).settings.cluster_user
            (rados_dict_init_parse uri).settings.cluster_name 0]) ∧
      (0 ≤ env.initCluster (rados_dict_init_parse uri).settings.cluster_user
          (rados_dict_init_parse uri).settings.cluster_name 0 →
        (env.readConfigFile (rados_dict_init_parse uri).settings.config < 0 →
          (rados_dict_init env uri username).ret = -1 ∧
          (rados_dict_init env uri username).dict_r = none ∧
          (rados_dict_init env uri username).ops =
            [ClusterOp.initCluster (rados_dict_init_parse uri).settings.cluster_user
              (rados_dict_init_parse uri).settings.cluster_name 0,
             ClusterOp.readConfigFile (rados_dict_init_parse uri).settings.config]) ∧
        (0 ≤ env.readConfigFile (rados_dict_init_parse uri).settings.config →
          (env.connect < 0 →
            (rados_dict_init env uri username).ret = -1 ∧
            (rados_dict_init env uri username).dict_r = none ∧
            (rados_dict_init env uri username).ops =
              [ClusterOp.initCluster (rados_dict_init_parse uri).settings.cluster_user
                (rados_dict_init_parse uri).settings.cluster_name 0,
               ClusterOp.readConfigFile (rados_dict_init_parse uri).settings.config,
               ClusterOp.connect]) ∧
          (0 ≤ env.connect →
            (env.createIOContext (rados_dict_init_parse uri).settings.pool < 0 →
              (rados_dict_init env uri username).ret = -1 ∧
              (rados_dict_init env uri username).dict_r = none ∧
              (rados_dict_init env uri username).ops =
                [ClusterOp.initCluster (rados_dict_init_parse uri).settings.cluster_user
                  (rados_dict_init_parse uri).settings.cluster_name 0,
                 ClusterOp.readConfigFile (rados_dict_init_parse uri).settings.config,
                 ClusterOp.connect,
                 ClusterOp.createIOContext (rados_dict_init_parse uri).settings.pool,
                 ClusterOp.shutdown]) ∧
            (0 ≤ env.createIOContext (rados_dict_init_parse uri).settings.pool →
              (rados_dict_init env uri username).ret = 0 ∧
              (rados_dict_init env uri username).dict_r =
                some { settings := (rados_dict_init_parse uri).settings,
                       username := rados_dict_init_namespace username } ∧
              (rados_dict_init env uri username).ops =
                [ClusterOp.initCluster (rados_dict_init_parse uri).settings.cluster_user
                  (rados_dict_init_parse uri).settings.cluster_name 0,
                 ClusterOp.readConfigFile (rados_dict_init_parse uri).settings.config,
                 ClusterOp.connect,
                 ClusterOp.createIOContext (rados_dict_init_parse uri).settings.pool,
                 ClusterOp.set_namespace (rados_dict_init_namespace username)]))))) := by
  constructor
  · intro h
    have hp := rados_dict_init_parse_eq uri
    rw [h] at hp
    have hret : (rados_dict_init_parse uri).ret = -1 := by rw [hp]; rfl
    have herr : (rados_dict_init_parse uri).error_r =
        (((t_strsplit uri ':').filter (fun t => !uri_token_recognized t)).getLast?).map
          (fun t => "Unknown parameter: ".toList ++ t) := by rw [hp]
    simp [rados_dict_init, hret, herr]
  · intro h
    have hp := rados_dict_init_parse_eq uri
    rw [h] at hp
    have hret : (rados_dict_init_parse uri).ret = 0 := by rw [hp]; rfl
    refine ⟨fun h1 => ?_, fun h1 => ⟨fun h2 => ?_, fun h2 => ⟨fun h3 => ?_, fun h3 =>
      ⟨fun h4 => ?_, fun h4 => ?_⟩⟩⟩⟩
    · simp [rados_dict_init, hret, h1]
    · simp [rados_dict_init, hret, not_lt.mpr h1, h2]
    · simp [rados_dict_init, hret, not_lt.mpr h1, not_lt.mpr h2, h3]
    · simp [rados_dict_init, hret, not_lt.mpr h1, not_lt.mpr h2, not_lt.mpr h3, h4]
    · simp [rados_dict_init, hret, not_lt.mpr h1, not_lt.mpr h2, not_lt.mpr h3, not_lt.mpr h4]

theorem lor_eq_zero_iff (a b : Nat) : a ||| b = 0 ↔ a = 0 ∧ b = 0 := by
  constructor
  · intro h
    have ha : a = 0 := by
      apply Nat.eq_of_testBit_eq
      intro i
      have := congrArg (fun x => Nat.testBit x i) h
      simp only [Nat.testBit_or, Nat.zero_testBit, Bool.or_eq_false_iff] at this
      simp [this.1]
    have hb : b = 0 := by
      apply Nat.eq_of_testBit_eq
      intro i
      have := congrArg (fun x => Nat.testBit x i) h
      simp only [Nat.testBit_or, Nat.zero_testBit, Bool.or_eq_false_iff] at this
      simp [this.2]
    exact ⟨ha, hb⟩
  · rintro ⟨rfl, rfl⟩
    rfl

/-! ## The claims on iteration and initialisation -/

/-- C11, evaluated on the code: the map-object holds the one pair of `a` and
`1` and the filter is `a`, `b`.  The first `rados_dict_iterate` returns TRUE
with the key `a`, but the value pointer it hands back refers to the string
`val`, which was destroyed at the end of the block it is local to; the second
and third calls return FALSE. -/
theorem rados_dict_iterate_value_dangling :
    rados_dict_iterate_run ⟨[], 0⟩ ⟨some [(['a'], ['1'])], []⟩ [['a'], ['b']] 0 3
      = some [⟨true, some (CPtr.live ['a']), some CPtr.dangling⟩, ⟨false, none, none⟩,
          ⟨false, none, none⟩] := by
  decide

/-- C12: for every flag word holding `DICT_ITERATE_FLAG_RECURSE`,
`DICT_ITERATE_FLAG_EXACT_KEY`, `DICT_ITERATE_FLAG_SORT_BY_KEY` or
`DICT_ITERATE_FLAG_SORT_BY_VALUE`, `rados_dict_iterate_init` fails on an
assertion with the dictionary object, its reader map and the store, request
log included, as they were; for every flag word holding none of them the
assertions hold and a context is returned. -/
theorem rados_dict_iterate_init_unsupported_flags (dr : DictRados) (s : Store) (paths : List CStr) (flags : Nat) :
    ((flags &&& DICT_ITERATE_FLAG_RECURSE ≠ 0 ∨ flags &&& DICT_ITERATE_FLAG_EXACT_KEY ≠ 0 ∨
        flags &&& DICT_ITERATE_FLAG_SORT_BY_KEY ≠ 0 ∨
        flags &&& DICT_ITERATE_FLAG_SORT_BY_VALUE ≠ 0) →
      rados_dict_iterate_init dr s paths flags = (none, dr, s)) ∧
    ((flags &&& DICT_ITERATE_FLAG_RECURSE = 0 ∧ flags &&& DICT_ITERATE_FLAG_EXACT_KEY = 0 ∧
        flags &&& DICT_ITERATE_FLAG_SORT_BY_KEY = 0 ∧
        flags &&& DICT_ITERATE_FLAG_SORT_BY_VALUE = 0) →
      (rados_dict_iterate_init dr s paths flags).1.isSome = true) := by
  have hor : flags &&& (DICT_ITERATE_FLAG_SORT_BY_KEY ||| DICT_ITERATE_FLAG_SORT_BY_VALUE) = 0 ↔
      flags &&& DICT_ITERATE_FLAG_SORT_BY_KEY = 0 ∧
        flags &&& DICT_ITERATE_FLAG_SORT_BY_VALUE = 0 := by
    rw [Nat.and_or_distrib_left, lor_eq_zero_iff]
  constructor
  · intro h
    unfold rados_dict_iterate_init
    by_cases h1 : flags &&& DICT_ITERATE_FLAG_RECURSE = 0
    · by_cases h2 : flags &&& DICT_ITERATE_FLAG_EXACT_KEY = 0
      · by_cases h3 : flags &&& (DICT_ITERATE_FLAG_SORT_BY_KEY ||| DICT_ITERATE_FLAG_SORT_BY_VALUE) = 0
        · exfalso
          have h3' := hor.mp h3
          rcases h with h | h | h | h
          · exact h h1
          · exact h h2
          · exact h h3'.1
          · exact h h3'.2
        · simp [h1, h2, h3]
      · simp [h1, h2]
    · simp [h1]
  · rintro ⟨h1, h2, h3, h4⟩
    have h34 := hor.mpr ⟨h3, h4⟩
    unfold rados_dict_iterate_init
    simp [h1, h2, h34]

/-- C13: the tokens of `t_strsplit` are the URI split at every colon; when a
token starts with none of the five prefixes, `rados_dict_init` returns -1 with
the error `Unknown parameter: ` followed by the last such token, assigns no
dictionary and makes no cluster operation; in every case the five settings
are the text after the prefix in the last token carrying it, or the default;
and the URI `oid=a::pool=b` has an empty token, which is not recognized. -/
theorem rados_dict_init_uri_grammar (env : ClusterEnv) (uri username : CStr) :
    (uri_of_tokens (t_strsplit uri ':') = uri ∧ ∀ t ∈ t_strsplit uri ':', ':' ∉ t) ∧
    ((∃ t ∈ t_strsplit uri ':', uri_token_recognized t = false) →
      (rados_dict_init env uri username).ret = -1 ∧
      (rados_dict_init env uri username).dict_r = none ∧
      (rados_dict_init env uri username).ops = [] ∧
      ∃ u ∈ t_strsplit uri ':', uri_token_recognized u = false ∧
        ((t_strsplit uri ':').filter (fun t => !uri_token_recognized t)).getLast? = some u ∧
        (rados_dict_init env uri username).error_r = some ("Unknown parameter: ".toList ++ u)) ∧
    (rados_dict_init_parse uri).settings = uri_settings (t_strsplit uri ':') ∧
    (∀ d, (rados_dict_init env uri username).dict_r = some d →
      d.settings = uri_settings (t_strsplit uri ':')) ∧
    (([] : CStr) ∈ t_strsplit "oid=a::pool=b".toList ':' ∧
      uri_token_recognized [] = false) := by
  have hp := rados_dict_init_parse_eq uri
  have hset : (rados_dict_init_parse uri).settings = uri_settings (t_strsplit uri ':') := by
    rw [hp]
  refine ⟨⟨?_, ?_⟩, ?_, hset, ?_, by decide⟩
  · unfold t_strsplit
    split_ifs with h
    · simp [h, uri_of_tokens]
    · simpa using uri_of_tokens_scan [] uri
  · unfold t_strsplit
    split_ifs with h
    · simp
    · exact colon_not_mem_scan [] uri (by simp)
  · rintro ⟨t, ht, hr⟩
    have hall : (t_strsplit uri ':').all uri_token_recognized = false := by
      rw [Bool.eq_false_iff]
      intro hall
      rw [List.all_eq_true] at hall
      rw [hall t ht] at hr
      exact Bool.noConfusion hr
    obtain ⟨h1, h2, h3, h4⟩ := (rados_dict_init_cases env uri username).1 hall
    refine ⟨h1, h2, h3, ?_⟩
    have hmem : t ∈ (t_strsplit uri ':').filter (fun t => !uri_token_recognized t) := by
      simp [List.mem_filter, ht, hr]
    have hne : (t_strsplit uri ':').filter (fun t => !uri_token_recognized t) ≠ [] :=
      List.ne_nil_of_mem hmem
    obtain ⟨u, hu⟩ : ∃ u, ((t_strsplit uri ':').filter
        (fun t => !uri_token_recognized t)).getLast? = some u := by
      cases hq : ((t_strsplit uri ':').filter (fun t => !uri_token_recognized t)).getLast? with
      | none => exact absurd (List.getLast?_eq_none_iff.mp hq) hne
      | some u => exact ⟨u, rfl⟩
    have humem := List.mem_of_getLast?_eq_some hu
    rw [List.mem_filter] at humem
    refine ⟨u, humem.1, by simpa using humem.2, hu, ?_⟩
    rw [h4, hu]
    rfl
  · intro d hd
    by_cases hall : (t_strsplit uri ':').all uri_token_recognized = true
    · obtain ⟨c1, c2⟩ := (rados_dict_init_cases env uri username).2 hall
      by_cases e1 : env.initCluster (rados_dict_init_parse uri).settings.cluster_user
          (rados_dict_init_parse uri).settings.cluster_name 0 < 0
      · rw [(c1 e1).2.1] at hd; cases hd
      · obtain ⟨c3, c4⟩ := c2 (not_lt.mp e1)
        by_cases e2 : env.readConfigFile (rados_dict_init_parse uri).settings.config < 0
        · rw [(c3 e2).2.1] at hd; cases hd
        · obtain ⟨c5, c6⟩ := c4 (not_lt.mp e2)
          by_cases e3 : env.connect < 0
          · rw [(c5 e3).2.1] at hd; cases hd
          · obtain ⟨c7, c8⟩ := c6 (not_lt.mp e3)
            by_cases e4 : env.createIOContext (rados_dict_init_parse uri).settings.pool < 0
            · rw [(c7 e4).2.1] at hd; cases hd
            · rw [(c8 (not_lt.mp e4)).2.1] at hd
              cases hd
              exact hset
    · have hall' : (t_strsplit uri ':').all uri_token_recognized = false := by
        simpa using hall
      rw [((rados_dict_init_cases env uri username).1 hall').2.1] at hd
      cases hd

/-- C14: `rados_dict_init` returns 0 and assigns `*dict_r` exactly when every
URI token is recognized and `initCluster`, `readConfigFile`, `connect` and
`createIOContext` all return a non-negative status; otherwise it returns -1
and leaves `*dict_r` unassigned; and each of the four steps is attempted only
when every token is recognized and all earlier steps returned a non-negative
status. -/
theorem rados_dict_init_all_or_nothing (env : ClusterEnv) (uri username : CStr) :
    (((rados_dict_init env uri username).ret = 0 ∧
        (rados_dict_init env uri username).dict_r.isSome = true) ↔
      ((t_strsplit uri ':').all uri_token_recognized = true ∧
        0 ≤ env.initCluster (rados_dict_init_parse uri).settings.cluster_user
          (rados_dict_init_parse uri).settings.cluster_name 0 ∧
        0 ≤ env.readConfigFile (rados_dict_init_parse uri).settings.config ∧
        0 ≤ env.connect ∧
        0 ≤ env.createIOContext (rados_dict_init_parse uri).settings.pool)) ∧
    (((rados_dict_init env uri username).ret = 0 ∧
        (rados_dict_init env uri username).dict_r.isSome = true) ∨
      ((rados_dict_init env uri username).ret = -1 ∧
        (rados_dict_init env uri username).dict_r = none)) ∧
    (ClusterOp.initCluster (rados_dict_init_parse uri).settings.cluster_user
        (rados_dict_init_parse uri).settings.cluster_name 0
          ∈ (rados_dict_init env uri username).ops →
      (t_strsplit uri ':').all uri_token_recognized = true) ∧
    (ClusterOp.readConfigFile (rados_dict_init_parse uri).settings.config
          ∈ (rados_dict_init env uri username).ops →
      (t_strsplit uri ':').all uri_token_recognized = true ∧
        0 ≤ env.initCluster (rados_dict_init_parse uri).settings.cluster_user
          (rados_dict_init_parse uri).settings.cluster_name 0) ∧
    (ClusterOp.connect ∈ (rados_dict_init env uri username).ops →
      (t_strsplit uri ':').all uri_token_recognized = true ∧
        0 ≤ env.initCluster (rados_dict_init_parse uri).settings.cluster_user
          (rados_dict_init_parse uri).settings.cluster_name 0 ∧
        0 ≤ env.readConfigFile (rados_dict_init_parse uri).settings.config) ∧
    (ClusterOp.createIOContext (rados_dict_init_parse uri).settings.pool
          ∈ (rados_dict_init env uri username).ops →
      (t_strsplit uri ':').all uri_token_recognized = true ∧
        0 ≤ env.initCluster (rados_dict_init_parse uri).settings.cluster_user
          (rados_dict_init_parse uri).settings.cluster_name 0 ∧
        0 ≤ env.readConfigFile (rados_dict_init_parse uri).settings.config ∧
        0 ≤ env.connect) := by
  by_cases hall : (t_strsplit uri ':').all uri_token_recognized = true
  · obtain ⟨c1, c2⟩ := (rados_dict_init_cases env uri username).2 hall
    by_cases e1 : env.initCluster (rados_dict_init_parse uri).settings.cluster_user
        (rados_dict_init_parse uri).settings.cluster_name 0 < 0
    · obtain ⟨r1, r2, r3⟩ := c1 e1
      simp [r1, r2, r3, hall, e1]
    · obtain ⟨c3, c4⟩ := c2 (not_lt.mp e1)
      by_cases e2 : env.readConfigFile (rados_dict_init_parse uri).settings.config < 0
      · obtain ⟨r1, r2, r3⟩ := c3 e2
        simp [r1, r2, r3, hall, not_lt.mp e1, e2]
      · obtain ⟨c5, c6⟩ := c4 (not_lt.mp e2)
        by_cases e3 : env.connect < 0
        · obtain ⟨r1, r2, r3⟩ := c5 e3
          simp [r1, r2, r3, hall, not_lt.mp e1, not_lt.mp e2, e3]
        · obtain ⟨c7, c8⟩ := c6 (not_lt.mp e3)
          by_cases e4 : env.createIOContext (rados_dict_init_parse uri).settings.pool < 0
          · obtain ⟨r1, r2, r3⟩ := c7 e4
            simp [r1, r2, r3, hall, not_lt.mp e1, not_lt.mp e2, not_lt.mp e3, e4]
          · obtain ⟨r1, r2, r3⟩ := c8 (not_lt.mp e4)
            simp [r1, r2, r3, hall, not_lt.mp e1, not_lt.mp e2, not_lt.mp e3, not_lt.mp e4]
  · have hall' : (t_strsplit uri ':').all uri_token_recognized = false := by
      simpa using hall
    obtain ⟨r1, r2, r3, _⟩ := (rados_dict_init_cases env uri username).1 hall'
    simp [r1, r2, r3, hall']

/-- C15 as stated fails: when `createIOContext` returns a negative status,
`rados_dict_init` shuts the session down as its last operation, and when
`storage_create` returns a negative status `rbox_storage_create` calls
`deinit` on the cluster. -/
theorem pool_binding_failure_shuts_session_down :
    (rados_dict_init
        { initCluster := fun _ _ _ => 0, readConfigFile := fun _ => 0, connect := 0,
          createIOContext := fun _ => -2, strerror := fun _ => [] } [] ['u']).ops
      = [ClusterOp.initCluster "client.admin".toList "ceph".toList 0,
         ClusterOp.readConfigFile "/etc/ceph/ceph.conf".toList,
         ClusterOp.connect,
         ClusterOp.createIOContext "librmb".toList,
         ClusterOp.shutdown] ∧
    (RboxStorage.rbox_storage_create
        { dbox_storage_create := 0, dbox_error := none, attachment_fs := none,
          FS_PROPERTY_RENAME := 8, cluster_init := 0, error_msg := [],
          storage_create := fun _ _ _ => -2, user := some ['u'],
          strerror := fun _ => [] }).calls
      = [RboxStorage.ClusterCall.init,
         RboxStorage.ClusterCall.storage_create "mail_storage".toList ['u'] "my_oid".toList,
         RboxStorage.ClusterCall.deinit] := by
  decide

/-- C15, amended: when every step before the pool binding succeeded and
`createIOContext` returns a negative status, `rados_dict_init` returns -1,
assigns no dictionary and ends with `shutdown` of the session; when the steps
before it succeeded and `storage_create` returns a negative status,
`rbox_storage_create` returns -1 and ends with `deinit` of the cluster. -/
theorem pool_binding_failure_releases_session (env : ClusterEnv) (uri username : CStr)
    (senv : RboxStorage.StorageEnv) :
    (((t_strsplit uri ':').all uri_token_recognized = true ∧
        0 ≤ env.initCluster (rados_dict_init_parse uri).settings.cluster_user
          (rados_dict_init_parse uri).settings.cluster_name 0 ∧
        0 ≤ env.readConfigFile (rados_dict_init_parse uri).settings.config ∧
        0 ≤ env.connect ∧
        env.createIOContext (rados_dict_init_parse uri).settings.pool < 0) →
      (rados_dict_init env uri username).ret = -1 ∧
      (rados_dict_init env uri username).dict_r = none ∧
      (rados_dict_init env uri username).ops.getLast? = some ClusterOp.shutdown) ∧
    ((RboxStorage.ClusterCall.storage_create "mail_storage".toList
          (senv.user.getD "unknown".toList) "my_oid".toList
            ∈ (RboxStorage.rbox_storage_create senv).calls ∧
        senv.storage_create "mail_storage".toList (senv.user.getD "unknown".toList)
          "my_oid".toList < 0) →
      (RboxStorage.rbox_storage_create senv).ret = -1 ∧
      (RboxStorage.rbox_storage_create senv).calls.getLast?
        = some RboxStorage.ClusterCall.deinit) := by
  constructor
  · rintro ⟨hall, e1, e2, e3, e4⟩
    obtain ⟨r1, r2, r3⟩ :=
      ((((((rados_dict_init_cases env uri username).2 hall).2 e1).2 e2).2 e3).1 e4)
    rw [r1, r2, r3]
    simp
  · rintro ⟨hmem, hneg⟩
    have hu : (match senv.user with
        | some u => u
        | none => "unknown".toList) = senv.user.getD "unknown".toList := by
      cases senv.user <;> rfl
    by_cases h1 : senv.dbox_storage_create < 0
    · simp [RboxStorage.rbox_storage_create, h1] at hmem
    · by_cases h2 : (match senv.attachment_fs with
          | some props => decide (props &&& senv.FS_PROPERTY_RENAME = 0)
          | none => false) = true
      · simp [RboxStorage.rbox_storage_create, h1, h2] at hmem
      · by_cases h3 : senv.cluster_init < 0
        · simp [RboxStorage.rbox_storage_create, h1, h2, h3] at hmem
        · simp only [RboxStorage.rbox_storage_create, h1, h2, h3, hu, hneg, if_false, if_true,
            Bool.false_eq_true]
          exact ⟨trivial, rfl⟩

/-! ## Lemmas on the payload of the increment and on the flag of the commit -/

theorem lld_to_dec_is_digit_or_minus (d : Int) (c : Char) (h : c ∈ lld_to_dec d) :
    c = '-' ∨ Decimal.is_digit c = true := by
  cases d with
  | ofNat n => exact Or.inr (Decimal.is_digit_toDigits n c h)
  | negSucc n =>
    simp only [lld_to_dec, List.mem_cons] at h
    rcases h with h | h
    · exact Or.inl h
    · exact Or.inr (Decimal.is_digit_toDigits _ c h)

theorem semicolon_not_mem_lld_to_dec (d : Int) : ';' ∉ lld_to_dec d := by
  intro h
  rcases lld_to_dec_is_digit_or_minus d ';' h with h1 | h1
  · exact absurd h1 (by decide)
  · exact absurd h1 (by decide)

theorem lld_to_dec_injective (d1 d2 : Int) (h : lld_to_dec d1 = lld_to_dec d2) : d1 = d2 := by
  have hminus : ∀ (m : Nat) (r : List Char), Nat.toDigits 10 m ≠ '-' :: r := by
    intro m r e
    have := Decimal.is_digit_toDigits m '-' (by rw [e]; simp)
    exact absurd this (by decide)
  cases d1 with
  | ofNat m =>
    cases d2 with
    | ofNat n =>
      simp only [lld_to_dec] at h
      rw [Decimal.toDigits_injective m n h]
    | negSucc n =>
      simp only [lld_to_dec] at h
      exact absurd h (hminus m _)
  | negSucc m =>
    cases d2 with
    | ofNat n =>
      simp only [lld_to_dec] at h
      exact absurd h.symm (hminus n _)
    | negSucc n =>
      simp only [lld_to_dec, List.cons.injEq, true_and] at h
      have := Decimal.toDigits_injective _ _ h
      have e : m = n := by omega
      rw [e]

theorem Mutation_apply_flag (ctx : rados_dict_transaction_context) (s : Store) (c : Mutation) :
    (c.apply ctx s).1.atomic_inc_not_found = ctx.atomic_inc_not_found := by
  cases c <;> cases hop : ctx.op <;>
    simp [Mutation.apply, rados_set, rados_unset, rados_atomic_inc, hop]

theorem run_mutations_flag (calls : List Mutation) :
    ∀ (ctx : rados_dict_transaction_context) (s : Store),
      (run_mutations ctx s calls).1.atomic_inc_not_found = ctx.atomic_inc_not_found := by
  induction calls with
  | nil => intro ctx s; rfl
  | cons c cs ih =>
    intro ctx s
    simp only [run_mutations]
    rw [ih, Mutation_apply_flag]

/-- C25: the payload that `rados_atomic_inc` records for the `atomic_inc`
exec operation is the key, a semicolon and the signed decimal increment, and
it determines both: two calls that record the same operation were made with
the same key and the same increment, whatever semicolons the keys hold. -/
theorem rados_atomic_inc_payload_injective (ctx : rados_dict_transaction_context)
    (s1 s2 : Store) (ops : List WriteOp) (hop : ctx.op = some ops) (k1 k2 : CStr) (d1 d2 : Int)
    (h : (rados_atomic_inc ctx s1 k1 d1).1.op = (rados_atomic_inc ctx s2 k2 d2).1.op) :
    (rados_atomic_inc ctx s1 k1 d1).1.op
        = some (ops ++ [WriteOp.exec "rmb" "atomic_inc" (k1 ++ ';' :: lld_to_dec d1)
            ((k1 ++ ';' :: lld_to_dec d1).length + 1)])
      ∧ k1 = k2 ∧ d1 = d2 := by
  have e1 : ∀ (s : Store) (k : CStr) (d : Int), (rados_atomic_inc ctx s k d).1.op
      = some (ops ++ [WriteOp.exec "rmb" "atomic_inc" (k ++ ';' :: lld_to_dec d)
          ((k ++ ';' :: lld_to_dec d).length + 1)]) := by
    intro s k d
    simp only [rados_atomic_inc, hop]
  refine ⟨e1 s1 k1 d1, ?_⟩
  rw [e1, e1] at h
  have h2 := List.append_cancel_left (Option.some.inj h)
  simp only [List.cons.injEq, WriteOp.exec.injEq, and_true, true_and] at h2
  obtain ⟨hk, hd⟩ := Decimal.append_sep_inj ';' k1 k2 _ _
    (semicolon_not_mem_lld_to_dec d1) (semicolon_not_mem_lld_to_dec d2) h2.1
  exact ⟨hk, lld_to_dec_injective d1 d2 hd⟩

/-- C26: whatever calls of `rados_set`, `rados_unset` and `rados_atomic_inc`
are made on a transaction of `rados_transaction_init` and whatever the store
holds, no call sets `atomic_inc_not_found`, and `rados_transaction_commit`
returns `DICT_COMMIT_RET_OK` and leaves the store and the log of its requests
as they were. -/
theorem rados_transaction_commit_always_ok (s : Store) (calls : List Mutation) (async : Bool)
    (callback : Option Nat) (context : Nat) :
    (∀ (ctx : rados_dict_transaction_context) (s0 : Store) (c : Mutation),
        (c.apply ctx s0).1.atomic_inc_not_found = ctx.atomic_inc_not_found)
      ∧ (run_mutations rados_transaction_init s calls).1.atomic_inc_not_found = false
      ∧ (rados_transaction_commit (run_mutations rados_transaction_init s calls).1
          (run_mutations rados_transaction_init s calls).2 async callback context).1.ret
          = DICT_COMMIT_RET_OK
      ∧ (rados_transaction_commit (run_mutations rados_transaction_init s calls).1
          (run_mutations rados_transaction_init s calls).2 async callback context).2
          = (run_mutations rados_transaction_init s calls).2 := by
  have hflag : (run_mutations rados_transaction_init s calls).1.atomic_inc_not_found = false := by
    rw [run_mutations_flag]
    rfl
  refine ⟨Mutation_apply_flag, hflag, ?_, rfl⟩
  simp only [rados_transaction_commit, hflag]
  cases (run_mutations rados_transaction_init s calls).1.op <;>
    cases (run_mutations rados_transaction_init s calls).1.changed <;> simp

/-! ## Lemmas on two iterations over one dictionary object -/

theorem rados_dict_iterate_n_state (n : Nat) :
    ∀ (iter : rados_dict_iterate_context) (dr : DictRados),
      iter.error = none → iter.omap_iter = some () →
      dr.readerMapIter + n ≤ dr.readerMap.length →
      (rados_dict_iterate_n iter dr n).2
        = (iter, { dr with readerMapIter := dr.readerMapIter + n }) := by
  induction n with
  | zero => intro iter dr _ _ _; rfl
  | succ n ih =>
    intro iter dr herr hit hle
    have hlt : dr.readerMapIter < dr.readerMap.length := by omega
    have hend : dr.readerMapIter ≠ dr.readerMap.length := by omega
    obtain ⟨kv, hkv⟩ : ∃ kv, dr.readerMap[dr.readerMapIter]? = some kv :=
      ⟨_, List.getElem?_eq_getElem hlt⟩
    have h1 : rados_dict_iterate iter dr
        = (⟨true, some (CPtr.live (c_str kv.1)), some CPtr.dangling⟩, iter,
            dr.incrementReaderMapIterator) := by
      simp [rados_dict_iterate, herr, hit, DictRados.isEndReaderMapIterator, hend, hkv]
    simp only [rados_dict_iterate_n, h1]
    rw [ih iter dr.incrementReaderMapIterator herr hit
      (by simp only [DictRados.incrementReaderMapIterator]; omega)]
    simp only [DictRados.incrementReaderMapIterator, Prod.mk.injEq, true_and]
    congr 1
    omega

theorem rados_dict_iterate_init_existing (dr : DictRados) (s : Store) (m : Omap)
    (paths : List CStr) (flags : Nat) (hs : s.object = some m)
    (h1 : flags &&& DICT_ITERATE_FLAG_RECURSE = 0)
    (h2 : flags &&& DICT_ITERATE_FLAG_EXACT_KEY = 0)
    (h3 : flags &&& (DICT_ITERATE_FLAG_SORT_BY_KEY ||| DICT_ITERATE_FLAG_SORT_BY_VALUE) = 0) :
    rados_dict_iterate_init dr s paths flags
      = (some { omap_iter := some (), flags := flags, error := none },
         { readerMap := std_map_of (m.filter (fun kv => decide (kv.1 ∈
            paths.foldl (fun acc p => std_set_insert p acc) []))), readerMapIter := 0 },
         { s with requests := s.requests ++ [StoreRequest.read_omap_get_vals_by_keys
            (paths.foldl (fun acc p => std_set_insert p acc) [])] }) := by
  simp [rados_dict_iterate_init, h1, h2, h3, IoCtx_operate_read, hs,
    DictRados.clearReaderMap, DictRados.beginReaderMapIterator]

/-- C27: the snapshot and the cursor of an iteration belong to the
dictionary object.  On an existing map-object, after `k` calls on a first
context that has not ended, a second `rados_dict_iterate_init` on the same
dictionary object replaces the snapshot and resets the cursor; `a` further calls on the first context then
deliver the first `a` pairs of the second snapshot, and calls on the second
context that follow them start at pair `a`: the two contexts move one cursor
and no pair goes to both. -/
theorem second_iterate_init_retargets (dr : DictRados) (s : Store) (m1 m2 : Omap)
    (paths1 paths2 : List CStr) (flags1 flags2 k a b : Nat) (hs : s.object = some m1)
    (h1 : flags1 &&& DICT_ITERATE_FLAG_RECURSE = 0)
    (h2 : flags1 &&& DICT_ITERATE_FLAG_EXACT_KEY = 0)
    (h3 : flags1 &&& (DICT_ITERATE_FLAG_SORT_BY_KEY ||| DICT_ITERATE_FLAG_SORT_BY_VALUE) = 0)
    (g1 : flags2 &&& DICT_ITERATE_FLAG_RECURSE = 0)
    (g2 : flags2 &&& DICT_ITERATE_FLAG_EXACT_KEY = 0)
    (g3 : flags2 &&& (DICT_ITERATE_FLAG_SORT_BY_KEY ||| DICT_ITERATE_FLAG_SORT_BY_VALUE) = 0)
    (hk : k ≤ (std_map_of (m1.filter (fun kv => decide (kv.1 ∈
            paths1.foldl (fun acc p => std_set_insert p acc) [])))).length)
    (ha : a ≤ (std_map_of (m2.filter (fun kv => decide (kv.1 ∈
            paths2.foldl (fun acc p => std_set_insert p acc) [])))).length) :
    ∃ (it1 it2 : rados_dict_iterate_context) (dr1 dr2 : DictRados) (s1 s2 : Store),
      rados_dict_iterate_init dr s paths1 flags1 = (some it1, dr1, s1)
      ∧ (rados_dict_iterate_n it1 dr1 k).2.1 = it1
      ∧ rados_dict_iterate_init (rados_dict_iterate_n it1 dr1 k).2.2
          { s1 with object := some m2 } paths2 flags2 = (some it2, dr2, s2)
      ∧ dr2.readerMap = std_map_of (m2.filter (fun kv => decide (kv.1 ∈
            paths2.foldl (fun acc p => std_set_insert p acc) [])))
      ∧ (rados_dict_iterate_n it1 dr2 a).1
          = (dr2.readerMap.take a).map
              (fun kv => ⟨true, some (CPtr.live (c_str kv.1)), some CPtr.dangling⟩)
      ∧ (rados_dict_iterate_n it2 (rados_dict_iterate_n it1 dr2 a).2.2 b).1
          = ((dr2.readerMap.drop a).take b).map
              (fun kv => ⟨true, some (CPtr.live (c_str kv.1)), some CPtr.dangling⟩)
            ++ List.replicate (b - (dr2.readerMap.length - a)) ⟨false, none, none⟩ := by
  have e1 := rados_dict_iterate_init_existing dr s m1 paths1 flags1 hs h1 h2 h3
  have e2 := rados_dict_iterate_init_existing
    (rados_dict_iterate_n { omap_iter := some (), flags := flags1, error := none }
      { readerMap := std_map_of (m1.filter (fun kv => decide (kv.1 ∈
          paths1.foldl (fun acc p => std_set_insert p acc) []))), readerMapIter := 0 } k).2.2
    { object := some m2, requests := s.requests ++ [StoreRequest.read_omap_get_vals_by_keys
        (paths1.foldl (fun acc p => std_set_insert p acc) [])] }
    m2 paths2 flags2 rfl g1 g2 g3
  refine ⟨_, _, _, _, _, _, e1, ?_, e2, ?_, ?_, ?_⟩
  · rw [rados_dict_iterate_n_state k _ _ rfl rfl (by simpa using hk)]
  · rfl
  · rw [rados_dict_iterate_n_results a _ _ rfl rfl (Nat.zero_le _)]
    simp only [List.drop_zero, Nat.sub_zero]
    rw [Nat.sub_eq_zero_of_le ha]
    simp
  · rw [rados_dict_iterate_n_state a _ _ rfl rfl (by simpa using ha)]
    rw [rados_dict_iterate_n_results b _ _ rfl rfl (by simpa using ha)]
    simp

/-- Witness of C25: the key `a;b` with the increment -5 on a fresh
transaction. -/
theorem rados_atomic_inc_payload_injective_witness :
    rados_transaction_init.op = some [] ∧
    (rados_atomic_inc rados_transaction_init ⟨none, []⟩ ['a', ';', 'b'] (-5)).1.op
      = some ([] ++ [WriteOp.exec "rmb" "atomic_inc" (['a', ';', 'b'] ++ ';' :: lld_to_dec (-5))
          ((['a', ';', 'b'] ++ ';' :: lld_to_dec (-5)).length + 1)]) :=
  ⟨rfl, (rados_atomic_inc_payload_injective rados_transaction_init ⟨none, []⟩ ⟨none, []⟩ [] rfl
    ['a', ';', 'b'] ['a', ';', 'b'] (-5) (-5) rfl).1⟩

/-- Witness of C27: a first iteration over the keys `a` and `b`, one call on
it, then a second iteration over `b` and `c` on the same dictionary object;
the next call on the first context delivers `b` of the second snapshot, the
call on the second context that follows delivers `c`. -/
theorem second_iterate_init_retargets_witness :
    (0 : Nat) &&& DICT_ITERATE_FLAG_RECURSE = 0 ∧
    ∃ (it1 it2 : rados_dict_iterate_context) (dr1 dr2 : DictRados) (s1 : Store),
      rados_dict_iterate_init ⟨[], 0⟩
          ⟨some [(['a'], ['1']), (['b'], ['2']), (['c'], ['3'])], []⟩ [['a'], ['b']] 0
        = (some it1, dr1, s1)
      ∧ dr2.readerMap = [(['b'], ['2']), (['c'], ['3'])]
      ∧ (rados_dict_iterate_n it1 dr2 1).1
          = [⟨true, some (CPtr.live ['b']), some CPtr.dangling⟩]
      ∧ (rados_dict_iterate_n it2 (rados_dict_iterate_n it1 dr2 1).2.2 2).1
          = [⟨true, some (CPtr.live ['c']), some CPtr.dangling⟩, ⟨false, none, none⟩] :=
  ⟨by decide,
    (second_iterate_init_retargets ⟨[], 0⟩
      ⟨some [(['a'], ['1']), (['b'], ['2']), (['c'], ['3'])], []⟩
      [(['a'], ['1']), (['b'], ['2']), (['c'], ['3'])]
      [(['a'], ['1']), (['b'], ['2']), (['c'], ['3'])]
      [['a'], ['b']] [['b'], ['c']] 0 0 1 1 2 rfl (by decide) (by decide) (by decide)
      (by decide) (by decide) (by decide) (by decide) (by decide)).elim
      (fun it1 h => h.elim (fun it2 h => h.elim (fun dr1 h => h.elim (fun dr2 h =>
        h.elim (fun s1 h => h.elim (fun _ h =>
          ⟨it1, it2, dr1, dr2, s1, h.1,
            h.2.2.2.1.trans (by decide),
            h.2.2.2.2.1.trans (by rw [h.2.2.2.1]; decide),
            h.2.2.2.2.2.trans (by rw [h.2.2.2.1]; decide)⟩))))))⟩

end DictRados

/-! # Properties of the save code -/

namespace RadosSave

/-! ## Lemmas on the index transaction -/

theorem update_nth_length_append (f : IndexRecord → IndexRecord) (l : List IndexRecord)
    (x : IndexRecord) : update_nth f l.length (l ++ [x]) = l ++ [f x] := by
  induction l with
  | nil => rfl
  | cons r rs ih => simp [update_nth, ih]

theorem update_record_last (t : mail_index_transaction) (x : IndexRecord)
    (f : IndexRecord → IndexRecord) :
    update_record { t with appends := t.appends ++ [x] } (t.first_new_seq + t.appends.length) f
      = { t with appends := t.appends ++ [f x] } := by
  unfold update_record
  simp [update_nth_length_append]

theorem range_succ_map_add (u m : Nat) :
    (List.range (m + 1)).map (fun i => u + i)
      = u :: (List.range m).map (fun i => (u + 1) + i) := by
  rw [List.range_succ_eq_map]
  simp only [List.map_cons, List.map_map, Nat.add_zero, List.cons.injEq, true_and]
  apply List.map_congr_left
  intro i _
  simp only [Function.comp]
  omega

theorem assign_uids_map_uid (u : Nat) (l : List IndexRecord) (h : u + l.length ≤ 2 ^ 32) :
    (assign_uids u l).map (fun r => r.uid) = (List.range l.length).map (fun i => u + i) := by
  induction l generalizing u with
  | nil => rfl
  | cons r rs ih =>
    rw [List.length_cons, range_succ_map_add]
    simp only [assign_uids, List.map_cons, List.cons.injEq, true_and]
    cases rs with
    | nil => rfl
    | cons r2 rs2 =>
      simp only [List.length_cons] at h
      have hlt : u + 1 < 2 ^ 32 := by omega
      rw [Nat.mod_eq_of_lt hlt]
      exact ih (u + 1) (by simp only [List.length_cons]; omega)

/-! ## Lemmas on the paths -/

theorem toDigitsCore_append (b : Nat) (fuel : Nat) :
    ∀ (n : Nat) (ds : List Char),
      Nat.toDigitsCore b fuel n ds = Nat.toDigitsCore b fuel n [] ++ ds := by
  induction fuel with
  | zero => intro n ds; simp [Nat.toDigitsCore]
  | succ f ih =>
    intro n ds
    simp only [Nat.toDigitsCore]
    split_ifs
    · rfl
    · rw [ih (n / b) (Nat.digitChar (n % b) :: ds), ih (n / b) [Nat.digitChar (n % b)]]
      simp

theorem dec2str_getLast (n : Nat) :
    (dec2str n).getLast? = some (Nat.digitChar (n % 10)) := by
  unfold dec2str Nat.toDigits
  simp only [Nat.toDigitsCore]
  split_ifs
  · rfl
  · rw [toDigitsCore_append]
    simp

theorem digitChar_ne_dot (d : Nat) (h : d < 10) : Nat.digitChar d ≠ '.' := by
  interval_cases d <;> decide

theorem commit_dest_ne_src (dir : Path) (base : List Char) (uid n : Nat) :
    commit_dest_path dir uid ≠ commit_src_path dir base n := by
  intro h
  have h1 : (commit_dest_path dir uid).getLast? = some '.' := by
    unfold commit_dest_path
    rw [← List.append_assoc, List.getLast?_append_of_ne_nil _ (by simp)]
    rfl
  have h2 : (commit_src_path dir base n).getLast? = some (Nat.digitChar (n % 10)) := by
    unfold commit_src_path
    have hne : dec2str n ≠ [] := by
      intro e
      have := dec2str_getLast n
      rw [e] at this
      simp at this
    rw [List.getLast?_append_of_ne_nil _ hne]
    exact dec2str_getLast n
  rw [h, h2] at h1
  exact digitChar_ne_dot (n % 10) (Nat.mod_lt _ (by decide)) (Option.some.inj h1)

/-! ## Lemmas on the rename loop -/

theorem sys_rename_calls (env : SysEnv) (w : World) (s d : Path) :
    (sys_rename env w s d).2.calls
      = w.calls ++ [SysCall.rename s d (sys_rename env w s d).1] := by
  unfold sys_rename
  split_ifs <;> rfl

theorem sys_rename_files (env : SysEnv) (w : World) (s d : Path) :
    (sys_rename env w s d).2.files
      = if (sys_rename env w s d).1 = true then
          d :: w.files.filter (fun p => decide (p ≠ s ∧ p ≠ d))
        else w.files := by
  unfold sys_rename
  split_ifs <;> simp_all

theorem sys_rename_keeps (env : SysEnv) (w : World) (s d p : Path) (hp : p ∈ w.files)
    (hs : p ≠ s) : p ∈ (sys_rename env w s d).2.files := by
  rw [sys_rename_files]
  split_ifs
  · by_cases hd : p = d
    · simp [hd]
    · simp [List.mem_filter, hp, hs, hd]
  · exact hp

theorem commit_pre_renames_keeps (env : SysEnv) (dir : Path) (base : List Char)
    (uids : List Nat) :
    ∀ (w : World) (n0 : Nat) (p : Path), p ∈ w.files →
      (∀ j, p ≠ commit_src_path dir base j) →
      p ∈ (commit_pre_renames env dir base w n0 uids).2.files := by
  induction uids with
  | nil => intro w n0 p hp _; exact hp
  | cons uid uids ih =>
    intro w n0 p hp hsrc
    rw [commit_pre_renames]
    have hk := sys_rename_keeps env w (commit_src_path dir base n0) (commit_dest_path dir uid)
      p hp (hsrc n0)
    split_ifs
    · exact ih _ _ p hk hsrc
    · exact hk

theorem commit_pre_renames_ok (env : SysEnv) (dir : Path) (base : List Char) (m : Nat) :
    ∀ (w : World) (n0 u0 : Nat),
      (commit_pre_renames env dir base w n0 ((List.range m).map (fun i => u0 + i))).1 = true →
      (commit_pre_renames env dir base w n0 ((List.range m).map (fun i => u0 + i))).2.calls
        = w.calls ++ (List.range m).map (fun i =>
            SysCall.rename (commit_src_path dir base (n0 + i))
              (commit_dest_path dir (u0 + i)) true) := by
  induction m with
  | zero => intro w n0 u0 _; simp [commit_pre_renames]
  | succ m ih =>
    intro w n0 u0 h
    rw [range_succ_map_add, commit_pre_renames] at h ⊢
    cases hs : (sys_rename env w (commit_src_path dir base n0) (commit_dest_path dir u0)).1 with
    | false => simp [hs] at h
    | true =>
      simp only [hs, if_true] at h ⊢
      rw [ih _ _ _ h, sys_rename_calls, hs, List.range_succ_eq_map]
      simp only [List.map_cons, List.map_map, Nat.add_zero, List.append_assoc,
        List.singleton_append, List.append_cancel_left_eq, List.cons.injEq, true_and]
      apply List.map_congr_left
      intro i _
      simp only [Function.comp]
      rw [show n0 + 1 + i = n0 + (i + 1) by omega, show u0 + 1 + i = u0 + (i + 1) by omega]

theorem commit_pre_renames_fail (env : SysEnv) (dir : Path) (base : List Char) (m : Nat) :
    ∀ (w : World) (n0 u0 : Nat),
      (commit_pre_renames env dir base w n0 ((List.range m).map (fun i => u0 + i))).1 = false →
      ∃ k, k < m ∧
        (commit_pre_renames env dir base w n0 ((List.range m).map (fun i => u0 + i))).2.calls
          = w.calls ++ (List.range k).map (fun i =>
              SysCall.rename (commit_src_path dir base (n0 + i))
                (commit_dest_path dir (u0 + i)) true)
            ++ [SysCall.rename (commit_src_path dir base (n0 + k))
                (commit_dest_path dir (u0 + k)) false] ∧
        ∀ i, i < k → commit_dest_path dir (u0 + i) ∈
          (commit_pre_renames env dir base w n0 ((List.range m).map (fun i => u0 + i))).2.files := by
  induction m with
  | zero => intro w n0 u0 h; simp [commit_pre_renames] at h
  | succ m ih =>
    intro w n0 u0 h
    rw [range_succ_map_add, commit_pre_renames] at h ⊢
    cases hs : (sys_rename env w (commit_src_path dir base n0) (commit_dest_path dir u0)).1 with
    | false =>
      refine ⟨0, Nat.succ_pos m, ?_, fun i hi => absurd hi (Nat.not_lt_zero i)⟩
      simp only [hs, Bool.false_eq_true, if_false]
      rw [sys_rename_calls, hs]
      simp
    | true =>
      simp only [hs, if_true] at h ⊢
      obtain ⟨k, hk, hc, hf⟩ := ih _ _ _ h
      refine ⟨k + 1, Nat.succ_lt_succ hk, ?_, ?_⟩
      · have hmap : (List.range k).map (fun i =>
              SysCall.rename (commit_src_path dir base (n0 + 1 + i))
                (commit_dest_path dir (u0 + 1 + i)) true)
            = (List.range k).map ((fun i =>
              SysCall.rename (commit_src_path dir base (n0 + i))
                (commit_dest_path dir (u0 + i)) true) ∘ Nat.succ) := by
          apply List.map_congr_left
          intro i _
          simp only [Function.comp]
          rw [show n0 + 1 + i = n0 + (i + 1) by omega, show u0 + 1 + i = u0 + (i + 1) by omega]
        rw [hc, sys_rename_calls, hs, hmap, List.range_succ_eq_map,
          show n0 + 1 + k = n0 + (k + 1) by omega, show u0 + 1 + k = u0 + (k + 1) by omega]
        simp [List.map_map]
      · intro i hi
        cases i with
        | zero =>
          apply commit_pre_renames_keeps
          · rw [sys_rename_files, hs]
            simp
          · intro j
            exact commit_dest_ne_src dir base _ j
        | succ i =>
          have := hf i (Nat.lt_of_succ_lt_succ hi)
          rw [show u0 + (i + 1) = u0 + 1 + i by omega]
          exact this

theorem rados_get_save_path_eq (ctx : rados_save_context) (n : Nat) :
    rados_get_save_path ctx n = commit_src_path ctx.dir ctx.tmp_basename n := by
  simp [rados_get_save_path, commit_src_path, List.append_assoc]

theorem commit_pre_of_renames_ok (env : SysEnv) (fenv : FlushEnv) (w : World)
    (ctx : rados_save_context) (sc : rados_sync_context) (hfin : ctx.finished = true)
    (hsync : env.sync_begin = some sc)
    (hl : (commit_pre_renames env ctx.dir ctx.tmp_basename
      { w with calls := w.calls ++ [SysCall.sync_begin true] } 0
      ((assign_uids sc.next_uid ctx.trans.appends).map (fun r => r.uid))).1 = true) :
    rados_transaction_save_commit_pre env fenv w ctx
      = some (⟨0, (assign_uids sc.next_uid ctx.trans.appends).map (fun r => r.uid),
          sc.uid_validity⟩,
        { ctx with sync_ctx := some sc,
                   trans := { ctx.trans with
                     appends := assign_uids sc.next_uid ctx.trans.appends } },
        (commit_pre_renames env ctx.dir ctx.tmp_basename
          { w with calls := w.calls ++ [SysCall.sync_begin true] } 0
          ((assign_uids sc.next_uid ctx.trans.appends).map (fun r => r.uid))).2) := by
  simp only [rados_transaction_save_commit_pre, hfin, hsync, mail_index_append_finish_uids, hl]
  rfl

theorem commit_pre_of_renames_fail (env : SysEnv) (fenv : FlushEnv) (w : World)
    (ctx : rados_save_context) (sc : rados_sync_context) (hfin : ctx.finished = true)
    (hsync : env.sync_begin = some sc)
    (hl : (commit_pre_renames env ctx.dir ctx.tmp_basename
      { w with calls := w.calls ++ [SysCall.sync_begin true] } 0
      ((assign_uids sc.next_uid ctx.trans.appends).map (fun r => r.uid))).1 = false) :
    rados_transaction_save_commit_pre env fenv w ctx
      = some (⟨-1, (assign_uids sc.next_uid ctx.trans.appends).map (fun r => r.uid),
          sc.uid_validity⟩,
        (rados_transaction_save_rollback fenv
          (commit_pre_renames env ctx.dir ctx.tmp_basename
            { w with calls := w.calls ++ [SysCall.sync_begin true] } 0
            ((assign_uids sc.next_uid ctx.trans.appends).map (fun r => r.uid))).2
          { ctx with sync_ctx := some sc,
                     trans := { ctx.trans with
                       appends := assign_uids sc.next_uid ctx.trans.appends },
                     failed := true }).1,
        (rados_transaction_save_rollback fenv
          (commit_pre_renames env ctx.dir ctx.tmp_basename
            { w with calls := w.calls ++ [SysCall.sync_begin true] } 0
            ((assign_uids sc.next_uid ctx.trans.appends).map (fun r => r.uid))).2
          { ctx with sync_ctx := some sc,
                     trans := { ctx.trans with
                       appends := assign_uids sc.next_uid ctx.trans.appends },
                     failed := true }).2) := by
  simp only [rados_transaction_save_commit_pre, hfin, hsync, mail_index_append_finish_uids, hl]
  rfl

/-- C16: when the context is finished, the synchronization begins and the
header's `next_uid` `u` plus the number `n` of appended records stays within
32 bits, `rados_transaction_save_commit_pre` returns 0 or -1, and when it
returns 0 the saved uids and the uids of the records are `u`, `u+1`, ...,
`u+n-1`, and after the begin of the synchronization it made exactly `n`
calls, the renames of the staging path of number `i` to the directory, a
slash, `u+i` and a dot, in increasing `i`. -/
theorem commit_pre_assigns_contiguous_uids (env : SysEnv) (fenv : FlushEnv) (w : World)
    (ctx : rados_save_context) (sc : rados_sync_context) (hfin : ctx.finished = true)
    (hsync : env.sync_begin = some sc)
    (hbound : sc.next_uid + ctx.trans.appends.length ≤ 2 ^ 32) :
    ∃ r ctx' w', rados_transaction_save_commit_pre env fenv w ctx = some (r, ctx', w') ∧
      (r.ret = 0 ∨ r.ret = -1) ∧
      (r.ret = 0 →
        r.saved_uids = (List.range ctx.trans.appends.length).map (fun i => sc.next_uid + i) ∧
        ctx'.trans.appends.map (fun x => x.uid)
          = (List.range ctx.trans.appends.length).map (fun i => sc.next_uid + i) ∧
        (∀ uid ∈ r.saved_uids, uid < 2 ^ 32) ∧
        w'.calls = w.calls ++ [SysCall.sync_begin true] ++
          (List.range ctx.trans.appends.length).map (fun i =>
            SysCall.rename (rados_get_save_path ctx i)
              (commit_dest_path ctx.dir (sc.next_uid + i)) true)) := by
  have huids := assign_uids_map_uid sc.next_uid ctx.trans.appends hbound
  cases hl : (commit_pre_renames env ctx.dir ctx.tmp_basename
      { w with calls := w.calls ++ [SysCall.sync_begin true] } 0
      ((assign_uids sc.next_uid ctx.trans.appends).map (fun r => r.uid))).1 with
  | true =>
    refine ⟨_, _, _, commit_pre_of_renames_ok env fenv w ctx sc hfin hsync hl, Or.inl rfl,
      fun _ => ⟨huids, huids, ?_, ?_⟩⟩
    · intro uid hu
      simp only [huids, List.mem_map, List.mem_range] at hu
      obtain ⟨i, hi, e⟩ := hu
      omega
    · rw [huids] at hl ⊢
      rw [commit_pre_renames_ok env ctx.dir ctx.tmp_basename _ _ 0 _ hl]
      simp only [rados_get_save_path_eq, Nat.zero_add]
  | false =>
    exact ⟨_, _, _, commit_pre_of_renames_fail env fenv w ctx sc hfin hsync hl, Or.inr rfl,
      fun h => absurd h (by simp)⟩

/-! ## Lemmas on finish, continue and begin -/

theorem rados_save_flush_ret (fenv : FlushEnv) (ctx : rados_save_context) :
    (rados_save_flush fenv ctx).1 = 0 ∨ (rados_save_flush fenv ctx).1 = -1 := by
  unfold rados_save_flush
  simp only
  split_ifs <;> simp

theorem rados_save_flush_fields (fenv : FlushEnv) (ctx : rados_save_context) :
    (rados_save_flush fenv ctx).2.failed = ctx.failed ∧
    (rados_save_flush fenv ctx).2.mail_count = ctx.mail_count ∧
    (rados_save_flush fenv ctx).2.finished = ctx.finished := by
  unfold rados_save_flush
  simp only
  split_ifs <;> simp

theorem rados_save_flush_ret_finished (fenv : FlushEnv) (ctx : rados_save_context) :
    (rados_save_flush fenv { ctx with finished := true }).1 = (rados_save_flush fenv ctx).1 := by
  unfold rados_save_flush
  simp only
  split_ifs <;> rfl

theorem i_unlink_removes (w : World) (path : Path) :
    path ∉ (i_unlink w path).files ∧
    (i_unlink w path).calls = w.calls ++ [SysCall.unlink path] := by
  simp [i_unlink, List.mem_filter]

/-- What `rados_save_finish` leaves, by whether the context is failed after
the flush. -/
theorem rados_save_finish_fields (fenv : FlushEnv) (w : World) (ctx : rados_save_context) :
    (rados_save_finish fenv w ctx).2.1.finished = true ∧
    ((ctx.failed = false ∧ (ctx.fd ≠ -1 → (rados_save_flush fenv ctx).1 = 0)) →
      (rados_save_finish fenv w ctx).1 = 0 ∧
      (rados_save_finish fenv w ctx).2.1.mail_count = (ctx.mail_count + 1) % 2 ^ 32 ∧
      (rados_save_finish fenv w ctx).2.1.failed = false ∧
      (rados_save_finish fenv w ctx).2.2 = w) ∧
    (¬ (ctx.failed = false ∧ (ctx.fd ≠ -1 → (rados_save_flush fenv ctx).1 = 0)) →
      (rados_save_finish fenv w ctx).1 = -1 ∧
      (rados_save_finish fenv w ctx).2.1.mail_count = ctx.mail_count ∧
      (rados_save_finish fenv w ctx).2.1.failed = true ∧
      (rados_save_finish fenv w ctx).2.2
        = i_unlink w (rados_get_save_path ctx ctx.mail_count)) := by
  have hret := rados_save_flush_ret_finished fenv ctx
  have hval := rados_save_flush_ret fenv ctx
  obtain ⟨f1, f2, f3⟩ := rados_save_flush_fields fenv { ctx with finished := true }
  simp only at f1 f2 f3
  unfold rados_save_finish
  simp only
  generalize rados_save_flush fenv { ctx with finished := true } = fl at hret f1 f2 f3 ⊢
  obtain ⟨r, c⟩ := fl
  simp only at hret f1 f2 f3
  subst hret
  by_cases hfd : ctx.fd = -1
  · cases hfailed : ctx.failed <;> cases hin : ctx.input <;>
      simp [hfd, hfailed, hin]
  · rcases hval with hv | hv
    · cases hfailed : ctx.failed <;> cases hin : c.input <;>
        simp [hfd, hfailed, hin, hv, f1, f2, f3]
    · cases hfailed : ctx.failed <;> cases hin : c.input <;>
        simp [hfd, hfailed, hin, hv, f1, f2, f3]

/-- C18: `rados_save_finish` always marks the context finished.  When the
context is not failed and, with a file open, `rados_save_flush` returns 0, it
returns 0, raises `mail_count` by one, leaves the context not failed and the
file system and the call log as they were.  Otherwise it returns -1, leaves
`mail_count` as it was and the context failed, and its one call is the unlink
of the staging path of number `mail_count`, which then no longer exists. -/
theorem rados_save_finish_outcome (fenv : FlushEnv) (w : World) (ctx : rados_save_context)
    (hcount : ctx.mail_count + 1 < 2 ^ 32) :
    (rados_save_finish fenv w ctx).2.1.finished = true ∧
    ((rados_save_flush fenv ctx).1 = 0 ∨ (rados_save_flush fenv ctx).1 = -1) ∧
    ((ctx.failed = false ∧ (ctx.fd ≠ -1 → (rados_save_flush fenv ctx).1 = 0)) →
      (rados_save_finish fenv w ctx).1 = 0 ∧
      (rados_save_finish fenv w ctx).2.1.mail_count = ctx.mail_count + 1 ∧
      (rados_save_finish fenv w ctx).2.1.failed = false ∧
      (rados_save_finish fenv w ctx).2.2 = w) ∧
    (¬ (ctx.failed = false ∧ (ctx.fd ≠ -1 → (rados_save_flush fenv ctx).1 = 0)) →
      (rados_save_finish fenv w ctx).1 = -1 ∧
      (rados_save_finish fenv w ctx).2.1.mail_count = ctx.mail_count ∧
      (rados_save_finish fenv w ctx).2.1.failed = true ∧
      (rados_save_finish fenv w ctx).2.2.calls
        = w.calls ++ [SysCall.unlink (rados_get_save_path ctx ctx.mail_count)] ∧
      (rados_save_finish fenv w ctx).2.2.files
        = w.files.filter (fun p => decide (p ≠ rados_get_save_path ctx ctx.mail_count)) ∧
      rados_get_save_path ctx ctx.mail_count ∉ (rados_save_finish fenv w ctx).2.2.files) := by
  obtain ⟨h1, h2, h3⟩ := rados_save_finish_fields fenv w ctx
  refine ⟨h1, rados_save_flush_ret fenv ctx, fun h => ?_, fun h => ?_⟩
  · obtain ⟨a, b, c, d⟩ := h2 h
    exact ⟨a, by rw [b, Nat.mod_eq_of_lt hcount], c, d⟩
  · obtain ⟨a, b, c, d⟩ := h3 h
    refine ⟨a, b, c, ?_, ?_, ?_⟩
    · rw [d]; rfl
    · rw [d]; rfl
    · rw [d]
      exact (i_unlink_removes w _).1

/-- C19: a negative status of `o_stream_send_istream`, after rounds that all
went through, makes `rados_save_continue` return -1 with the context marked
failed and no other field changed; every later `rados_save_continue` on that
context, whatever the streams would do, returns -1 and leaves the context,
the file system and the call log as they are, so it sends nothing and reads
nothing. -/
theorem rados_save_continue_write_error (w : World) (ctx : rados_save_context)
    (before : List (Int × Int)) (sent read : Int) (after later : List (Int × Int))
    (hctx : ctx.failed = false) (hbefore : ∀ r ∈ before, 0 ≤ r.1 ∧ 0 < r.2)
    (hsent : sent < 0) :
    ∃ w', rados_save_continue w ctx (before ++ (sent, read) :: after)
        = some (-1, { ctx with failed := true }, w') ∧
      w'.files = w.files ∧
      rados_save_continue w' { ctx with failed := true } later
        = some (-1, { ctx with failed := true }, w') := by
  have hloop : ∀ (rounds : List (Int × Int)) (w0 : World),
      (∀ r ∈ rounds, 0 ≤ r.1 ∧ 0 < r.2) →
      ∃ w', rados_save_continue_loop w0 ctx (rounds ++ (sent, read) :: after)
          = some (-1, { ctx with failed := true }, w') ∧ w'.files = w0.files := by
    intro rounds
    induction rounds with
    | nil =>
      intro w0 _
      exact ⟨{ w0 with calls := w0.calls ++ [SysCall.send_istream sent] },
        by simp [rados_save_continue_loop, hsent], rfl⟩
    | cons r rs ih =>
      intro w0 hr
      obtain ⟨h1, h2⟩ := hr r (List.mem_cons_self r rs)
      obtain ⟨w', e, hf⟩ := ih
        { w0 with calls := w0.calls ++ [SysCall.send_istream r.1] ++ [SysCall.i_stream_read r.2] }
        (fun x hx => hr x (List.mem_cons_of_mem r hx))
      refine ⟨w', ?_, hf⟩
      obtain ⟨a, b⟩ := r
      simp only [List.cons_append, rados_save_continue_loop, not_lt.mpr h1, if_false, gt_iff_lt,
        h2, if_true]
      exact e
  obtain ⟨w', e, hf⟩ := hloop before w hbefore
  refine ⟨w', ?_, hf, ?_⟩
  · simp only [rados_save_continue, hctx, Bool.false_eq_true, if_false]
    exact e
  · simp [rados_save_continue]

theorem clear_recent_spec (flags : Nat) (hflags : flags < 2 ^ 32) :
    clear_recent flags &&& MAIL_RECENT = 0 ∧
    ∀ i, i ≠ 5 → (clear_recent flags).testBit i = flags.testBit i := by
  constructor
  · unfold clear_recent MAIL_RECENT
    rw [Nat.and_assoc]
    have : (0xFFFFFFFF - 0x20) &&& 0x20 = 0 := by decide
    rw [this, Nat.and_zero]
  · intro i hi
    unfold clear_recent MAIL_RECENT
    rw [Nat.testBit_and]
    by_cases h32 : i < 32
    · have : (0xFFFFFFFF - 0x20 : Nat).testBit i = true := by
        interval_cases i <;> first | exact absurd rfl hi | decide
      rw [this, Bool.and_true]
    · have hlt : flags < 2 ^ i :=
        lt_of_lt_of_le hflags (Nat.pow_le_pow_right (by decide) (not_lt.mp h32))
      rw [Nat.testBit_lt_two_pow hlt, Bool.false_and]

theorem sys_open_excl_exclusive (env : SysEnv) (w : World) (path : Path) :
    (path ∈ w.files → (sys_open_excl env w path).1 = -1) ∧
    ((sys_open_excl env w path).1 ≠ -1 →
      (sys_open_excl env w path).2.files = path :: w.files) ∧
    ((sys_open_excl env w path).1 = -1 → (sys_open_excl env w path).2.files = w.files) ∧
    (sys_open_excl env w path).2.calls
      = w.calls ++ [SysCall.open_excl path (decide ((sys_open_excl env w path).1 ≠ -1))] := by
  unfold sys_open_excl
  split_ifs with h
  · simp
  · have hfd : ((env.fd : Int) = -1) = False := by
      simp only [eq_iff_iff, iff_false]
      omega
    simp only [not_or] at h
    refine ⟨fun hp => absurd hp h.1, fun _ => rfl, fun hc => ?_, ?_⟩
    · exact absurd hc (by simp only [hfd, not_false_eq_true])
    · simp [hfd]

/-- C20: `rados_save_begin` makes one system call, the exclusive open of the
staging path of number `mail_count`, which fails when the path exists.  It
returns -1 exactly when that open fails; the context is then failed and the
index transaction as it was.  When the open succeeds it returns 0 and the
transaction has exactly one more record, without uid, whose flags are the
requested flags with `MAIL_RECENT` cleared, whose keywords are the given ones
(none when none were given) and whose modseq is set exactly when
`min_modseq` is not zero. -/
theorem rados_save_begin_outcome (env : SysEnv) (w : World) (ctx : rados_save_context)
    (hflags : ctx.data.flags < 2 ^ 32) :
    (rados_save_begin env w ctx).2.2
      = (sys_open_excl env w (rados_get_save_path ctx ctx.mail_count)).2 ∧
    (rados_get_save_path ctx ctx.mail_count ∈ w.files →
      (sys_open_excl env w (rados_get_save_path ctx ctx.mail_count)).1 = -1) ∧
    ((rados_save_begin env w ctx).1 = -1 ↔
      (sys_open_excl env w (rados_get_save_path ctx ctx.mail_count)).1 = -1) ∧
    ((sys_open_excl env w (rados_get_save_path ctx ctx.mail_count)).1 = -1 →
      (rados_save_begin env w ctx).2.1.failed = true ∧
      (rados_save_begin env w ctx).2.1.trans = ctx.trans) ∧
    ((sys_open_excl env w (rados_get_save_path ctx ctx.mail_count)).1 ≠ -1 →
      (rados_save_begin env w ctx).1 = 0 ∧
      (rados_save_begin env w ctx).2.1.failed = false ∧
      (rados_save_begin env w ctx).2.1.trans
        = { ctx.trans with appends := ctx.trans.appends ++
            [{ uid := 0, flags := clear_recent ctx.data.flags, keywords := ctx.data.keywords,
               modseq := if ctx.data.min_modseq ≠ 0 then some ctx.data.min_modseq else none }] }) ∧
    (clear_recent ctx.data.flags &&& MAIL_RECENT = 0 ∧
      ∀ i, i ≠ 5 → (clear_recent ctx.data.flags).testBit i = ctx.data.flags.testBit i) := by
  have hp : rados_get_save_path { ctx with failed := false } ctx.mail_count
      = rados_get_save_path ctx ctx.mail_count := rfl
  refine ⟨?_, (sys_open_excl_exclusive env w _).1, ?_, ?_, ?_, clear_recent_spec _ hflags⟩
  all_goals
    unfold rados_save_begin
    simp only [hp]
    generalize sys_open_excl env w (rados_get_save_path ctx ctx.mail_count) = o
    obtain ⟨fd, w1⟩ := o
    by_cases ho : fd = -1
    · simp [ho]
    · cases hk : ctx.data.keywords <;> by_cases hm : ctx.data.min_modseq = 0 <;>
        simp [ho, hk, hm, mail_index_append, mail_index_update_flags,
          mail_index_update_keywords, mail_index_update_modseq, update_record_last]

/-- Witness of C16: two mails saved in an empty directory, `next_uid` 5; the
commit returns 0, saves the uids 5 and 6 and leaves the files `d/6.` and
`d/5.`. -/
theorem commit_pre_assigns_contiguous_uids_witness :
    (two_mails_saved (plain_env [])).1.finished = true ∧
    (plain_env []).sync_begin = some { next_uid := 5, uid_validity := 1 } ∧
    5 + (two_mails_saved (plain_env [])).1.trans.appends.length ≤ 2 ^ 32 ∧
    (rados_transaction_save_commit_pre (plain_env []) plain_flush
        (two_mails_saved (plain_env [])).2 (two_mails_saved (plain_env [])).1).map
      (fun x => (x.1.ret, x.1.saved_uids, x.2.2.files))
      = some (0, [5, 6], [['d', '/', '6', '.'], ['d', '/', '5', '.']]) ∧
    ∃ r ctx' w', rados_transaction_save_commit_pre (plain_env []) plain_flush
        (two_mails_saved (plain_env [])).2 (two_mails_saved (plain_env [])).1
          = some (r, ctx', w') ∧ (r.ret = 0 ∨ r.ret = -1) :=
  ⟨by decide, rfl, by decide, by decide,
    (commit_pre_assigns_contiguous_uids (plain_env []) plain_flush
      (two_mails_saved (plain_env [])).2 (two_mails_saved (plain_env [])).1
      { next_uid := 5, uid_validity := 1 } (by decide) rfl (by decide)).elim
      (fun r h => h.elim (fun c h => h.elim (fun w h => ⟨r, c, w, h.1, h.2.1⟩)))⟩

/-- Witness of C18: the finish of a mail whose staging file is open and whose
flush succeeds. -/
theorem rados_save_finish_outcome_witness :
    (rados_save_begin (plain_env []) { files := [], calls := [] }
        fresh_save_context).2.1.mail_count + 1 < 2 ^ 32 ∧
    (rados_save_finish plain_flush
        (rados_save_begin (plain_env []) { files := [], calls := [] } fresh_save_context).2.2
        (rados_save_begin (plain_env []) { files := [], calls := [] }
          fresh_save_context).2.1).2.1.finished = true ∧
    (rados_save_finish plain_flush
        (rados_save_begin (plain_env []) { files := [], calls := [] } fresh_save_context).2.2
        (rados_save_begin (plain_env []) { files := [], calls := [] }
          fresh_save_context).2.1).1 = 0 :=
  ⟨by decide,
    (rados_save_finish_outcome plain_flush
      (rados_save_begin (plain_env []) { files := [], calls := [] } fresh_save_context).2.2
      (rados_save_begin (plain_env []) { files := [], calls := [] } fresh_save_context).2.1
      (by decide)).1,
    ((rados_save_finish_outcome plain_flush
      (rados_save_begin (plain_env []) { files := [], calls := [] } fresh_save_context).2.2
      (rados_save_begin (plain_env []) { files := [], calls := [] } fresh_save_context).2.1
      (by decide)).2.2.1 (by decide)).1⟩

/-- Witness of C19: one round goes through, the second write fails, and a
later call is made. -/
theorem rados_save_continue_write_error_witness :
    fresh_save_context.failed = false ∧
    (∀ r ∈ [((1 : Int), (1 : Int))], 0 ≤ r.1 ∧ 0 < r.2) ∧
    (-1 : Int) < 0 ∧
    ∃ w', rados_save_continue { files := [], calls := [] } fresh_save_context
        ([(1, 1)] ++ (-1, 0) :: [])
          = some (-1, { fresh_save_context with failed := true }, w') ∧
      w'.files = [] ∧
      rados_save_continue w' { fresh_save_context with failed := true } [(1, 0)]
        = some (-1, { fresh_save_context with failed := true }, w') :=
  ⟨rfl, by decide, by decide,
    rados_save_continue_write_error { files := [], calls := [] } fresh_save_context
      [(1, 1)] (-1) 0 [] [(1, 0)] rfl (by decide) (by decide)⟩

/-- Witness of C20: a mail with the flags `MAIL_SEEN` and `MAIL_RECENT` begun
in an empty directory. -/
theorem rados_save_begin_outcome_witness :
    ({ fresh_save_context with data := { fresh_save_context.data with flags := 0x28 } }
      : rados_save_context).data.flags < 2 ^ 32 ∧
    (rados_save_begin (plain_env []) { files := [], calls := [] }
        { fresh_save_context with
          data := { fresh_save_context.data with flags := 0x28 } }).1 = 0 ∧
    (rados_save_begin (plain_env []) { files := [], calls := [] }
        { fresh_save_context with
          data := { fresh_save_context.data with flags := 0x28 } }).2.1.trans.appends
      = [{ uid := 0, flags := 0x08, keywords := none, modseq := none }] :=
  ⟨by decide,
    ((rados_save_begin_outcome (plain_env []) { files := [], calls := [] }
      { fresh_save_context with data := { fresh_save_context.data with flags := 0x28 } }
      (by decide)).2.2.2.2.1 (by decide)).1,
    by decide⟩

/-! ## Lemmas on the temporary base name -/

theorem dec2str_is_digit (n : Nat) : ∀ c ∈ dec2str n, Decimal.is_digit c = true :=
  fun c h => Decimal.is_digit_toDigits n c h

theorem dec2str_injective (m n : Nat) (h : dec2str m = dec2str n) : m = n :=
  Decimal.toDigits_injective m n h

theorem rados_generate_tmp_filename_injective (e1 e2 : TmpNameEnv) (n1 n2 : Nat)
    (hp1 : ∀ c ∈ e1.my_pid, Decimal.is_digit c = true)
    (hp2 : ∀ c ∈ e2.my_pid, Decimal.is_digit c = true)
    (h : (rados_generate_tmp_filename e1 n1).1 = (rados_generate_tmp_filename e2 n2).1) :
    e1 = e2 ∧ n1 = n2 := by
  simp only [rados_generate_tmp_filename] at h
  have h1 := List.append_cancel_left h
  obtain ⟨a1, r1⟩ := Decimal.digits_sep_inj '.' (by decide) _ _ _ _
    (dec2str_is_digit _) (dec2str_is_digit _) h1
  have r1' := (List.cons.inj r1).2
  obtain ⟨a2, r2⟩ := Decimal.digits_sep_inj 'Q' (by decide) _ _ _ _ hp1 hp2 r1'
  obtain ⟨a3, r3⟩ := Decimal.digits_sep_inj 'M' (by decide) _ _ _ _
    (dec2str_is_digit _) (dec2str_is_digit _) r2
  obtain ⟨a4, r4⟩ := Decimal.digits_sep_inj '.' (by decide) _ _ _ _
    (dec2str_is_digit _) (dec2str_is_digit _) r3
  refine ⟨?_, dec2str_injective _ _ a3⟩
  cases e1
  cases e2
  simp only [TmpNameEnv.mk.injEq]
  exact ⟨dec2str_injective _ _ a1, a2, dec2str_injective _ _ a4, r4⟩

theorem rados_generate_tmp_filename_counter (e : TmpNameEnv) (n1 n2 : Nat)
    (h : (rados_generate_tmp_filename e n1).1 = (rados_generate_tmp_filename e n2).1) :
    n1 = n2 := by
  simp only [rados_generate_tmp_filename] at h
  have h1 := List.append_cancel_left (List.append_cancel_left h)
  have h2 := List.append_cancel_left (List.cons.inj (List.cons.inj h1).2).2
  have h3 := (List.cons.inj h2).2
  exact dec2str_injective _ _
    (Decimal.digits_sep_inj 'M' (by decide) _ _ _ _
      (dec2str_is_digit _) (dec2str_is_digit _) h3).1

theorem rados_generate_tmp_filenames_get (envs : List TmpNameEnv) :
    ∀ (c i : Nat), c < 2 ^ 32 →
      (rados_generate_tmp_filenames c envs)[i]?
        = envs[i]?.map (fun e => (rados_generate_tmp_filename e ((c + i) % 2 ^ 32)).1) := by
  induction envs with
  | nil => intro c i _; simp [rados_generate_tmp_filenames]
  | cons e es ih =>
    intro c i hc
    cases i with
    | zero =>
      simp only [rados_generate_tmp_filenames, List.getElem?_cons_zero, Option.map_some',
        Nat.add_zero, Nat.mod_eq_of_lt hc]
    | succ i =>
      simp only [rados_generate_tmp_filenames, List.getElem?_cons_succ]
      have hlt : (rados_generate_tmp_filename e c).2 < 2 ^ 32 :=
        Nat.mod_lt _ (by decide)
      have : ((rados_generate_tmp_filename e c).2 + i) % 2 ^ 32 = (c + (i + 1)) % 2 ^ 32 := by
        simp only [rados_generate_tmp_filename]
        omega
      rw [ih _ i hlt, this]

/-- C22: `rados_generate_tmp_filename` returns `temp.`, the seconds, `.P`,
the pid, `Q`, the counter, `M`, the microseconds, a dot and the host name, and
raises its 32-bit counter by one.  Two calls of one process fewer than 2^32
calls apart, made with the same clock, pid and host name, return different
names; and with decimal pids the name determines the seconds, the pid, the
counter, the microseconds and the host name. -/
theorem rados_generate_tmp_filename_unique (envs : List TmpNameEnv) (c i j : Nat)
    (e : TmpNameEnv) (hc : c < 2 ^ 32) (hij : i < j) (hclose : j < i + 2 ^ 32)
    (hi : envs[i]? = some e) (hj : envs[j]? = some e) :
    (∀ (env : TmpNameEnv) (n : Nat),
        (rados_generate_tmp_filename env n).1
          = ['t', 'e', 'm', 'p', '.'] ++ dec2str env.tv_sec ++ ['.', 'P'] ++ env.my_pid ++ ['Q']
              ++ dec2str n ++ ['M'] ++ dec2str env.tv_usec ++ ['.'] ++ env.my_hostname
        ∧ (rados_generate_tmp_filename env n).2 = (n + 1) % 2 ^ 32)
      ∧ (rados_generate_tmp_filenames c envs)[i]?
          = some (rados_generate_tmp_filename e ((c + i) % 2 ^ 32)).1
      ∧ (rados_generate_tmp_filenames c envs)[j]?
          = some (rados_generate_tmp_filename e ((c + j) % 2 ^ 32)).1
      ∧ (rados_generate_tmp_filenames c envs)[i]? ≠ (rados_generate_tmp_filenames c envs)[j]?
      ∧ (∀ (e1 e2 : TmpNameEnv) (n1 n2 : Nat),
          (∀ x ∈ e1.my_pid, Decimal.is_digit x = true) →
          (∀ x ∈ e2.my_pid, Decimal.is_digit x = true) →
          (rados_generate_tmp_filename e1 n1).1 = (rados_generate_tmp_filename e2 n2).1 →
          e1 = e2 ∧ n1 = n2) := by
  have gi := rados_generate_tmp_filenames_get envs c i hc
  have gj := rados_generate_tmp_filenames_get envs c j hc
  rw [hi] at gi
  rw [hj] at gj
  simp only [Option.map_some'] at gi gj
  refine ⟨fun env n => ⟨by simp [rados_generate_tmp_filename], rfl⟩, gi, gj, ?_,
    rados_generate_tmp_filename_injective⟩
  rw [gi, gj]
  intro h
  have := rados_generate_tmp_filename_counter e _ _ (Option.some.inj h)
  omega

/-- Witness of C22: two calls in a row with the same globals, the counter
at its largest value before the first. -/
theorem rados_generate_tmp_filename_unique_witness :
    4294967295 < 2 ^ 32 ∧
    (rados_generate_tmp_filenames 4294967295
        [⟨1, ['7'], 2, ['h']⟩, ⟨1, ['7'], 2, ['h']⟩])[0]?
      ≠ (rados_generate_tmp_filenames 4294967295
        [⟨1, ['7'], 2, ['h']⟩, ⟨1, ['7'], 2, ['h']⟩])[1]? :=
  ⟨by decide,
    (rados_generate_tmp_filename_unique [⟨1, ['7'], 2, ['h']⟩, ⟨1, ['7'], 2, ['h']⟩]
      4294967295 0 1 ⟨1, ['7'], 2, ['h']⟩ (by decide) (by decide) (by decide) rfl rfl).2.2.2.1⟩

/-! ## Lemmas on what the end of a save leaves untouched -/

theorem rados_save_flush_frame (fenv : FlushEnv) (ctx : rados_save_context) :
    (rados_save_flush fenv ctx).2.trans = ctx.trans ∧
    (rados_save_flush fenv ctx).2.dir = ctx.dir ∧
    (rados_save_flush fenv ctx).2.tmp_basename = ctx.tmp_basename ∧
    (rados_save_flush fenv ctx).2.sync_ctx = ctx.sync_ctx := by
  unfold rados_save_flush
  simp only
  split_ifs <;> simp

theorem rados_save_finish_frame (fenv : FlushEnv) (w : World) (ctx : rados_save_context) :
    (rados_save_finish fenv w ctx).2.1.trans = ctx.trans ∧
    (rados_save_finish fenv w ctx).2.1.dir = ctx.dir ∧
    (rados_save_finish fenv w ctx).2.1.tmp_basename = ctx.tmp_basename ∧
    (rados_save_finish fenv w ctx).2.1.sync_ctx = ctx.sync_ctx := by
  obtain ⟨f1, f2, f3, f4⟩ := rados_save_flush_frame fenv { ctx with finished := true }
  simp only at f1 f2 f3 f4
  unfold rados_save_finish
  simp only
  generalize rados_save_flush fenv { ctx with finished := true } = fl at f1 f2 f3 f4 ⊢
  obtain ⟨r, c⟩ := fl
  simp only at f1 f2 f3 f4
  split_ifs <;> simp [f1, f2, f3, f4]

theorem rados_save_cancel_outcome (fenv : FlushEnv) (w : World) (ctx : rados_save_context) :
    (rados_save_cancel fenv w ctx).1.finished = true ∧
    (rados_save_cancel fenv w ctx).1.mail_count = ctx.mail_count ∧
    (rados_save_cancel fenv w ctx).1.trans = ctx.trans ∧
    (rados_save_cancel fenv w ctx).1.sync_ctx = ctx.sync_ctx ∧
    (rados_save_cancel fenv w ctx).2 = i_unlink w (rados_get_save_path ctx ctx.mail_count) := by
  obtain ⟨h1, _, h3⟩ := rados_save_finish_fields fenv w { ctx with failed := true }
  obtain ⟨g1, _, _, g4⟩ := rados_save_finish_frame fenv w { ctx with failed := true }
  obtain ⟨_, b, _, d⟩ := h3 (by simp)
  exact ⟨h1, b, g1, g4, d⟩

theorem rados_save_finish_failed_count (fenv : FlushEnv) (w : World) (ctx : rados_save_context)
    (h : (rados_save_finish fenv w ctx).1 = -1) :
    (rados_save_finish fenv w ctx).2.1.mail_count = ctx.mail_count := by
  obtain ⟨_, h2, h3⟩ := rados_save_finish_fields fenv w ctx
  by_cases hp : ctx.failed = false ∧ (ctx.fd ≠ -1 → (rados_save_flush fenv ctx).1 = 0)
  · rw [(h2 hp).1] at h
    exact absurd h (by decide)
  · exact (h3 hp).2.1

theorem rados_save_begin_open_failed (env : SysEnv) (w : World) (ctx : rados_save_context)
    (h : rados_get_save_path ctx ctx.mail_count ∈ w.files
      ∨ env.open_denied (rados_get_save_path ctx ctx.mail_count) = true) :
    rados_save_begin env w ctx
      = (-1, { ctx with failed := true, fd := -1 },
          { w with calls := w.calls
              ++ [SysCall.open_excl (rados_get_save_path ctx ctx.mail_count) false] }) := by
  have hp : rados_get_save_path { ctx with failed := false } ctx.mail_count
      = rados_get_save_path ctx ctx.mail_count := rfl
  unfold rados_save_begin
  simp only [hp]
  have ho : sys_open_excl env w (rados_get_save_path ctx ctx.mail_count)
      = (-1, { w with calls := w.calls
              ++ [SysCall.open_excl (rados_get_save_path ctx ctx.mail_count) false] }) := by
    unfold sys_open_excl
    rw [if_pos h]
  rw [ho]
  simp

/-! ## The claims on failed saves, rollback and the end of the commit -/

/-- C23: `rados_transaction_save_rollback` cancels the save, whose one call
is the unlink of the staging path, exactly when the context is not finished,
and then finishes the synchronization in aborted mode exactly when `sync_ctx`
is set; `rados_transaction_save_commit_post` on a context whose `sync_ctx` is
set finishes the synchronization once in success mode and never in aborted
mode. -/
theorem rollback_and_commit_post_finish_sync (fenv : FlushEnv) (w : World)
    (ctx : rados_save_context) :
    (rados_transaction_save_rollback fenv w ctx).2.calls
        = w.calls
          ++ (if ctx.finished then []
              else [SysCall.unlink (rados_get_save_path ctx ctx.mail_count)])
          ++ (if ctx.sync_ctx.isSome then [SysCall.sync_finish false] else [])
      ∧ (rados_transaction_save_rollback fenv w ctx).2.files
          = (if ctx.finished then w.files else (rados_save_cancel fenv w ctx).2.files)
      ∧ (rados_transaction_save_rollback fenv w ctx).1.sync_ctx = none
      ∧ (rados_transaction_save_rollback fenv w ctx).1.finished = true
      ∧ (∀ sc, ctx.sync_ctx = some sc →
          ∃ c' w', rados_transaction_save_commit_post fenv w ctx = some (c', w')
            ∧ c'.sync_ctx = none
            ∧ w'.calls = w.calls ++ [SysCall.sync_finish true]
                ++ (if ctx.finished then []
                    else [SysCall.unlink (rados_get_save_path ctx ctx.mail_count)])) := by
  have hroll : ∀ (w0 : World) (c0 : rados_save_context),
      (rados_transaction_save_rollback fenv w0 c0).2.calls
          = w0.calls
            ++ (if c0.finished then []
                else [SysCall.unlink (rados_get_save_path c0 c0.mail_count)])
            ++ (if c0.sync_ctx.isSome then [SysCall.sync_finish false] else [])
        ∧ (rados_transaction_save_rollback fenv w0 c0).2.files
            = (if c0.finished then w0.files else (rados_save_cancel fenv w0 c0).2.files)
        ∧ (rados_transaction_save_rollback fenv w0 c0).1.sync_ctx = none
        ∧ (rados_transaction_save_rollback fenv w0 c0).1.finished = true := by
    intro w0 c0
    obtain ⟨k1, _, _, k4, k5⟩ := rados_save_cancel_outcome fenv w0 c0
    unfold rados_transaction_save_rollback
    cases hfin : c0.finished <;> cases hs : c0.sync_ctx <;>
      simp [hfin, hs, k1, k4, k5, rados_sync_finish, i_unlink]
  obtain ⟨r1, r2, r3, r4⟩ := hroll w ctx
  refine ⟨r1, r2, r3, r4, fun sc hsc => ?_⟩
  obtain ⟨q1, _, q3, _⟩ := hroll { w with calls := w.calls ++ [SysCall.sync_finish true] }
    { ctx with sync_ctx := none }
  refine ⟨_, _, by simp only [rados_transaction_save_commit_post, hsc, rados_sync_finish]; rfl,
    q3, ?_⟩
  refine q1.trans ?_
  simp [rados_get_save_path]

/-- C24 as stated fails: two mails are saved in an empty directory and the
transaction is rolled back; both staging files remain, neither renamed nor
deleted. -/
theorem rollback_leaves_finished_staging_files :
    (rados_transaction_save_rollback plain_flush (two_mails_saved (plain_env [])).2
        (two_mails_saved (plain_env [])).1).2.files
      = [['d', '/', 't', '.', '1'], ['d', '/', 't', '.', '0']] := by
  decide

theorem sys_rename_mem (env : SysEnv) (w : World) (s d p : Path)
    (h : p ∈ (sys_rename env w s d).2.files) : p ∈ w.files ∨ p = d := by
  rw [sys_rename_files] at h
  split_ifs at h
  · rcases List.mem_cons.mp h with h1 | h1
    · exact Or.inr h1
    · exact Or.inl (List.mem_filter.mp h1).1
  · exact Or.inl h

theorem sys_rename_src_gone (env : SysEnv) (w : World) (s d : Path) (hsd : s ≠ d)
    (h : (sys_rename env w s d).1 = true) : s ∉ (sys_rename env w s d).2.files := by
  rw [sys_rename_files, if_pos h]
  simp [List.mem_filter, hsd]

theorem commit_pre_renames_mem (env : SysEnv) (dir : Path) (base : List Char)
    (uids : List Nat) :
    ∀ (w : World) (n0 : Nat) (p : Path),
      p ∈ (commit_pre_renames env dir base w n0 uids).2.files →
      p ∈ w.files ∨ ∃ uid, p = commit_dest_path dir uid := by
  induction uids with
  | nil => intro w n0 p hp; exact Or.inl hp
  | cons uid uids ih =>
    intro w n0 p hp
    rw [commit_pre_renames] at hp
    split_ifs at hp
    · rcases ih _ _ p hp with h1 | h1
      · rcases sys_rename_mem env w _ _ p h1 with h2 | h2
        · exact Or.inl h2
        · exact Or.inr ⟨uid, h2⟩
      · exact Or.inr h1
    · rcases sys_rename_mem env w _ _ p hp with h2 | h2
      · exact Or.inl h2
      · exact Or.inr ⟨uid, h2⟩

theorem commit_pre_renames_done (env : SysEnv) (dir : Path) (base : List Char)
    (uids : List Nat) :
    ∀ (w : World) (n0 : Nat), (commit_pre_renames env dir base w n0 uids).1 = true →
      (∀ i, i < uids.length →
        commit_src_path dir base (n0 + i) ∉ (commit_pre_renames env dir base w n0 uids).2.files)
      ∧ ∀ uid ∈ uids,
        commit_dest_path dir uid ∈ (commit_pre_renames env dir base w n0 uids).2.files := by
  induction uids with
  | nil =>
    intro w n0 _
    exact ⟨fun i hi => absurd hi (Nat.not_lt_zero i), fun uid hu => absurd hu (List.not_mem_nil uid)⟩
  | cons u us ih =>
    intro w n0 h
    rw [commit_pre_renames] at h ⊢
    cases hs : (sys_rename env w (commit_src_path dir base n0) (commit_dest_path dir u)).1 with
    | false => simp [hs] at h
    | true =>
      simp only [hs, if_true] at h ⊢
      obtain ⟨i1, i2⟩ := ih _ _ h
      constructor
      · intro i hi
        cases i with
        | zero =>
          intro hmem
          rcases commit_pre_renames_mem env dir base us _ _ _ hmem with h1 | ⟨uid, h1⟩
          · exact sys_rename_src_gone env w _ _
              (fun e => commit_dest_ne_src dir base u n0 e.symm) hs h1
          · exact commit_dest_ne_src dir base uid _ h1.symm
        | succ i =>
          have := i1 i (Nat.lt_of_succ_lt_succ hi)
          rw [show n0 + (i + 1) = n0 + 1 + i by omega]
          exact this
      · intro uid hu
        rcases List.mem_cons.mp hu with h1 | h1
        · rw [h1]
          apply commit_pre_renames_keeps
          · rw [sys_rename_files, hs]
            simp
          · intro j
            exact commit_dest_ne_src dir base _ j
        · exact i2 uid h1

theorem assign_uids_length (rs : List IndexRecord) :
    ∀ uid, (assign_uids uid rs).length = rs.length := by
  induction rs with
  | nil => intro uid; rfl
  | cons r rs ih => intro uid; simp [assign_uids, ih]

/-- C24, amended: a rollback with no synchronization open deletes at most
one file.  When the flag `finished` of the context is not set, it cancels the
save and its one call is the unlink of the staging path of number
`mail_count`; when the flag is set, as it is from the first
`rados_save_finish` on, it makes no call and leaves every file, so staging
files of the transaction remain.  After a
`rados_transaction_save_commit_pre` that returned 0, with `next_uid` plus the
number of appended records within 32 bits, no staging path numbered below
that number exists and each of these files exists under its final name. -/
theorem staging_files_after_rollback_and_commit (env : SysEnv) (fenv : FlushEnv) (w : World)
    (ctx : rados_save_context) :
    (ctx.sync_ctx = none →
        (rados_transaction_save_rollback fenv w ctx).2
          = (if ctx.finished then w
             else { files := w.files.filter
                      (fun p => decide (p ≠ rados_get_save_path ctx ctx.mail_count)),
                    calls := w.calls
                      ++ [SysCall.unlink (rados_get_save_path ctx ctx.mail_count)] }))
      ∧ ∀ sc, ctx.finished = true → env.sync_begin = some sc →
          sc.next_uid + ctx.trans.appends.length ≤ 2 ^ 32 →
          ∃ r ctx' w', rados_transaction_save_commit_pre env fenv w ctx = some (r, ctx', w')
            ∧ (r.ret = 0 →
                ∀ i, i < ctx.trans.appends.length →
                  rados_get_save_path ctx i ∉ w'.files
                  ∧ commit_dest_path ctx.dir (sc.next_uid + i) ∈ w'.files) := by
  constructor
  · intro hs
    obtain ⟨_, _, _, k4, k5⟩ := rados_save_cancel_outcome fenv w ctx
    unfold rados_transaction_save_rollback
    cases hfin : ctx.finished <;> simp [hfin, hs, k4, k5, i_unlink]
  · intro sc hfin hsync hbound
    have huids := assign_uids_map_uid sc.next_uid ctx.trans.appends hbound
    cases hl : (commit_pre_renames env ctx.dir ctx.tmp_basename
        { w with calls := w.calls ++ [SysCall.sync_begin true] } 0
        ((assign_uids sc.next_uid ctx.trans.appends).map (fun r => r.uid))).1 with
    | false =>
      exact ⟨_, _, _, commit_pre_of_renames_fail env fenv w ctx sc hfin hsync hl,
        fun h => absurd h (by simp)⟩
    | true =>
      refine ⟨_, _, _, commit_pre_of_renames_ok env fenv w ctx sc hfin hsync hl,
        fun _ i hi => ?_⟩
      obtain ⟨d1, d2⟩ := commit_pre_renames_done env ctx.dir ctx.tmp_basename _ _ 0 hl
      constructor
      · have := d1 i (by simpa [assign_uids_length] using hi)
        rw [Nat.zero_add] at this
        rw [rados_get_save_path_eq]
        exact this
      · apply d2
        rw [huids]
        exact List.mem_map.mpr ⟨i, List.mem_range.mpr hi, rfl⟩

/-- A run of the amended C24: one mail is saved and a second one begun in
an empty directory, so the flag `finished` is set; the rollback makes no call
and both staging files remain. -/
theorem staging_files_after_rollback_and_commit_witness :
    (rados_save_begin (plain_env [])
        (save_one_mail (plain_env []) plain_flush
          (fresh_save_context, { files := [], calls := [] })).2
        (save_one_mail (plain_env []) plain_flush
          (fresh_save_context, { files := [], calls := [] })).1).2.1.sync_ctx = none ∧
    (rados_transaction_save_rollback plain_flush
        (rados_save_begin (plain_env [])
          (save_one_mail (plain_env []) plain_flush
            (fresh_save_context, { files := [], calls := [] })).2
          (save_one_mail (plain_env []) plain_flush
            (fresh_save_context, { files := [], calls := [] })).1).2.2
        (rados_save_begin (plain_env [])
          (save_one_mail (plain_env []) plain_flush
            (fresh_save_context, { files := [], calls := [] })).2
          (save_one_mail (plain_env []) plain_flush
            (fresh_save_context, { files := [], calls := [] })).1).2.1).2.files
      = [['d', '/', 't', '.', '1'], ['d', '/', 't', '.', '0']] :=
  ⟨by decide,
    (congrArg World.files
      ((staging_files_after_rollback_and_commit (plain_env []) plain_flush
        (rados_save_begin (plain_env [])
          (save_one_mail (plain_env []) plain_flush
            (fresh_save_context, { files := [], calls := [] })).2
          (save_one_mail (plain_env []) plain_flush
            (fresh_save_context, { files := [], calls := [] })).1).2.2
        (rados_save_begin (plain_env [])
          (save_one_mail (plain_env []) plain_flush
            (fresh_save_context, { files := [], calls := [] })).2
          (save_one_mail (plain_env []) plain_flush
            (fresh_save_context, { files := [], calls := [] })).1).2.1).1 (by decide))).trans
      (by decide)⟩

/-- C29: when the exclusive open of the staging path of number `mail_count`
fails, because the path exists or the open is denied, `rados_save_begin`
returns -1 and creates nothing; a following `rados_save_finish` or
`rados_save_cancel` then makes one call, the unlink of exactly that path,
returns -1 and leaves `mail_count` as it was, so a file of that name that was
there before the transaction is deleted. -/
theorem finish_after_failed_open_unlinks (env : SysEnv) (fenv : FlushEnv) (w : World)
    (ctx : rados_save_context)
    (hopen : rados_get_save_path ctx ctx.mail_count ∈ w.files
      ∨ env.open_denied (rados_get_save_path ctx ctx.mail_count) = true) :
    (rados_save_begin env w ctx).1 = -1
      ∧ (rados_save_begin env w ctx).2.2.files = w.files
      ∧ (rados_save_begin env w ctx).2.2.calls
          = w.calls ++ [SysCall.open_excl (rados_get_save_path ctx ctx.mail_count) false]
      ∧ (rados_save_finish fenv (rados_save_begin env w ctx).2.2
          (rados_save_begin env w ctx).2.1).1 = -1
      ∧ (rados_save_finish fenv (rados_save_begin env w ctx).2.2
          (rados_save_begin env w ctx).2.1).2.1.mail_count = ctx.mail_count
      ∧ (rados_save_finish fenv (rados_save_begin env w ctx).2.2
          (rados_save_begin env w ctx).2.1).2.2
          = { files := w.files.filter
                (fun p => decide (p ≠ rados_get_save_path ctx ctx.mail_count)),
              calls := w.calls
                ++ [SysCall.open_excl (rados_get_save_path ctx ctx.mail_count) false,
                    SysCall.unlink (rados_get_save_path ctx ctx.mail_count)] }
      ∧ (rados_save_cancel fenv (rados_save_begin env w ctx).2.2
          (rados_save_begin env w ctx).2.1).1.mail_count = ctx.mail_count
      ∧ (rados_save_cancel fenv (rados_save_begin env w ctx).2.2
          (rados_save_begin env w ctx).2.1).2
          = { files := w.files.filter
                (fun p => decide (p ≠ rados_get_save_path ctx ctx.mail_count)),
              calls := w.calls
                ++ [SysCall.open_excl (rados_get_save_path ctx ctx.mail_count) false,
                    SysCall.unlink (rados_get_save_path ctx ctx.mail_count)] } := by
  rw [rados_save_begin_open_failed env w ctx hopen]
  obtain ⟨_, _, h3⟩ := rados_save_finish_fields fenv
    { w with calls := w.calls
        ++ [SysCall.open_excl (rados_get_save_path ctx ctx.mail_count) false] }
    { ctx with failed := true, fd := -1 }
  obtain ⟨a, b, _, d⟩ := h3 (by simp)
  obtain ⟨_, k2, _, _, k5⟩ := rados_save_cancel_outcome fenv
    { w with calls := w.calls
        ++ [SysCall.open_excl (rados_get_save_path ctx ctx.mail_count) false] }
    { ctx with failed := true, fd := -1 }
  refine ⟨rfl, rfl, rfl, a, b, ?_, k2, ?_⟩
  · rw [d]
    simp [i_unlink, rados_get_save_path]
  · rw [k5]
    simp [i_unlink, rados_get_save_path]

/-- Witness of C29: the staging path `d/t.0` of the fresh context exists
before the save begins; the finish deletes it. -/
theorem finish_after_failed_open_unlinks_witness :
    rados_get_save_path fresh_save_context fresh_save_context.mail_count
      ∈ ({ files := [['d', '/', 't', '.', '0']], calls := [] } : World).files ∧
    (rados_save_finish plain_flush
        (rados_save_begin (plain_env []) { files := [['d', '/', 't', '.', '0']], calls := [] }
          fresh_save_context).2.2
        (rados_save_begin (plain_env []) { files := [['d', '/', 't', '.', '0']], calls := [] }
          fresh_save_context).2.1).2.2.files = [] :=
  ⟨by decide,
    (congrArg World.files
      (finish_after_failed_open_unlinks (plain_env []) plain_flush
        { files := [['d', '/', 't', '.', '0']], calls := [] } fresh_save_context
        (Or.inl (by decide))).2.2.2.2.2.1).trans (by decide)⟩

end RadosSave

/-! # Properties of the header of the mailbox index -/

namespace RboxStorage

/-! ## Lemmas on the rbox header -/

theorem guid_128_is_empty_zeros (layout : HeaderLayout) (n : Nat) :
    guid_128_is_empty (mailbox_guid layout (List.replicate n 0)) = true := by
  unfold guid_128_is_empty mailbox_guid
  rw [List.all_eq_true]
  intro b hb
  have := List.eq_of_mem_replicate (List.mem_of_mem_drop (List.mem_of_mem_take hb))
  simp [this]

theorem memcpy_zeros (data : List Nat) (size : Nat) :
    memcpy (List.replicate size 0) data (min data.length size)
      = data.take (min data.length size)
        ++ List.replicate (size - min data.length size) 0 := by
  simp [memcpy]

theorem rbox_read_header_opened (layout : HeaderLayout) (creating : Bool)
    (data hdr : List Nat) (log_error : Bool) :
    ∃ r, rbox_read_header layout true creating data hdr log_error = some r := by
  unfold rbox_read_header
  simp

/-- C28: on an opened mailbox `rbox_read_header` returns 0 or -1.  It
returns 0 exactly when the blob has at least `RBOX_INDEX_HEADER_MIN_SIZE`
bytes and the guid of the header made from it is not empty; for a blob of size
0 it returns -1, creating or not.  When the size check fails the header is
left as it was; otherwise, and so whenever 0 is returned, the header is the
first min(data_size, sizeof) bytes of the blob followed by zero bytes, and on
0 that header is also handed to the index.  `*need_resize_r` is always
`data_size < sizeof`. -/
theorem rbox_read_header_outcome (layout : HeaderLayout) (creating : Bool)
    (data hdr : List Nat) (log_error : Bool) :
    ∃ r, rbox_read_header layout true creating data hdr log_error = some r
      ∧ (r.ret = 0 ∨ r.ret = -1)
      ∧ (r.ret = 0 ↔ layout.RBOX_INDEX_HEADER_MIN_SIZE ≤ data.length
          ∧ guid_128_is_empty (mailbox_guid layout
              (data.take (min data.length layout.sizeof_hdr)
                ++ List.replicate (layout.sizeof_hdr - min data.length layout.sizeof_hdr) 0))
            = false)
      ∧ (data.length = 0 → r.ret = -1)
      ∧ ((data.length < layout.RBOX_INDEX_HEADER_MIN_SIZE
            ∧ (creating = false ∨ data.length ≠ 0)) →
          r.ret = -1 ∧ r.hdr = hdr ∧ r.critical = log_error ∧ r.ext_init_data = none)
      ∧ (¬ (data.length < layout.RBOX_INDEX_HEADER_MIN_SIZE
            ∧ (creating = false ∨ data.length ≠ 0)) →
          r.hdr = data.take (min data.length layout.sizeof_hdr)
            ++ List.replicate (layout.sizeof_hdr - min data.length layout.sizeof_hdr) 0)
      ∧ (r.ret = 0 →
          r.hdr = data.take (min data.length layout.sizeof_hdr)
            ++ List.replicate (layout.sizeof_hdr - min data.length layout.sizeof_hdr) 0
          ∧ r.ext_init_data = some r.hdr)
      ∧ r.need_resize_r = decide (data.length < layout.sizeof_hdr) := by
  rw [← memcpy_zeros]
  by_cases h1 : data.length < layout.RBOX_INDEX_HEADER_MIN_SIZE
      ∧ (creating = false ∨ data.length ≠ 0)
  · have e : rbox_read_header layout true creating data hdr log_error
        = some { ret := -1, hdr := hdr,
                 need_resize_r := decide (data.length < layout.sizeof_hdr),
                 critical := log_error, ext_init_data := none } := by
      unfold rbox_read_header
      simp only [Bool.not_true, Bool.false_eq_true, if_false]
      rw [if_pos h1]
    refine ⟨_, e, Or.inr rfl, ⟨fun h => absurd h (by simp), fun h => ?_⟩, fun _ => rfl,
      fun _ => ⟨rfl, rfl, rfl, rfl⟩, fun h => absurd h1 h, fun h => absurd h (by simp), rfl⟩
    exact absurd h1.1 (by omega)
  · by_cases h2 : guid_128_is_empty (mailbox_guid layout
        (memcpy (List.replicate layout.sizeof_hdr 0) data (min data.length layout.sizeof_hdr)))
        = true
    · have e : rbox_read_header layout true creating data hdr log_error
          = some { ret := -1,
                   hdr := memcpy (List.replicate layout.sizeof_hdr 0) data
                     (min data.length layout.sizeof_hdr),
                   need_resize_r := decide (data.length < layout.sizeof_hdr),
                   critical := false, ext_init_data := none } := by
        unfold rbox_read_header
        simp only [Bool.not_true, Bool.false_eq_true, if_false]
        rw [if_neg h1, if_pos h2]
      refine ⟨_, e, Or.inr rfl, ⟨fun h => absurd h (by simp), fun h => ?_⟩, fun _ => rfl,
        fun h => absurd h h1, fun _ => rfl, fun h => absurd h (by simp), rfl⟩
      rw [h2] at h
      exact absurd h.2 (by decide)
    · have e : rbox_read_header layout true creating data hdr log_error
          = some { ret := 0,
                   hdr := memcpy (List.replicate layout.sizeof_hdr 0) data
                     (min data.length layout.sizeof_hdr),
                   need_resize_r := decide (data.length < layout.sizeof_hdr),
                   critical := false,
                   ext_init_data := some (memcpy (List.replicate layout.sizeof_hdr 0) data
                     (min data.length layout.sizeof_hdr)) } := by
        unfold rbox_read_header
        simp only [Bool.not_true, Bool.false_eq_true, if_false]
        rw [if_neg h1, if_neg h2]
      have hnonempty : data ≠ [] := by
        intro hd
        apply h2
        rw [hd]
        simp only [List.length_nil, Nat.zero_min, memcpy, List.take_nil, List.drop_zero,
          List.nil_append]
        exact guid_128_is_empty_zeros layout _
      have hlen : data.length ≠ 0 := fun h0 => hnonempty (List.length_eq_zero.mp h0)
      have hmin : layout.RBOX_INDEX_HEADER_MIN_SIZE ≤ data.length := by
        by_contra hlt
        exact h1 ⟨by omega, Or.inr hlen⟩
      exact ⟨_, e, Or.inl rfl, ⟨fun _ => ⟨hmin, by simpa using h2⟩, fun _ => rfl⟩,
        fun h0 => absurd h0 hlen, fun h => absurd h h1, fun _ => rfl, fun _ => ⟨rfl, rfl⟩, rfl⟩

/-- A run of C28: a blob of six bytes under a header of 24 bytes whose guid
starts at offset 4; the function returns 0, the header is the blob followed
by 18 zero bytes, and a resize is asked for. -/
theorem rbox_read_header_outcome_witness :
    ∃ r, rbox_read_header ⟨4, 24, 4⟩ true false [1, 0, 0, 0, 7, 7] [] true = some r
      ∧ r.ret = 0
      ∧ r.hdr = [1, 0, 0, 0, 7, 7] ++ List.replicate 18 0
      ∧ r.need_resize_r = true :=
  (rbox_read_header_outcome ⟨4, 24, 4⟩ false [1, 0, 0, 0, 7, 7] [] true).elim
    (fun r h => ⟨r, h.1, h.2.2.1.mpr ⟨by decide, by decide⟩,
      (h.2.2.2.2.2.2.1 (h.2.2.1.mpr ⟨by decide, by decide⟩)).1.trans (by decide),
      h.2.2.2.2.2.2.2.trans (by decide)⟩)

/-! ## Lemmas on the creation of the indexes -/

theorem rbox_update_header_appends (env : IndexEnv) (update : Option mailbox_update)
    (hopen : env.opened = true) :
    ∃ (ws : List IndexUpdate) (guid : List Nat),
      (∀ trans, rbox_update_header env trans update
        = some { trans := trans ++ ws, mailbox_guid := guid })
      ∧ ∀ x ∈ ws, (∃ n, x = IndexUpdate.ext_resize_hdr n) ∨ (∃ h, x = IndexUpdate.header_ext h) := by
  obtain ⟨rh, hrh⟩ := rbox_read_header_opened env.layout env.creating env.ext_data
    env.stack_hdr true
  refine ⟨((rbox_update_header env [] update).map (fun r => r.trans)).getD [],
    ((rbox_update_header env [] update).map (fun r => r.mailbox_guid)).getD [],
    fun trans => ?_, ?_⟩
  · unfold rbox_update_header
    rw [hopen, hrh]
    simp only
    split_ifs <;> simp
  · unfold rbox_update_header
    rw [hopen, hrh]
    simp only
    split_ifs <;> simp

theorem mem_ite_singleton (c : Prop) [Decidable c] (x y : IndexUpdate) :
    x ∈ (if c then [y] else []) ↔ c ∧ x = y := by
  split_ifs with h <;> simp [h]

theorem mem_ite_pair (c : Prop) [Decidable c] (x y z : IndexUpdate) :
    x ∈ (if c then [y, z] else []) ↔ c ∧ (x = y ∨ x = z) := by
  split_ifs with h <;> simp [h]

/-- C30: on an opened mailbox `rbox_mailbox_create_indexes` returns, and of
the four watermarks it writes `next_uid` only with an update whose
`min_next_uid` is above the header's, and then that value; `first_recent_uid`
only with an update whose `min_first_recent_uid` is not zero and above the
header's; the highest modseq only with an update whose `min_highest_modseq`
is not zero and above the current one; and `uid_validity`, chosen as the
update's when not zero, else the header's when not zero, else the generated
one, only when it differs from the header's.  Without an update and with a
header `uid_validity` that is not zero none of the four is written. -/
theorem rbox_mailbox_create_indexes_watermarks (env : IndexEnv)
    (update : Option mailbox_update) (trans : Option (List IndexUpdate))
    (hopen : env.opened = true) :
    ∃ (r : CreateIndexesResult) (written : List IndexUpdate) (chosen : Nat),
      rbox_mailbox_create_indexes env update trans = some r
      ∧ r.trans = trans.getD [] ++ written
      ∧ (∀ v, IndexUpdate.next_uid v ∈ written ↔
          ∃ u, update = some u ∧ env.hdr.next_uid < u.min_next_uid ∧ v = u.min_next_uid)
      ∧ (∀ v, IndexUpdate.first_recent_uid v ∈ written ↔
          ∃ u, update = some u ∧ u.min_first_recent_uid ≠ 0
            ∧ env.hdr.first_recent_uid < u.min_first_recent_uid ∧ v = u.min_first_recent_uid)
      ∧ (∀ v, IndexUpdate.highest_modseq v ∈ written ↔
          ∃ u, update = some u ∧ u.min_highest_modseq ≠ 0
            ∧ env.modseq_highest < u.min_highest_modseq ∧ v = u.min_highest_modseq)
      ∧ (∀ v, IndexUpdate.uid_validity v ∈ written ↔ v = chosen ∧ env.hdr.uid_validity ≠ v)
      ∧ (∀ u, update = some u → u.uid_validity ≠ 0 → chosen = u.uid_validity)
      ∧ ((update = none ∨ ∃ u, update = some u ∧ u.uid_validity = 0) →
          (env.hdr.uid_validity ≠ 0 → chosen = env.hdr.uid_validity)
          ∧ (env.hdr.uid_validity = 0 → chosen = env.uidvalidity_next))
      ∧ (update = none → env.hdr.uid_validity ≠ 0 →
          ∀ v, IndexUpdate.uid_validity v ∉ written ∧ IndexUpdate.next_uid v ∉ written
            ∧ IndexUpdate.first_recent_uid v ∉ written
            ∧ IndexUpdate.highest_modseq v ∉ written) := by
  obtain ⟨ws, guid, hws, hext⟩ := rbox_update_header_appends env update hopen
  have n1 : ∀ v, IndexUpdate.next_uid v ∉ ws := by
    intro v h
    rcases hext _ h with ⟨_, e⟩ | ⟨_, e⟩ <;> cases e
  have n2 : ∀ v, IndexUpdate.first_recent_uid v ∉ ws := by
    intro v h
    rcases hext _ h with ⟨_, e⟩ | ⟨_, e⟩ <;> cases e
  have n3 : ∀ v, IndexUpdate.highest_modseq v ∉ ws := by
    intro v h
    rcases hext _ h with ⟨_, e⟩ | ⟨_, e⟩ <;> cases e
  have n4 : ∀ v, IndexUpdate.uid_validity v ∉ ws := by
    intro v h
    rcases hext _ h with ⟨_, e⟩ | ⟨_, e⟩ <;> cases e
  cases update with
  | none =>
    refine ⟨{ ret := if trans.isNone = true ∧ env.commit < 0 then -1 else 0,
              trans := trans.getD [] ++
                ((if env.hdr.uid_validity ≠
                    (if env.hdr.uid_validity ≠ 0 then env.hdr.uid_validity
                      else env.uidvalidity_next)
                  then [IndexUpdate.uid_validity
                    (if env.hdr.uid_validity ≠ 0 then env.hdr.uid_validity
                      else env.uidvalidity_next)]
                  else [])
                ++ ((if env.inbox_user = true ∧ env.creating = true
                    then [IndexUpdate.pop3_uidl_max_uid 0] else []) ++ ws)),
              committed := decide (trans.isNone = true ∧ ¬ env.commit < 0) },
      _, (if env.hdr.uid_validity ≠ 0 then env.hdr.uid_validity else env.uidvalidity_next),
      ?_, rfl, ?_, ?_, ?_, ?_, ?_, ?_, ?_⟩
    · cases trans <;> by_cases hc : env.commit < 0 <;>
        simp [rbox_mailbox_create_indexes, hws, hc, List.append_assoc]
    · intro v
      simp [mem_ite_singleton, n1]
    · intro v
      simp [mem_ite_singleton, n2]
    · intro v
      simp [mem_ite_singleton, n3]
    · intro v
      simp only [List.mem_append, mem_ite_singleton, n4, or_false, IndexUpdate.uid_validity.injEq,
        reduceCtorEq, and_false]
      constructor
      · rintro ⟨h1, h2⟩
        exact ⟨h2, h2 ▸ h1⟩
      · rintro ⟨h1, h2⟩
        exact ⟨h1 ▸ h2, h1⟩
    · intro u hu
      cases hu
    · intro _
      constructor <;> intro h <;> simp [h]
    · intro _ h v
      simp [mem_ite_singleton, h, n1, n2, n3, n4]
  | some u =>
    refine ⟨{ ret := if trans.isNone = true ∧ env.commit < 0 then -1 else 0,
              trans := trans.getD [] ++
                ((if env.hdr.uid_validity ≠
                    (if u.uid_validity ≠ 0 then u.uid_validity
                      else if env.hdr.uid_validity ≠ 0 then env.hdr.uid_validity
                      else env.uidvalidity_next)
                  then [IndexUpdate.uid_validity
                    (if u.uid_validity ≠ 0 then u.uid_validity
                      else if env.hdr.uid_validity ≠ 0 then env.hdr.uid_validity
                      else env.uidvalidity_next)]
                  else [])
                ++ ((if env.hdr.next_uid < u.min_next_uid
                    then [IndexUpdate.next_uid u.min_next_uid] else [])
                ++ ((if u.min_first_recent_uid ≠ 0
                      ∧ env.hdr.first_recent_uid < u.min_first_recent_uid
                    then [IndexUpdate.first_recent_uid u.min_first_recent_uid] else [])
                ++ ((if u.min_highest_modseq ≠ 0 ∧ env.modseq_highest < u.min_highest_modseq
                    then [IndexUpdate.modseq_enable,
                      IndexUpdate.highest_modseq u.min_highest_modseq] else [])
                ++ ((if env.inbox_user = true ∧ env.creating = true
                    then [IndexUpdate.pop3_uidl_max_uid 0] else []) ++ ws))))),
              committed := decide (trans.isNone = true ∧ ¬ env.commit < 0) },
      _, (if u.uid_validity ≠ 0 then u.uid_validity
            else if env.hdr.uid_validity ≠ 0 then env.hdr.uid_validity
            else env.uidvalidity_next),
      ?_, rfl, ?_, ?_, ?_, ?_, ?_, ?_, ?_⟩
    · cases trans <;> by_cases hc : env.commit < 0 <;>
        simp [rbox_mailbox_create_indexes, hws, hc, List.append_assoc]
    · intro v
      simp only [List.mem_append, mem_ite_singleton, mem_ite_pair, n1, or_false,
        IndexUpdate.next_uid.injEq, reduceCtorEq, and_false, false_or, or_self,
        Option.some.injEq, exists_eq_left']
    · intro v
      simp only [List.mem_append, mem_ite_singleton, mem_ite_pair, n2, or_false,
        IndexUpdate.first_recent_uid.injEq, reduceCtorEq, and_false, false_or, or_self,
        Option.some.injEq, exists_eq_left', and_assoc]
    · intro v
      simp only [List.mem_append, mem_ite_singleton, mem_ite_pair, n3, or_false,
        IndexUpdate.highest_modseq.injEq, reduceCtorEq, and_false, false_or, or_self,
        Option.some.injEq, exists_eq_left', and_assoc]
    · intro v
      simp only [List.mem_append, mem_ite_singleton, mem_ite_pair, n4, or_false,
        IndexUpdate.uid_validity.injEq, reduceCtorEq, and_false, or_self]
      constructor
      · rintro ⟨h1, h2⟩
        exact ⟨h2, h2 ▸ h1⟩
      · rintro ⟨h1, h2⟩
        exact ⟨h1 ▸ h2, h1⟩
    · intro u0 hu h0
      cases hu
      simp [h0]
    · rintro (h | ⟨u0, hu, h0⟩)
      · cases h
      · cases hu
        constructor <;> intro h <;> simp [h0, h]
    · intro h
      cases h

/-- Witness of C30: a header with `next_uid` 5 and an update that asks for
`min_next_uid` 10, without a transaction of the caller; `next_uid` 10 is
written. -/
theorem rbox_mailbox_create_indexes_watermarks_witness :
    (⟨⟨4, 24, 4⟩, true, false, false, ⟨1, 5, 1⟩, 1, 9, [], [], List.replicate 16 1, 0⟩
      : IndexEnv).opened = true ∧
    ∃ (r : CreateIndexesResult) (written : List IndexUpdate),
      rbox_mailbox_create_indexes
        ⟨⟨4, 24, 4⟩, true, false, false, ⟨1, 5, 1⟩, 1, 9, [], [], List.replicate 16 1, 0⟩
        (some ⟨0, 10, 0, 0, []⟩) none = some r
      ∧ r.trans = [] ++ written ∧ IndexUpdate.next_uid 10 ∈ written :=
  ⟨rfl,
    (rbox_mailbox_create_indexes_watermarks
      ⟨⟨4, 24, 4⟩, true, false, false, ⟨1, 5, 1⟩, 1, 9, [], [], List.replicate 16 1, 0⟩
      (some ⟨0, 10, 0, 0, []⟩) none rfl).elim
      (fun r h => h.elim (fun written h => h.elim (fun _ h =>
        ⟨r, written, h.1, h.2.1,
          (h.2.2.1 10).mpr ⟨⟨0, 10, 0, 0, []⟩, rfl, by decide, rfl⟩⟩)))⟩

end RboxStorage
